import Mathlib

/-!
# k8ConsoleViewer: the viewport / position model of `gui.go`

A shallow embedding of `src/gui.go` and the properties of its position index, viewport and
cursor.

* Go's `int` is 64 bits wide and is modelled by `Int`.  The increment `gui.scrollOffset++` of
  `moveCursorDown` is not guarded by any test and wraps around (`wrapInt64`).  The other
  increments and decrements are guarded by a comparison (`curY + 1`, `curY - 1`,
  `scrollOffset - 1`, `yPosition++`) or bounded by the length of the slices walked
  (`position++`, `offset++`, `len(name) + 2`) and cannot overflow.  `height` is a terminal
  size, so `height - StatusAreaHeight` cannot overflow.  The index
  `curY - InfoAreaStart + scrollOffset` is taken as a mathematical integer: where the 64-bit
  sum would wrap, neither it nor the wrapped value is a row of an index built by
  `updatePositions`.
* `len(s)` of a Go string is its number of bytes: `String.utf8ByteSize`.
* A Go map is modelled by `GoMap`, a finite list of key/value entries with pairwise distinct
  keys; reading a missing key gives the zero value of the value type, as in Go.
  `gui.nsCollapsed` is an allocated map.
* `map[int]*Namespace` and `map[int]*Pod` hold the addresses `&gui.Namespaces[i]` and
  `&gui.Namespaces[i].Pods[j]`, which are never nil; the embedding stores the value pointed
  to (a refresh replaces the tree as a whole and does not write into it).
* The functions are embedded as state changes of one thread.  Where the mutex matters, the
  section on the lock discipline embeds them a second time with the mutex and a log of the
  writes made without it.  `Group` and `TimeToExecute` are only printed by `printHeaders`
  and are left out of the state.
* The terminal cells are not modelled.  A function that only draws contributes no state
  change; the rows that `printMainInfo` draws and the lines that `printStatusArea` prints
  are returned as values.
-/

namespace K8ConsoleViewer

/-! ## Constants (gui.go, lines 11-19) -/

def NameColStartWidth : Int := 20
def StatusColStartWidth : Int := 8
def ReadyColWidth : Int := 7
def RestartsColWidth : Int := 10
def StatusAreaHeight : Int := 5
def InfoAreaStart : Int := 5
def TopAreaHeight : Int := 4

/-- The largest value of Go's 64-bit `int`. -/
def maxInt64 : Int := 9223372036854775807

/-- The smallest value of Go's 64-bit `int`. -/
def minInt64 : Int := -9223372036854775808

/-- The value that Go's 64-bit `int` holds after an arithmetic operation whose mathematical
result is `x`: `x` reduced modulo `2^64` into `[minInt64, maxInt64]`. -/
def wrapInt64 (x : Int) : Int :=
  (x + 9223372036854775808) % 18446744073709551616 - 9223372036854775808

/-- The Go builtin `len` on a string: its length in bytes. -/
def len (s : String) : Int := (s.utf8ByteSize : Int)

/-! ## Go maps -/

/-- A Go map as a finite list of entries; `set` keeps the keys pairwise distinct. -/
structure GoMap (κ : Type) (α : Type) where
  entries : List (κ × α)
deriving DecidableEq, Repr

namespace GoMap

variable {κ α : Type} [DecidableEq κ]

/-- The map produced by `make(map[K]V)`. -/
def empty : GoMap κ α := ⟨[]⟩

/-- Look a key up in a list of entries. -/
def lookup (k : κ) : List (κ × α) → Option α
  | [] => none
  | (k1, v) :: rest => if k1 = k then some v else lookup k rest

/-- Replace the value of `k` in a list of entries, or add the entry at the end. -/
def insert (k : κ) (v : α) : List (κ × α) → List (κ × α)
  | [] => [(k, v)]
  | (k1, v1) :: rest => if k1 = k then (k1, v) :: rest else (k1, v1) :: insert k v rest

/-- The two-valued read `v, ok := m[k]`, as an option. -/
def get? (m : GoMap κ α) (k : κ) : Option α := lookup k m.entries

/-- The assignment `m[k] = v`. -/
def set (m : GoMap κ α) (k : κ) (v : α) : GoMap κ α := ⟨insert k v m.entries⟩

/-- The keys of the map. -/
def keys (m : GoMap κ α) : List κ := m.entries.map Prod.fst

/-- The values of the map, as `for _, v := range m` visits them. -/
def values (m : GoMap κ α) : List α := m.entries.map Prod.snd

end GoMap

/-! ## Data model

`Namespace` and `Pod` are declared outside `gui.go`; the fields below are the ones `gui.go`
reads. -/

/-- Modelled from the spec: the `Pod` type, declared outside `gui.go`.  `Namespace` is the
name of the namespace its back-reference points to. -/
structure Pod where
  Name : String
  Namespace : String
  Ready : Int
  Total : Int
  Status : String
  Restarts : String
  Age : String
deriving DecidableEq, Repr

/-- Modelled from the spec: the `Namespace` type, declared outside `gui.go`.  `Error` is
`none` for a nil `error` and `some msg` for an error whose `Error()` method returns `msg`. -/
structure Namespace where
  Name : String
  Error : Option String
  Pods : List Pod
deriving DecidableEq, Repr

/-- The struct `Positions` (gui.go, lines 40-45). -/
structure Positions where
  namespaces : GoMap Int Namespace
  pods : GoMap Int Pod
  errors : GoMap Int String
  lastIndex : Int
deriving DecidableEq, Repr

/-- The struct `Gui` (gui.go, lines 21-38), without `Group`, `TimeToExecute` and `mutex`. -/
structure Gui where
  Context : String
  Namespaces : List Namespace
  height : Int
  width : Int
  curX : Int
  curY : Int
  curTopBorder : Int
  curBottomBorder : Int
  Positions : Positions
  nameWidth : Int
  statusWidth : Int
  scrollOffset : Int
  nsCollapsed : GoMap String Bool
deriving DecidableEq, Repr

/-! ## Lookups (gui.go, lines 305-315) -/

/-- The function `hasNamespace`: `p.namespaces[index] != nil`. -/
def Positions.hasNamespace (p : Positions) (index : Int) : Bool :=
  (p.namespaces.get? index).isSome

/-- The function `hasPod`: `p.pods[index] != nil`. -/
def Positions.hasPod (p : Positions) (index : Int) : Bool :=
  (p.pods.get? index).isSome

/-- The function `hasError`: `len(p.errors[index]) > 0`; a missing key reads as `""`. -/
def Positions.hasError (p : Positions) (index : Int) : Bool :=
  decide (len ((p.errors.get? index).getD "") > 0)

/-- The read `gui.nsCollapsed[name]`; a missing key reads as `false`. -/
def isCollapsed (c : GoMap String Bool) (name : String) : Bool :=
  (c.get? name).getD false

/-! ## updatePositions (gui.go, lines 213-249) -/

/-- The local variables of `updatePositions`. -/
structure Builder where
  position : Int
  nsPositions : GoMap Int Namespace
  podPositions : GoMap Int Pod
  errPositions : GoMap Int String
  nameWidth : Int
  statusWidth : Int
deriving DecidableEq, Repr

/-- The locals as initialised on lines 214-220. -/
def Builder.init : Builder :=
  { position := 0, nsPositions := GoMap.empty, podPositions := GoMap.empty,
    errPositions := GoMap.empty, nameWidth := NameColStartWidth,
    statusWidth := StatusColStartWidth }

/-- One iteration of the inner loop over the pods (lines 235-244). -/
def podStep (b : Builder) (pod : Pod) : Builder :=
  { b with
    podPositions := b.podPositions.set b.position pod
    nameWidth := if len pod.Name + 5 > b.nameWidth then len pod.Name + 5 else b.nameWidth
    statusWidth :=
      if len pod.Status + 3 > b.statusWidth then len pod.Status + 3 else b.statusWidth
    position := b.position + 1 }

/-- The error row of an unfolded namespace (lines 231-234). -/
def errStep (b : Builder) (err : Option String) : Builder :=
  match err with
  | some msg => { b with errPositions := b.errPositions.set b.position msg
                         position := b.position + 1 }
  | none => b

/-- The head of an iteration of the outer loop (lines 223-227): the namespace gets its row. -/
def nsHead (b : Builder) (ns : Namespace) : Builder :=
  { b with
    nsPositions := b.nsPositions.set b.position ns
    nameWidth := if len ns.Name + 2 > b.nameWidth then len ns.Name + 2 else b.nameWidth
    position := b.position + 1 }

/-- One iteration of the outer loop over the namespaces (lines 222-245): after the head,
`continue` when the name is folded, else the error row and the loop over the pods. -/
def nsStep (collapsed : GoMap String Bool) (b : Builder) (ns : Namespace) : Builder :=
  if isCollapsed collapsed ns.Name then nsHead b ns
  else ns.Pods.foldl podStep (errStep (nsHead b ns) ns.Error)

/-- The locals of `updatePositions` after its loop. -/
def buildPositions (collapsed : GoMap String Bool) (nss : List Namespace) : Builder :=
  nss.foldl (nsStep collapsed) Builder.init

/-- The function `updatePositions`. -/
def updatePositions (gui : Gui) : Gui :=
  let b := buildPositions gui.nsCollapsed gui.Namespaces
  { gui with
    Positions := { namespaces := b.nsPositions, pods := b.podPositions,
                   errors := b.errPositions, lastIndex := b.position - 1 }
    nameWidth := b.nameWidth
    statusWidth := b.statusWidth }

/-! ## Drawing

A call of `printLine` is recorded as a value; the terminal cells themselves are not modelled. -/

/-- The termbox colours that `gui.go` uses. -/
inductive Color where
  | ColorDefault
  | ColorGreen
  | ColorYellow
  | ColorRed
deriving DecidableEq, Repr

/-- One call `printLine(line, x, y, fg, termbox.ColorDefault)`. -/
structure PrintCall where
  line : String
  x : Int
  y : Int
  fg : Color
deriving DecidableEq, Repr

/-- The function `printLine` (lines 279-283), background always `ColorDefault`. -/
def printLine (line : String) (x y : Int) (fg : Color) : List PrintCall :=
  [{ line := line, x := x, y := y, fg := fg }]

/-- The function `printDefaultLine` (lines 275-277). -/
def printDefaultLine (line : String) (x y : Int) : List PrintCall :=
  printLine line x y Color.ColorDefault

/-- The function `readyString` (lines 301-303). -/
def Pod.readyString (pod : Pod) : String :=
  toString pod.Ready ++ "/" ++ toString pod.Total

/-- The colour chosen on lines 252-260 of `printPodInfo`. -/
def Pod.fg (p : Pod) : Color :=
  let running := decide (p.Status = "Running")
  if running && decide (p.Ready ≥ p.Total) then Color.ColorGreen
  else if running && decide (p.Ready < p.Total) then Color.ColorYellow
  else Color.ColorRed

/-- The function `printPodInfo` (lines 251-267). -/
def Pod.printPodInfo (p : Pod) (y nameWidth statusWidth : Int) : List PrintCall :=
  let fg := p.fg
  printLine p.Name 3 y fg ++
  printLine p.readyString nameWidth y fg ++
  printLine p.Status (nameWidth + ReadyColWidth) y fg ++
  printLine p.Restarts (nameWidth + ReadyColWidth + statusWidth) y fg ++
  printLine p.Age (nameWidth + ReadyColWidth + statusWidth + RestartsColWidth) y fg

/-! ## printMainInfo (gui.go, lines 187-211) -/

/-- The loop condition of `printMainInfo` (line 190). -/
def Positions.hasRow (p : Positions) (offset : Int) : Bool :=
  p.hasNamespace offset || p.hasPod offset || p.hasError offset

/-- One iteration of the loop that draws: the screen line, the index row and the calls. -/
structure DrawnRow where
  y : Int
  offset : Int
  calls : List PrintCall
deriving DecidableEq, Repr

/-- The three `if`s of lines 192-200, for the index row `offset` on screen line `yPosition`. -/
def drawRow (gui : Gui) (offset yPosition : Int) : List PrintCall :=
  (if gui.Positions.hasNamespace offset then
    match gui.Positions.namespaces.get? offset with
    | some ns => printDefaultLine ns.Name 0 yPosition
    | none => []
  else []) ++
  (if gui.Positions.hasPod offset then
    match gui.Positions.pods.get? offset with
    | some pod => pod.printPodInfo yPosition gui.nameWidth gui.statusWidth
    | none => []
  else []) ++
  (if gui.Positions.hasError offset then
    printLine ((gui.Positions.errors.get? offset).getD "") 3 yPosition Color.ColorYellow
  else [])

/-- The loop of `printMainInfo` from the locals `offset` and `yPosition`, run for at most
`fuel` iterations: the rows it draws and the final `yPosition`. -/
def printMainInfoLoop (gui : Gui) : Nat → Int → Int → List DrawnRow × Int
  | 0, _, yPosition => ([], yPosition)
  | fuel + 1, offset, yPosition =>
    if gui.Positions.hasRow offset then
      if yPosition < gui.height - StatusAreaHeight then
        let r := printMainInfoLoop gui fuel (offset + 1) (yPosition + 1)
        ({ y := yPosition, offset := offset, calls := drawRow gui offset yPosition } :: r.1, r.2)
      else ([], yPosition)
    else ([], yPosition)

/-- The number of iterations after which the loop of `printMainInfo` has left through its
`break`: every iteration increases `yPosition`, which starts at `InfoAreaStart` and stays
below `height - StatusAreaHeight`. -/
def printMainInfoFuel (gui : Gui) : Nat :=
  (gui.height - StatusAreaHeight - InfoAreaStart).toNat

/-- The loop of `printMainInfo` from `offset := gui.scrollOffset`, `yPosition := InfoAreaStart`. -/
def printMainInfoRun (gui : Gui) : List DrawnRow × Int :=
  printMainInfoLoop gui (printMainInfoFuel gui) gui.scrollOffset InfoAreaStart

/-- The rows that `printMainInfo` draws. -/
def printMainInfoRows (gui : Gui) : List DrawnRow := (printMainInfoRun gui).1

/-- The function `printMainInfo`, as a state change: `curBottomBorder = yPosition - 1`. -/
def printMainInfo (gui : Gui) : Gui :=
  { gui with curBottomBorder := (printMainInfoRun gui).2 - 1 }

/-! ## Cursor (gui.go, lines 102-146 and 294-299) -/

/-- The function `moveCursor`, as a state change (`redrawCursor` only draws). -/
def moveCursor (gui : Gui) (x y : Int) : Gui :=
  { gui with curX := x, curY := y }

/-- The function `adjustCursorPosition` (lines 140-146). -/
def adjustCursorPosition (gui : Gui) : Gui :=
  if gui.curY > gui.curBottomBorder then moveCursor gui gui.curX gui.curBottomBorder
  else if gui.curY < gui.curTopBorder then moveCursor gui gui.curX gui.curTopBorder
  else gui

/-- The function `redrawAll` (lines 47-54), as a state change: `printMainInfo` then
`adjustCursorPosition`; `clear`, `printHeaders`, `printStatusArea` and `flush` only draw. -/
def redrawAll (gui : Gui) : Gui :=
  adjustCursorPosition (printMainInfo gui)

/-- The expression `gui.curY - InfoAreaStart + gui.scrollOffset` of lines 57, 68 and 160. -/
def cursorIndex (gui : Gui) : Int :=
  gui.curY - InfoAreaStart + gui.scrollOffset

/-- The body of `printStatusArea` (lines 161-184) once `index` is computed. -/
def statusAreaAt (gui : Gui) (index : Int) : List PrintCall :=
  printDefaultLine
    "Collapse/expand namespace info: Left and Right for individual, 'c' and 'e' for all"
    0 (gui.height - 1) ++
  if gui.Positions.hasNamespace index then
    match gui.Positions.namespaces.get? index with
    | some ns =>
      printDefaultLine
        ("kubectl --context " ++ gui.Context ++ " -n " ++ ns.Name ++ " get all")
        0 (gui.height - 4) ++
      printDefaultLine
        ("kubectl --context " ++ gui.Context ++ " -n " ++ ns.Name ++ " get ingress")
        0 (gui.height - 3) ++
      printDefaultLine
        ("kubectl --context " ++ gui.Context ++ " -n " ++ ns.Name ++
          " get ev --sort-by=.lastTimestamp")
        0 (gui.height - 2)
    | none => []
  else if gui.Positions.hasPod index then
    match gui.Positions.pods.get? index with
    | some pod =>
      printDefaultLine
        ("kubectl --context " ++ gui.Context ++ " -n " ++ pod.Namespace ++ " logs " ++ pod.Name)
        0 (gui.height - 4) ++
      printDefaultLine
        ("kubectl --context " ++ gui.Context ++ " -n " ++ pod.Namespace ++ " exec -it " ++
          pod.Name ++ " /bin/sh")
        0 (gui.height - 3)
    | none => []
  else []

/-- The function `printStatusArea` (lines 159-185): what it prints. -/
def printStatusArea (gui : Gui) : List PrintCall :=
  statusAreaAt gui (cursorIndex gui)

/-- The function `cursorToStartPos` (lines 294-299). -/
def cursorToStartPos (gui : Gui) : Gui :=
  moveCursor { gui with scrollOffset := 0 } 0 InfoAreaStart

/-- The function `moveCursorDown` (lines 102-111); `gui.scrollOffset++` wraps around at
`maxInt64`. -/
def moveCursorDown (gui : Gui) : Gui :=
  if gui.curY < gui.curBottomBorder then moveCursor gui gui.curX (gui.curY + 1)
  else redrawAll { gui with scrollOffset := wrapInt64 (gui.scrollOffset + 1) }

/-- The function `moveCursorUp` (lines 113-124). -/
def moveCursorUp (gui : Gui) : Gui :=
  if gui.curY > gui.curTopBorder then moveCursor gui gui.curX (gui.curY - 1)
  else if gui.scrollOffset > 0 then redrawAll { gui with scrollOffset := gui.scrollOffset - 1 }
  else gui

/-! ## Fold and unfold (gui.go, lines 56-100) -/

/-- The name `gui.Positions.namespaces[index].Name`, read when `hasNamespace(index)` holds. -/
def namespaceNameAt (gui : Gui) (index : Int) : String :=
  match gui.Positions.namespaces.get? index with
  | some ns => ns.Name
  | none => ""

/-- The locked part of `collapseNamespace` and `expandNamespace` (lines 60-61 and 71-72):
`gui.nsCollapsed[name] = flag` and then `gui.updatePositions()`. -/
def rebuildWithFlag (gui : Gui) (name : String) (flag : Bool) : Gui :=
  updatePositions { gui with nsCollapsed := gui.nsCollapsed.set name flag }

/-- The function `collapseNamespace` (lines 56-65). -/
def collapseNamespace (gui : Gui) : Gui :=
  let index := cursorIndex gui
  if gui.Positions.hasNamespace index &&
      !isCollapsed gui.nsCollapsed (namespaceNameAt gui index) then
    redrawAll (rebuildWithFlag gui (namespaceNameAt gui index) true)
  else gui

/-- The function `expandNamespace` (lines 67-76). -/
def expandNamespace (gui : Gui) : Gui :=
  let index := cursorIndex gui
  if gui.Positions.hasNamespace index &&
      isCollapsed gui.nsCollapsed (namespaceNameAt gui index) then
    redrawAll (rebuildWithFlag gui (namespaceNameAt gui index) false)
  else gui

/-- The loops of lines 80-82 and 92-94: `gui.nsCollapsed[ns.Name] = flag` for every value
of `gui.Positions.namespaces`. -/
def setAllCollapsed (gui : Gui) (flag : Bool) : GoMap String Bool :=
  gui.Positions.namespaces.values.foldl (fun c ns => c.set ns.Name flag) gui.nsCollapsed

/-- The function `collapseAllNS` (lines 78-88). -/
def collapseAllNS (gui : Gui) : Gui :=
  redrawAll (cursorToStartPos (updatePositions
    { gui with nsCollapsed := setAllCollapsed gui true }))

/-- The function `expandAllNS` (lines 90-100). -/
def expandAllNS (gui : Gui) : Gui :=
  redrawAll (cursorToStartPos (updatePositions
    { gui with nsCollapsed := setAllCollapsed gui false }))

/-! ## The flattening of the tree, as the specification words it -/

/-- A row of the position index. -/
inductive Row where
  | ns (n : Namespace)
  | err (msg : String)
  | pod (p : Pod)
deriving DecidableEq, Repr

/-- The namespace of a namespace row. -/
def Row.asNamespace : Row → Option Namespace
  | Row.ns n => some n
  | _ => none

/-- The pod of a pod row. -/
def Row.asPod : Row → Option Pod
  | Row.pod p => some p
  | _ => none

/-- The message of an error row. -/
def Row.asError : Row → Option String
  | Row.err msg => some msg
  | _ => none

/-- The rows of one namespace: itself, then, unless it is folded, its error (when present)
and its pods in their order. -/
def flattenNamespace (collapsed : GoMap String Bool) (ns : Namespace) : List Row :=
  Row.ns ns ::
    (if isCollapsed collapsed ns.Name then []
     else (match ns.Error with
           | some msg => [Row.err msg]
           | none => []) ++ ns.Pods.map Row.pod)

/-- The rows of the tree: the rows of its namespaces, in source order. -/
def flattenTree (collapsed : GoMap String Bool) : List Namespace → List Row
  | [] => []
  | ns :: rest => flattenNamespace collapsed ns ++ flattenTree collapsed rest

/-- The row with number `i`, counting from 0. -/
def rowAt (rows : List Row) (i : Int) : Option Row :=
  if i < 0 then none else rows[i.toNat]?

/-- The locals `b` of `updatePositions` hold exactly the rows `rows`: the counter is their
number and each map holds the rows of its kind under their numbers. -/
def BuilderInv (b : Builder) (rows : List Row) : Prop :=
  b.position = (rows.length : Int) ∧
  (∀ i : Int, b.nsPositions.get? i = (rowAt rows i).bind Row.asNamespace) ∧
  (∀ i : Int, b.podPositions.get? i = (rowAt rows i).bind Row.asPod) ∧
  (∀ i : Int, b.errPositions.get? i = (rowAt rows i).bind Row.asError)

/-- The number of rows that an unfolded namespace has below its own row: its error, when
present, and its pods. -/
def ownRows (n : Namespace) : Int :=
  (n.Pods.length : Int) + (if n.Error.isSome then 1 else 0)

/-! ## What the loop of `printMainInfo` computes -/

/-- Exactly `m` rows are populated from the index row `offset` and the screen line
`yPosition`: each of the `m` index rows has an entity and its screen line is above the
status area, and the next index row has no entity or its screen line is not above the
status area. -/
def Populates (gui : Gui) (offset yPosition : Int) (m : Nat) : Prop :=
  (∀ t : Nat, t < m → gui.Positions.hasRow (offset + (t : Int)) = true ∧
    yPosition + (t : Int) < gui.height - StatusAreaHeight) ∧
  (gui.Positions.hasRow (offset + (m : Int)) = false ∨
    gui.height - StatusAreaHeight ≤ yPosition + (m : Int))

/-- The `m` consecutive index rows from `offset`, drawn on the `m` consecutive screen lines
from `yPosition`. -/
def drawnRows (gui : Gui) (offset yPosition : Int) (m : Nat) : List DrawnRow :=
  (List.range m).map (fun t : Nat =>
    { y := yPosition + (t : Int), offset := offset + (t : Int),
      calls := drawRow gui (offset + (t : Int)) (yPosition + (t : Int)) })

/-! ## Example states -/

/-- A tree with one namespace `ns1` that carries the error `timeout` and no pod. -/
def exampleErrorGui : Gui :=
  { Context := "", Namespaces := [{ Name := "ns1", Error := some "timeout", Pods := [] }],
    height := 30, width := 80, curX := 0, curY := 5, curTopBorder := 5, curBottomBorder := 4,
    Positions := { namespaces := GoMap.empty, pods := GoMap.empty, errors := GoMap.empty,
                   lastIndex := -1 },
    nameWidth := 20, statusWidth := 8, scrollOffset := 0, nsCollapsed := GoMap.empty }

/-- The pod `podA` of the scenarios of the specification. -/
def podA : Pod :=
  { Name := "podA", Namespace := "default", Ready := 2, Total := 2, Status := "Running",
    Restarts := "0", Age := "1d" }

/-- The pod `podB` of the scenarios of the specification. -/
def podB : Pod :=
  { Name := "podB", Namespace := "default", Ready := 0, Total := 1, Status := "Pending",
    Restarts := "3", Age := "1d" }

/-- The namespace `default` with its two pods. -/
def defaultNamespace : Namespace :=
  { Name := "default", Error := none, Pods := [podA, podB] }

/-- A state with the namespace `default` (two pods) followed by `ns1` (an error, no pod),
nothing folded, on a terminal of 30 lines, before the first rebuild. -/
def exampleTreeGui : Gui :=
  { Context := "", Namespaces :=
      [defaultNamespace, { Name := "ns1", Error := some "timeout", Pods := [] }],
    height := 30, width := 80, curX := 0, curY := 5, curTopBorder := 5, curBottomBorder := 4,
    Positions := { namespaces := GoMap.empty, pods := GoMap.empty, errors := GoMap.empty,
                   lastIndex := -1 },
    nameWidth := 20, statusWidth := 8, scrollOffset := 0, nsCollapsed := GoMap.empty }

/-- A tree with one namespace whose error has the empty message, as `errors.New("")`. -/
def exampleEmptyErrorGui : Gui :=
  { Context := "", Namespaces := [{ Name := "ns1", Error := some "", Pods := [] }],
    height := 30, width := 80, curX := 0, curY := 5, curTopBorder := 5, curBottomBorder := 4,
    Positions := { namespaces := GoMap.empty, pods := GoMap.empty, errors := GoMap.empty,
                   lastIndex := -1 },
    nameWidth := 20, statusWidth := 8, scrollOffset := 0, nsCollapsed := GoMap.empty }

/-- The rebuilt index of `exampleTreeGui` (rows 0 to 4) on a terminal of 12 lines, where
only 2 rows fit, with the cursor on the second of them. -/
def exampleShortWindowGui : Gui :=
  { updatePositions exampleTreeGui with height := 12, curY := 6 }

/-- A state after a refresh: the tree holds `default` only, and `nsCollapsed` still records
the namespace `gone`, folded before the refresh removed it from the tree. -/
def exampleStaleNameGui : Gui :=
  updatePositions
    { exampleTreeGui with
      Namespaces := [defaultNamespace]
      nsCollapsed := (GoMap.empty : GoMap String Bool).set "gone" true }

/-- A state with an empty tree and its (empty) index. -/
def exampleEmptyTreeGui : Gui :=
  updatePositions { exampleTreeGui with Namespaces := [] }

/-- A state left by a redraw whose tree is `a` (one pod), `b` (an error with the empty
message and one pod) and `c`: the index has the rows 0 to 5, the window ends on row 2 (the
namespace `b`, screen line 7) and the cursor is on it. -/
def exampleErrorBelowGui : Gui :=
  redrawAll
    { updatePositions
        { exampleTreeGui with
          Namespaces := [{ Name := "a", Error := none, Pods := [podA] },
                         { Name := "b", Error := some "", Pods := [podB] },
                         { Name := "c", Error := none, Pods := [] }] }
      with curY := 7 }

/-- The state `exampleEmptyTreeGui` (`curY = 5`, `curBottomBorder = 4`) with
`scrollOffset = maxInt64`. -/
def exampleMaxScrollGui : Gui :=
  { exampleEmptyTreeGui with scrollOffset := maxInt64 }

/-- The rebuilt index of `exampleTreeGui` (rows 0 to 4) on 30 lines, left by a redraw,
with the cursor on the namespace `ns1` (row 3, screen line 8). -/
def exampleCursorOnNs1Gui : Gui :=
  redrawAll { updatePositions exampleTreeGui with curY := 8 }

/-- The namespace `other`, without error and without pods. -/
def otherNamespace : Namespace :=
  { Name := "other", Error := none, Pods := [] }

/-! ## Refresh -/

/-- The state after the namespace list is replaced as a whole by `namespaces` and
`updatePositions` is run on it, as on a refresh. -/
def refresh (gui : Gui) (namespaces : List Namespace) : Gui :=
  updatePositions { gui with Namespaces := namespaces }

/-! ## The column widths, as the specification words them -/

/-- The pods of the namespaces that are not folded, in source order. -/
def visiblePods (collapsed : GoMap String Bool) : List Namespace → List Pod
  | [] => []
  | ns :: rest =>
    (if isCollapsed collapsed ns.Name then [] else ns.Pods) ++ visiblePods collapsed rest

/-- The maximum of a floor and the numbers of a list. -/
def maxOver (floor : Int) (xs : List Int) : Int :=
  xs.foldl max floor

/-- The width `max(20, len(name) + 2 of every namespace, len(name) + 5 of every pod of an
unfolded namespace)`. -/
def nameWidthSpec (collapsed : GoMap String Bool) (nss : List Namespace) : Int :=
  maxOver (maxOver NameColStartWidth (nss.map (fun ns => len ns.Name + 2)))
    ((visiblePods collapsed nss).map (fun p => len p.Name + 5))

/-- The width `max(8, len(status) + 3 of every pod of an unfolded namespace)`. -/
def statusWidthSpec (collapsed : GoMap String Bool) (nss : List Namespace) : Int :=
  maxOver StatusColStartWidth ((visiblePods collapsed nss).map (fun p => len p.Status + 3))

/-! ## The commands as a state machine -/

/-- The operations of `gui.go` that the input loop and the refresh run on the state, one at
a time. -/
inductive Command where
  | moveCursorUp
  | moveCursorDown
  | collapseNamespace
  | expandNamespace
  | collapseAllNS
  | expandAllNS
  | updatePositions
  | redrawAll
deriving DecidableEq, Repr

/-- One step: the function of `gui.go` that the command names, run to completion. -/
def step (gui : Gui) : Command → Gui
  | Command.moveCursorUp => moveCursorUp gui
  | Command.moveCursorDown => moveCursorDown gui
  | Command.collapseNamespace => collapseNamespace gui
  | Command.expandNamespace => expandNamespace gui
  | Command.collapseAllNS => collapseAllNS gui
  | Command.expandAllNS => expandAllNS gui
  | Command.updatePositions => updatePositions gui
  | Command.redrawAll => redrawAll gui

/-- A finite sequence of commands, run from left to right. -/
def run (gui : Gui) (cmds : List Command) : Gui :=
  cmds.foldl step gui

/-- The command runs the `scrollOffset++` of `moveCursorDown` (line 107) on
`scrollOffset = maxInt64`, where it wraps around. -/
def scrollOffsetWraps (gui : Gui) (c : Command) : Bool :=
  decide (c = Command.moveCursorDown) && !decide (gui.curY < gui.curBottomBorder) &&
    decide (gui.scrollOffset = maxInt64)

/-- No command of the sequence, run from `gui`, makes `scrollOffset++` wrap around. -/
def neverWraps (gui : Gui) : List Command → Bool
  | [] => true
  | c :: rest => !scrollOffsetWraps gui c && neverWraps (step gui c) rest

/-! ## The lock discipline

The functions of `gui.go` once more, with `gui.mutex`: every `Lock`, `Unlock` and
assignment to a field of `gui`, and the tests by which a command decides what to write (the
fold and unfold tests, the border tests of the cursor moves), in the order of the source. -/

/-- The state together with `gui.mutex`: whether the mutex is held; the log of what was
done against the lock discipline (the fields written while the mutex was not held, a `Lock`
of the held mutex, an `Unlock` of the free mutex); and the source lines of the tests that
were evaluated while the mutex was not held. -/
structure Guarded where
  gui : Gui
  held : Bool
  log : List String
  freeTests : List Nat
deriving DecidableEq, Repr

namespace Guarded

/-- The call `gui.mutex.Lock()`. -/
def Lock (s : Guarded) : Guarded :=
  if s.held then { s with log := s.log ++ ["Lock"] } else { s with held := true }

/-- The call `gui.mutex.Unlock()`. -/
def Unlock (s : Guarded) : Guarded :=
  if s.held then { s with held := false } else { s with log := s.log ++ ["Unlock"] }

/-- An assignment to the field `field` of `gui`. -/
def write (s : Guarded) (field : String) (f : Gui → Gui) : Guarded :=
  { s with gui := f s.gui, log := if s.held then s.log else s.log ++ [field] }

/-- The evaluation of the test on the source line `line`. -/
def test (s : Guarded) (line : Nat) : Guarded :=
  if s.held then s else { s with freeTests := s.freeTests ++ [line] }

/-- The function `updatePositions` (lines 213-249): it takes no lock itself and assigns
`Positions`, `nameWidth` and `statusWidth` (lines 246-248). -/
def updatePositions (s : Guarded) : Guarded :=
  let b := buildPositions s.gui.nsCollapsed s.gui.Namespaces
  ((s.write "Positions" (fun g =>
      { g with Positions := { namespaces := b.nsPositions, pods := b.podPositions,
                              errors := b.errPositions, lastIndex := b.position - 1 } })).write
    "nameWidth" (fun g => { g with nameWidth := b.nameWidth })).write
    "statusWidth" (fun g => { g with statusWidth := b.statusWidth })

/-- The function `printMainInfo` (lines 187-211): the loop reads only, then lines 208-210. -/
def printMainInfo (s : Guarded) : Guarded :=
  let yPosition := (printMainInfoRun s.gui).2
  ((s.Lock).write "curBottomBorder" (fun g => { g with curBottomBorder := yPosition - 1 })).Unlock

/-- The function `moveCursor` (lines 126-132). -/
def moveCursor (s : Guarded) (x y : Int) : Guarded :=
  (((s.Lock).write "curX" (fun g => { g with curX := x })).write
    "curY" (fun g => { g with curY := y })).Unlock

/-- The function `adjustCursorPosition` (lines 140-146). -/
def adjustCursorPosition (s : Guarded) : Guarded :=
  if s.gui.curY > s.gui.curBottomBorder then s.moveCursor s.gui.curX s.gui.curBottomBorder
  else if s.gui.curY < s.gui.curTopBorder then s.moveCursor s.gui.curX s.gui.curTopBorder
  else s

/-- The function `redrawAll` (lines 47-54). -/
def redrawAll (s : Guarded) : Guarded :=
  (s.printMainInfo).adjustCursorPosition

/-- The function `cursorToStartPos` (lines 294-299). -/
def cursorToStartPos (s : Guarded) : Guarded :=
  (((s.Lock).write "scrollOffset" (fun g => { g with scrollOffset := 0 })).Unlock).moveCursor
    0 InfoAreaStart

/-- The function `updateWindowSize` (lines 285-292), for the size that `termbox.Size()`
returns. -/
def updateWindowSize (s : Guarded) (width height : Int) : Guarded :=
  (((s.Lock).write "width" (fun g => { g with width := width })).write
    "height" (fun g => { g with height := height })).Unlock

/-- The function `moveCursorDown` (lines 102-111): the test of line 103, then `moveCursor`
or the locked `scrollOffset++` of lines 106-108 and the redraw. -/
def moveCursorDown (s : Guarded) : Guarded :=
  if s.gui.curY < s.gui.curBottomBorder then
    (s.test 103).moveCursor s.gui.curX (s.gui.curY + 1)
  else
    ((((s.test 103).Lock).write "scrollOffset"
      (fun g => { g with scrollOffset := wrapInt64 (g.scrollOffset + 1) })).Unlock).redrawAll

/-- The function `moveCursorUp` (lines 113-124): the tests of lines 114 and 117, then
`moveCursor` or the locked `scrollOffset--` of lines 118-120 and the redraw. -/
def moveCursorUp (s : Guarded) : Guarded :=
  if s.gui.curY > s.gui.curTopBorder then
    (s.test 114).moveCursor s.gui.curX (s.gui.curY - 1)
  else if s.gui.scrollOffset > 0 then
    (((((s.test 114).test 117).Lock).write "scrollOffset"
      (fun g => { g with scrollOffset := g.scrollOffset - 1 })).Unlock).redrawAll
  else (s.test 114).test 117

/-- The function `collapseNamespace` (lines 56-65): `index` (line 57) and the test of line
58, then the lines 59-63; line 60 reads the name at `index` again. -/
def collapseNamespace (s : Guarded) : Guarded :=
  let index := cursorIndex s.gui
  if s.gui.Positions.hasNamespace index &&
      !isCollapsed s.gui.nsCollapsed (namespaceNameAt s.gui index) then
    (((((s.test 58).Lock).write "nsCollapsed"
      (fun g => { g with nsCollapsed := g.nsCollapsed.set (namespaceNameAt g index) true })
      ).updatePositions).Unlock).redrawAll
  else s.test 58

/-- The function `expandNamespace` (lines 67-76): `index` (line 68) and the test of line
69, then the lines 70-74; line 71 reads the name at `index` again. -/
def expandNamespace (s : Guarded) : Guarded :=
  let index := cursorIndex s.gui
  if s.gui.Positions.hasNamespace index &&
      isCollapsed s.gui.nsCollapsed (namespaceNameAt s.gui index) then
    (((((s.test 69).Lock).write "nsCollapsed"
      (fun g => { g with nsCollapsed := g.nsCollapsed.set (namespaceNameAt g index) false })
      ).updatePositions).Unlock).redrawAll
  else s.test 69

/-- The function `collapseAllNS` (lines 78-88); the assignments of its loop are one write
of `nsCollapsed`. -/
def collapseAllNS (s : Guarded) : Guarded :=
  (((((s.Lock).write "nsCollapsed"
    (fun g => { g with nsCollapsed := setAllCollapsed g true })).updatePositions).Unlock
    ).cursorToStartPos).redrawAll

/-- The function `expandAllNS` (lines 90-100); the assignments of its loop are one write
of `nsCollapsed`. -/
def expandAllNS (s : Guarded) : Guarded :=
  (((((s.Lock).write "nsCollapsed"
    (fun g => { g with nsCollapsed := setAllCollapsed g false })).updatePositions).Unlock
    ).cursorToStartPos).redrawAll

/-- The mutex is free and nothing was done against the lock discipline. -/
def Clean (s : Guarded) : Prop :=
  s.held = false ∧ s.log = []

/-- A state between two commands: the mutex is free, nothing is logged. -/
def start (gui : Gui) : Guarded :=
  { gui := gui, held := false, log := [], freeTests := [] }

end Guarded

/-- The test of line 58 of `collapseNamespace`, taken before the `Lock` of line 59. -/
def collapseNamespaceTest (gui : Gui) : Bool :=
  gui.Positions.hasNamespace (cursorIndex gui) &&
    !isCollapsed gui.nsCollapsed (namespaceNameAt gui (cursorIndex gui))

/-- The function `collapseNamespace` when a refresh runs between its test (line 58) and its
`Lock` (line 59): `index` and the test are taken on `gui`, the lines 59-63 run on the
refreshed state.  Line 60 reads `gui.Positions.namespaces[index].Name` in the refreshed
index; when that index has no namespace at `index` the pointer is nil and the program
panics (`none`). -/
def collapseNamespaceAfterRefresh (gui : Gui) (namespaces : List Namespace) : Option Gui :=
  let index := cursorIndex gui
  if collapseNamespaceTest gui then
    match (refresh gui namespaces).Positions.namespaces.get? index with
    | some ns => some (redrawAll (rebuildWithFlag (refresh gui namespaces) ns.Name true))
    | none => none
  else some (refresh gui namespaces)

/-! ## Go maps: reading after writing -/

namespace GoMap

variable {κ α : Type} [DecidableEq κ]

theorem lookup_insert (k j : κ) (v : α) (l : List (κ × α)) :
    lookup j (insert k v l) = if k = j then some v else lookup j l := by
  induction l with
  | nil => simp [insert, lookup]
  | cons e rest ih =>
    obtain ⟨k1, v1⟩ := e
    by_cases h1 : k1 = k
    · subst h1
      by_cases h2 : k1 = j <;> simp [insert, lookup, h2]
    · by_cases h2 : k = j
      · subst h2
        simp [insert, lookup, h1, ih]
      · by_cases h3 : k1 = j
        · subst h3
          simp [insert, lookup, h1, h2]
        · simp [insert, lookup, h1, h2, h3, ih]

theorem get?_set (m : GoMap κ α) (k j : κ) (v : α) :
    (m.set k v).get? j = if k = j then some v else m.get? j :=
  lookup_insert k j v m.entries

theorem get?_empty (j : κ) : (empty : GoMap κ α).get? j = none := rfl

end GoMap

/-! ## The flattening: list lemmas -/

theorem rowAt_nil (i : Int) : rowAt [] i = none := by
  unfold rowAt; split <;> simp

theorem rowAt_append_singleton (rows : List Row) (r : Row) (i : Int) :
    rowAt (rows ++ [r]) i = if i = (rows.length : Int) then some r else rowAt rows i := by
  unfold rowAt
  by_cases hneg : i < 0
  · have : i ≠ (rows.length : Int) := by omega
    simp [hneg, this]
  · simp only [hneg, if_false]
    by_cases heq : i = (rows.length : Int)
    · have h2 : i.toNat = rows.length := by omega
      simp [heq]
    · simp only [heq, if_false]
      by_cases hlt : i.toNat < rows.length
      · rw [List.getElem?_append_left hlt]
      · have h3 : rows.length < i.toNat := by omega
        rw [List.getElem?_eq_none (by simp; omega), List.getElem?_eq_none (by omega)]


/-! ## The invariant of the loops of `updatePositions` -/


theorem builderInv_init : BuilderInv Builder.init [] := by
  refine ⟨rfl, ?_, ?_, ?_⟩ <;> intro i <;> simp [rowAt_nil, Builder.init, GoMap.get?_empty]

theorem builderInv_podStep {b : Builder} {rows : List Row} (h : BuilderInv b rows) (p : Pod) :
    BuilderInv (podStep b p) (rows ++ [Row.pod p]) := by
  obtain ⟨hpos, hns, hpod, herr⟩ := h
  refine ⟨?_, ?_, ?_, ?_⟩
  · simp [podStep, hpos]
  · intro i
    rw [rowAt_append_singleton]
    by_cases hi : i = (rows.length : Int)
    · have hnone : rowAt rows i = none := by
        unfold rowAt; split
        · rfl
        · exact List.getElem?_eq_none (by omega)
      have := hns i
      simp [podStep, hi, Row.asNamespace] at this ⊢
      rw [this, ← hi, hnone]; rfl
    · simp [podStep, hi, hns i]
  · intro i
    rw [rowAt_append_singleton]
    by_cases hi : i = (rows.length : Int)
    · simp [podStep, GoMap.get?_set, hpos, hi, Row.asPod]
    · have hi2 : ¬ (rows.length : Int) = i := fun e => hi e.symm
      simp [podStep, GoMap.get?_set, hpos, hi, hi2, hpod i]
  · intro i
    rw [rowAt_append_singleton]
    by_cases hi : i = (rows.length : Int)
    · have hnone : rowAt rows i = none := by
        unfold rowAt; split
        · rfl
        · exact List.getElem?_eq_none (by omega)
      have := herr i
      simp [podStep, hi, Row.asError] at this ⊢
      rw [this, ← hi, hnone]; rfl
    · simp [podStep, hi, herr i]


theorem rowAt_length (rows : List Row) : rowAt rows (rows.length : Int) = none := by
  unfold rowAt; split
  · rfl
  · exact List.getElem?_eq_none (by omega)

theorem builderInv_errStep {b : Builder} {rows : List Row} (h : BuilderInv b rows)
    (msg : String) : BuilderInv (errStep b (some msg)) (rows ++ [Row.err msg]) := by
  obtain ⟨hpos, hns, hpod, herr⟩ := h
  refine ⟨?_, ?_, ?_, ?_⟩
  · simp [errStep, hpos]
  · intro i
    rw [rowAt_append_singleton]
    by_cases hi : i = (rows.length : Int)
    · rw [if_pos hi]; subst hi
      simpa [errStep, Row.asNamespace, rowAt_length] using hns (rows.length : Int)
    · simp [errStep, hi, hns i]
  · intro i
    rw [rowAt_append_singleton]
    by_cases hi : i = (rows.length : Int)
    · rw [if_pos hi]; subst hi
      simpa [errStep, Row.asPod, rowAt_length] using hpod (rows.length : Int)
    · simp [errStep, hi, hpod i]
  · intro i
    rw [rowAt_append_singleton]
    by_cases hi : i = (rows.length : Int)
    · simp [errStep, GoMap.get?_set, hpos, hi, Row.asError]
    · have hi2 : ¬ (rows.length : Int) = i := fun e => hi e.symm
      simp [errStep, GoMap.get?_set, hpos, hi, hi2, herr i]

theorem builderInv_nsHead {b : Builder} {rows : List Row} (h : BuilderInv b rows)
    (ns : Namespace) : BuilderInv (nsHead b ns) (rows ++ [Row.ns ns]) := by
  obtain ⟨hpos, hns, hpod, herr⟩ := h
  refine ⟨?_, ?_, ?_, ?_⟩
  · simp [nsHead, hpos]
  · intro i
    rw [rowAt_append_singleton]
    by_cases hi : i = (rows.length : Int)
    · simp [nsHead, GoMap.get?_set, hpos, hi, Row.asNamespace]
    · have hi2 : ¬ (rows.length : Int) = i := fun e => hi e.symm
      simp [nsHead, GoMap.get?_set, hpos, hi, hi2, hns i]
  · intro i
    rw [rowAt_append_singleton]
    by_cases hi : i = (rows.length : Int)
    · rw [if_pos hi]; subst hi
      simpa [nsHead, Row.asPod, rowAt_length] using hpod (rows.length : Int)
    · simp [nsHead, hi, hpod i]
  · intro i
    rw [rowAt_append_singleton]
    by_cases hi : i = (rows.length : Int)
    · rw [if_pos hi]; subst hi
      simpa [nsHead, Row.asError, rowAt_length] using herr (rows.length : Int)
    · simp [nsHead, hi, herr i]

theorem builderInv_pods (ps : List Pod) :
    ∀ {b : Builder} {rows : List Row}, BuilderInv b rows →
      BuilderInv (ps.foldl podStep b) (rows ++ ps.map Row.pod) := by
  induction ps with
  | nil => intro b rows h; simpa using h
  | cons p rest ih =>
    intro b rows h
    have h1 := ih (builderInv_podStep h p)
    simpa [List.foldl_cons, List.append_assoc] using h1

theorem builderInv_nsStep (c : GoMap String Bool) {b : Builder} {rows : List Row}
    (h : BuilderInv b rows) (ns : Namespace) :
    BuilderInv (nsStep c b ns) (rows ++ flattenNamespace c ns) := by
  unfold nsStep
  have h1 := builderInv_nsHead h ns
  unfold flattenNamespace
  by_cases hc : isCollapsed c ns.Name = true
  · simpa [hc] using h1
  · simp only [hc, if_false, Bool.false_eq_true]
    cases he : ns.Error with
    | none =>
      have h2 := builderInv_pods ns.Pods h1
      simpa [errStep, List.append_assoc] using h2
    | some msg =>
      have h2 := builderInv_pods ns.Pods (builderInv_errStep h1 msg)
      simpa [List.append_assoc] using h2

theorem builderInv_foldl (c : GoMap String Bool) (nss : List Namespace) :
    ∀ {b : Builder} {rows : List Row}, BuilderInv b rows →
      BuilderInv (nss.foldl (nsStep c) b) (rows ++ flattenTree c nss) := by
  induction nss with
  | nil => intro b rows h; simpa [flattenTree] using h
  | cons ns rest ih =>
    intro b rows h
    have h1 := ih (builderInv_nsStep c h ns)
    simpa [List.foldl_cons, flattenTree, List.append_assoc] using h1

theorem builderInv_buildPositions (c : GoMap String Bool) (nss : List Namespace) :
    BuilderInv (buildPositions c nss) (flattenTree c nss) := by
  have h := builderInv_foldl c nss builderInv_init
  simpa [buildPositions] using h

/-! ## C1: the index is the flattening of the tree -/


theorem flattenTree_append (c : GoMap String Bool) (xs ys : List Namespace) :
    flattenTree c (xs ++ ys) = flattenTree c xs ++ flattenTree c ys := by
  induction xs with
  | nil => simp [flattenTree]
  | cons x rest ih => simp [flattenTree, ih, List.append_assoc]

theorem flattenTree_cons (c : GoMap String Bool) (x : Namespace) (ys : List Namespace) :
    flattenTree c (x :: ys) = flattenNamespace c x ++ flattenTree c ys := rfl

/-- The position index of a rebuild, read through the flattening of the tree. -/
theorem updatePositions_rows (gui : Gui) :
    BuilderInv (buildPositions gui.nsCollapsed gui.Namespaces)
      (flattenTree gui.nsCollapsed gui.Namespaces) :=
  builderInv_buildPositions gui.nsCollapsed gui.Namespaces

/-- C1: `updatePositions` produces exactly the flattening of the tree.  Each of the three
maps holds, under the row number `i`, the row `i` of the flattening when that row is of the
map's kind and nothing otherwise; `lastIndex` is the number of rows minus 1; the empty tree
gives three empty maps and `lastIndex = -1`; a namespace without pods and without error adds
exactly one row. -/
theorem updatePositions_is_flattening (gui : Gui) :
    (∀ i : Int, (updatePositions gui).Positions.namespaces.get? i =
      (rowAt (flattenTree gui.nsCollapsed gui.Namespaces) i).bind Row.asNamespace) ∧
    (∀ i : Int, (updatePositions gui).Positions.pods.get? i =
      (rowAt (flattenTree gui.nsCollapsed gui.Namespaces) i).bind Row.asPod) ∧
    (∀ i : Int, (updatePositions gui).Positions.errors.get? i =
      (rowAt (flattenTree gui.nsCollapsed gui.Namespaces) i).bind Row.asError) ∧
    (updatePositions gui).Positions.lastIndex =
      ((flattenTree gui.nsCollapsed gui.Namespaces).length : Int) - 1 ∧
    (gui.Namespaces = [] →
      (updatePositions gui).Positions =
        { namespaces := GoMap.empty, pods := GoMap.empty, errors := GoMap.empty,
          lastIndex := -1 }) ∧
    (∀ (before after : List Namespace) (ns : Namespace),
      ns.Error = none → ns.Pods = [] →
      (updatePositions { gui with Namespaces := before ++ ns :: after }).Positions.lastIndex =
        (updatePositions { gui with Namespaces := before ++ after }).Positions.lastIndex + 1) := by
  obtain ⟨hpos, hns, hpod, herr⟩ := updatePositions_rows gui
  refine ⟨hns, hpod, herr, ?_, ?_, ?_⟩
  · show (buildPositions gui.nsCollapsed gui.Namespaces).position - 1 = _
    rw [hpos]
  · intro hnil
    simp [updatePositions, hnil, buildPositions, Builder.init]
  · intro before after ns he hp
    have h1 := (builderInv_buildPositions gui.nsCollapsed (before ++ ns :: after)).1
    have h2 := (builderInv_buildPositions gui.nsCollapsed (before ++ after)).1
    show (buildPositions gui.nsCollapsed (before ++ ns :: after)).position - 1 =
      (buildPositions gui.nsCollapsed (before ++ after)).position - 1 + 1
    rw [h1, h2, flattenTree_append, flattenTree_append, flattenTree_cons]
    have h3 : (flattenNamespace gui.nsCollapsed ns).length = 1 := by
      unfold flattenNamespace
      split <;> simp [he, hp]
    simp only [List.length_append, h3]
    push_cast
    omega

theorem updatePositions_is_flattening_witness :
    (updatePositions exampleErrorGui).Positions.namespaces.get? 0 =
      some { Name := "ns1", Error := some "timeout", Pods := [] } ∧
    (updatePositions exampleErrorGui).Positions.errors.get? 1 = some "timeout" ∧
    (updatePositions exampleErrorGui).Positions.lastIndex = 1 ∧
    (updatePositions { exampleErrorGui with Namespaces := [] }).Positions =
      { namespaces := GoMap.empty, pods := GoMap.empty, errors := GoMap.empty,
        lastIndex := -1 } :=
  ⟨((updatePositions_is_flattening exampleErrorGui).1 0).trans (by decide),
   ((updatePositions_is_flattening exampleErrorGui).2.2.1 1).trans (by decide),
   ((updatePositions_is_flattening exampleErrorGui).2.2.2.1).trans (by decide),
   (updatePositions_is_flattening { exampleErrorGui with Namespaces := [] }).2.2.2.2.1 rfl⟩

/-! ## Rows of a namespace inside the flattening -/

theorem rowAt_append_left (xs ys : List Row) (j : Int) (h : j < (xs.length : Int)) :
    rowAt (xs ++ ys) j = rowAt xs j := by
  unfold rowAt
  split
  · rfl
  · rw [List.getElem?_append_left (by omega)]

theorem rowAt_append_right (xs ys : List Row) (j : Int) (h : (xs.length : Int) ≤ j) :
    rowAt (xs ++ ys) j = rowAt ys (j - (xs.length : Int)) := by
  unfold rowAt
  have h1 : ¬ j < 0 := by omega
  have h2 : ¬ j - (xs.length : Int) < 0 := by omega
  rw [if_neg h1, if_neg h2, List.getElem?_append_right (by omega)]
  congr 1
  omega

theorem rowAt_some_lt {rows : List Row} {j : Int} {row : Row} (h : rowAt rows j = some row) :
    0 ≤ j ∧ j < (rows.length : Int) := by
  unfold rowAt at h
  split at h
  · cases h
  · rename_i hj
    have := (List.getElem?_eq_some.mp h).1
    omega

theorem rowAt_mem {rows : List Row} {j : Int} {row : Row} (h : rowAt rows j = some row) :
    row ∈ rows := by
  unfold rowAt at h
  split at h
  · cases h
  · exact List.getElem?_mem h

theorem isCollapsed_set (c : GoMap String Bool) (k x : String) (v : Bool) :
    isCollapsed (c.set k v) x = if k = x then v else isCollapsed c x := by
  unfold isCollapsed
  rw [GoMap.get?_set]
  split <;> rfl


theorem flattenNamespace_eq (c : GoMap String Bool) (x : Namespace) :
    flattenNamespace c x = Row.ns x ::
      (if isCollapsed c x.Name then []
       else (match x.Error with
             | some msg => [Row.err msg]
             | none => []) ++ x.Pods.map Row.pod) := rfl

theorem flattenNamespace_tail_not_ns (c : GoMap String Bool) (x n : Namespace) :
    Row.ns n ∉ (if isCollapsed c x.Name then []
       else (match x.Error with
             | some msg => [Row.err msg]
             | none => []) ++ x.Pods.map Row.pod) := by
  split
  · simp
  · cases x.Error <;> simp

theorem rowAt_cons_zero (a : Row) (rows : List Row) : rowAt (a :: rows) 0 = some a := by
  simp [rowAt]

theorem rowAt_cons_pos (a : Row) (rows : List Row) (j : Int) (h : 0 < j) :
    rowAt (a :: rows) j = rowAt rows (j - 1) := by
  have := rowAt_append_right [a] rows j (by simpa using h)
  simpa using this

theorem rowAt_flattenNamespace_ns {c : GoMap String Bool} {x n : Namespace} {j : Int}
    (h : rowAt (flattenNamespace c x) j = some (Row.ns n)) : j = 0 ∧ n = x := by
  rw [flattenNamespace_eq] at h
  have hr := rowAt_some_lt h
  by_cases hj : j = 0
  · subst hj
    rw [rowAt_cons_zero] at h
    injection h with h
    injection h with h
    exact ⟨rfl, h.symm⟩
  · rw [rowAt_cons_pos _ _ _ (by omega)] at h
    exact absurd (rowAt_mem h) (flattenNamespace_tail_not_ns c x n)

/-- A namespace row of the flattening is the row of a namespace of the tree, right after the
rows of the namespaces before it. -/
theorem rowAt_flattenTree_ns (c : GoMap String Bool) (nss : List Namespace) :
    ∀ (r : Int) (n : Namespace), rowAt (flattenTree c nss) r = some (Row.ns n) →
      ∃ before after, nss = before ++ n :: after ∧
        r = ((flattenTree c before).length : Int) := by
  induction nss with
  | nil => intro r n h; simp [flattenTree, rowAt_nil] at h
  | cons x rest ih =>
    intro r n h
    rw [flattenTree_cons] at h
    by_cases hlt : r < ((flattenNamespace c x).length : Int)
    · rw [rowAt_append_left _ _ _ hlt] at h
      obtain ⟨h0, hn⟩ := rowAt_flattenNamespace_ns h
      exact ⟨[], rest, by simp [hn], by simp [h0, flattenTree]⟩
    · rw [rowAt_append_right _ _ _ (by omega)] at h
      obtain ⟨before, after, hsplit, hr⟩ := ih _ _ h
      refine ⟨x :: before, after, by simp [hsplit], ?_⟩
      rw [flattenTree_cons, List.length_append]
      push_cast
      omega

theorem flattenTree_congr (c1 c2 : GoMap String Bool) (nss : List Namespace)
    (h : ∀ ns ∈ nss, isCollapsed c1 ns.Name = isCollapsed c2 ns.Name) :
    flattenTree c1 nss = flattenTree c2 nss := by
  induction nss with
  | nil => rfl
  | cons x rest ih =>
    rw [flattenTree_cons, flattenTree_cons, ih (fun ns hns => h ns (List.mem_cons_of_mem _ hns))]
    unfold flattenNamespace
    rw [h x (List.mem_cons_self _ _)]

theorem foldl_nsStep_congr (c1 c2 : GoMap String Bool) (nss : List Namespace)
    (h : ∀ ns ∈ nss, isCollapsed c1 ns.Name = isCollapsed c2 ns.Name) :
    ∀ b : Builder, nss.foldl (nsStep c1) b = nss.foldl (nsStep c2) b := by
  induction nss with
  | nil => intro b; rfl
  | cons x rest ih =>
    intro b
    have hx : nsStep c1 b x = nsStep c2 b x := by
      unfold nsStep
      rw [h x (List.mem_cons_self _ _)]
    rw [List.foldl_cons, List.foldl_cons, hx,
      ih (fun ns hns => h ns (List.mem_cons_of_mem _ hns))]

/-! ## Folding one namespace: list lemmas -/

theorem rowAt_skip_le (xs ms ys : List Row) (a : Row) (j : Int)
    (h : j ≤ (xs.length : Int)) :
    rowAt (xs ++ a :: ys) j = rowAt (xs ++ a :: (ms ++ ys)) j := by
  by_cases hlt : j < (xs.length : Int)
  · rw [rowAt_append_left _ _ _ hlt, rowAt_append_left _ _ _ hlt]
  · have hj : j = (xs.length : Int) := by omega
    rw [rowAt_append_right _ _ _ (by omega), rowAt_append_right _ _ _ (by omega)]
    simp [hj, rowAt_cons_zero]

theorem rowAt_skip_gt (xs ms ys : List Row) (a : Row) (j : Int)
    (h : (xs.length : Int) < j) :
    rowAt (xs ++ a :: ys) j = rowAt (xs ++ a :: (ms ++ ys)) (j + (ms.length : Int)) := by
  rw [rowAt_append_right _ _ _ (by omega), rowAt_append_right _ _ _ (by omega),
    rowAt_cons_pos _ _ _ (by omega), rowAt_cons_pos _ _ _ (by omega),
    rowAt_append_right ms ys _ (by omega)]
  congr 1
  omega

theorem rowAt_skipped (xs ms ys : List Row) (a : Row) (i : Nat) (h : i < ms.length) :
    rowAt (xs ++ a :: (ms ++ ys)) ((xs.length : Int) + 1 + (i : Int)) = ms[i]? := by
  rw [rowAt_append_right _ _ _ (by omega), rowAt_cons_pos _ _ _ (by omega),
    rowAt_append_left ms ys _ (by omega)]
  unfold rowAt
  rw [if_neg (by omega)]
  congr 1
  omega

theorem bind_asNamespace_eq_some {o : Option Row} {n : Namespace}
    (h : o.bind Row.asNamespace = some n) : o = some (Row.ns n) := by
  cases o with
  | none => cases h
  | some row =>
    cases row with
    | ns m => simp [Row.asNamespace] at h; rw [h]
    | err msg => simp [Row.asNamespace] at h
    | pod p => simp [Row.asNamespace] at h

/-- The rows below the own row of an unfolded namespace. -/
theorem flattenNamespace_unfolded (c : GoMap String Bool) (n : Namespace)
    (h : isCollapsed c n.Name = false) :
    flattenNamespace c n = Row.ns n ::
      ((match n.Error with
        | some msg => [Row.err msg]
        | none => []) ++ n.Pods.map Row.pod) := by
  simp [flattenNamespace, h]

theorem flattenNamespace_folded (c : GoMap String Bool) (n : Namespace)
    (h : isCollapsed c n.Name = true) :
    flattenNamespace c n = [Row.ns n] := by
  simp [flattenNamespace, h]

theorem ownRows_eq_length (n : Namespace) :
    ownRows n = ((((match n.Error with
        | some msg => [Row.err msg]
        | none => []) ++ n.Pods.map Row.pod : List Row).length : Nat) : Int) := by
  unfold ownRows
  cases n.Error <;> simp

/-- The flattenings of a tree with pairwise distinct names, before and after the namespace
`n` (unfolded before) is folded: the rows before `n`, its own row, then its error and pods
(only before the fold), then the rows after it. -/
theorem flattenTree_fold_split (c : GoMap String Bool) (before after : List Namespace)
    (n : Namespace)
    (hdistinct : ((before ++ n :: after).map Namespace.Name).Nodup)
    (hunfolded : isCollapsed c n.Name = false) :
    flattenTree c (before ++ n :: after) =
      flattenTree c before ++ Row.ns n ::
        (((match n.Error with
          | some msg => [Row.err msg]
          | none => []) ++ n.Pods.map Row.pod) ++ flattenTree c after) ∧
    flattenTree (c.set n.Name true) (before ++ n :: after) =
      flattenTree c before ++ Row.ns n :: flattenTree c after := by
  have hne : ∀ x ∈ before ++ after, n.Name ≠ x.Name := by
    intro x hx heq
    rw [List.map_append, List.map_cons] at hdistinct
    have hnd := List.nodup_append.mp hdistinct
    have hnc := List.nodup_cons.mp hnd.2.1
    rcases List.mem_append.mp hx with hb | ha
    · exact hnd.2.2 (List.mem_map_of_mem _ hb) (by rw [← heq]; exact List.mem_cons_self _ _)
    · exact hnc.1 (by rw [heq]; exact List.mem_map_of_mem _ ha)
  have hb : flattenTree (c.set n.Name true) before = flattenTree c before :=
    flattenTree_congr _ _ _ (fun x hx => by
      rw [isCollapsed_set, if_neg (hne x (List.mem_append_left _ hx))])
  have ha : flattenTree (c.set n.Name true) after = flattenTree c after :=
    flattenTree_congr _ _ _ (fun x hx => by
      rw [isCollapsed_set, if_neg (hne x (List.mem_append_right _ hx))])
  constructor
  · rw [flattenTree_append, flattenTree_cons, flattenNamespace_unfolded c n hunfolded]
    simp
  · rw [flattenTree_append, flattenTree_cons, hb, ha,
      flattenNamespace_folded _ n (by rw [isCollapsed_set, if_pos rfl])]
    simp

theorem rebuildWithFlag_rows (gui : Gui) (name : String) (flag : Bool) :
    BuilderInv (buildPositions (gui.nsCollapsed.set name flag) gui.Namespaces)
      (flattenTree (gui.nsCollapsed.set name flag) gui.Namespaces) :=
  builderInv_buildPositions _ _

/-- Folding and then unfolding a name that was not folded gives back the locals of the
first rebuild. -/
theorem buildPositions_fold_unfold (c : GoMap String Bool) (nss : List Namespace)
    (name : String) (h : isCollapsed c name = false) :
    buildPositions ((c.set name true).set name false) nss = buildPositions c nss := by
  unfold buildPositions
  apply foldl_nsStep_congr
  intro ns _
  rw [isCollapsed_set, isCollapsed_set]
  by_cases hn : name = ns.Name
  · rw [if_pos hn, ← hn, h]
  · rw [if_neg hn, if_neg hn]

/-! ## C3: folding one namespace and unfolding it again -/

/-- Folding and then unfolding a name that was not folded gives back the state of the first
rebuild, up to the entry of that name in `nsCollapsed`. -/
theorem rebuild_fold_unfold (gui : Gui) (name : String)
    (h : isCollapsed gui.nsCollapsed name = false) :
    rebuildWithFlag (rebuildWithFlag gui name true) name false =
      { updatePositions gui with
        nsCollapsed := (gui.nsCollapsed.set name true).set name false } := by
  have hb := buildPositions_fold_unfold gui.nsCollapsed gui.Namespaces name h
  simp only [rebuildWithFlag, updatePositions, hb]

/-- C3: in a tree with pairwise distinct namespace names, let the unfolded namespace `n` be
at row `r` and let `k = ownRows n` be the number of its pods plus 1 when it has an error.
Rebuilding the index with `n` folded leaves the rows up to `r` unchanged, removes the `k`
rows `r+1..r+k` (the error and the pods of `n`), maps every row `j > r` to the entity that
was at row `j + k` and lowers `lastIndex` by `k`; setting `n` back to unfolded and
rebuilding gives the `Positions`, `nameWidth` and `statusWidth` of before the fold. -/
theorem fold_shifts_rows_unfold_restores (gui : Gui) (n : Namespace) (r : Int)
    (hdistinct : (gui.Namespaces.map Namespace.Name).Nodup)
    (hrow : (updatePositions gui).Positions.namespaces.get? r = some n)
    (hunfolded : isCollapsed gui.nsCollapsed n.Name = false) :
    (∀ j : Int, j ≤ r →
      (rebuildWithFlag gui n.Name true).Positions.namespaces.get? j =
        (updatePositions gui).Positions.namespaces.get? j ∧
      (rebuildWithFlag gui n.Name true).Positions.pods.get? j =
        (updatePositions gui).Positions.pods.get? j ∧
      (rebuildWithFlag gui n.Name true).Positions.errors.get? j =
        (updatePositions gui).Positions.errors.get? j) ∧
    (∀ msg : String, n.Error = some msg →
      (updatePositions gui).Positions.errors.get? (r + 1) = some msg) ∧
    (∀ i : Nat, i < n.Pods.length →
      (updatePositions gui).Positions.pods.get?
        (r + 1 + (if n.Error.isSome then 1 else 0) + (i : Int)) = n.Pods[i]?) ∧
    (∀ j : Int, r < j →
      (rebuildWithFlag gui n.Name true).Positions.namespaces.get? j =
        (updatePositions gui).Positions.namespaces.get? (j + ownRows n) ∧
      (rebuildWithFlag gui n.Name true).Positions.pods.get? j =
        (updatePositions gui).Positions.pods.get? (j + ownRows n) ∧
      (rebuildWithFlag gui n.Name true).Positions.errors.get? j =
        (updatePositions gui).Positions.errors.get? (j + ownRows n)) ∧
    (rebuildWithFlag gui n.Name true).Positions.lastIndex =
      (updatePositions gui).Positions.lastIndex - ownRows n ∧
    (rebuildWithFlag (rebuildWithFlag gui n.Name true) n.Name false).Positions =
      (updatePositions gui).Positions ∧
    (rebuildWithFlag (rebuildWithFlag gui n.Name true) n.Name false).nameWidth =
      (updatePositions gui).nameWidth ∧
    (rebuildWithFlag (rebuildWithFlag gui n.Name true) n.Name false).statusWidth =
      (updatePositions gui).statusWidth := by
  obtain ⟨hpos, hns, hpod, herr⟩ := updatePositions_rows gui
  obtain ⟨hposF, hnsF, hpodF, herrF⟩ := rebuildWithFlag_rows gui n.Name true
  have hrow1 : rowAt (flattenTree gui.nsCollapsed gui.Namespaces) r = some (Row.ns n) :=
    bind_asNamespace_eq_some ((hns r).symm.trans hrow)
  obtain ⟨before, after, hsplit, hr⟩ := rowAt_flattenTree_ns _ _ _ _ hrow1
  rw [hsplit] at hdistinct
  obtain ⟨hrows, hrowsF⟩ := flattenTree_fold_split gui.nsCollapsed before after n hdistinct
    hunfolded
  rw [← hsplit] at hrows hrowsF
  rw [hrows] at hpos hns hpod herr
  rw [hrowsF] at hposF hnsF hpodF herrF
  have hk := ownRows_eq_length n
  refine ⟨?_, ?_, ?_, ?_, ?_, ?_, ?_, ?_⟩
  · intro j hj
    have hskip := rowAt_skip_le (flattenTree gui.nsCollapsed before)
      ((match n.Error with
        | some msg => [Row.err msg]
        | none => []) ++ n.Pods.map Row.pod) (flattenTree gui.nsCollapsed after) (Row.ns n) j
      (by omega)
    refine ⟨?_, ?_, ?_⟩
    · exact (hnsF j).trans (by rw [hskip]; exact (hns j).symm)
    · exact (hpodF j).trans (by rw [hskip]; exact (hpod j).symm)
    · exact (herrF j).trans (by rw [hskip]; exact (herr j).symm)
  · intro msg hmsg
    have h1 := rowAt_skipped (flattenTree gui.nsCollapsed before)
      ((match n.Error with
        | some msg => [Row.err msg]
        | none => []) ++ n.Pods.map Row.pod) (flattenTree gui.nsCollapsed after) (Row.ns n) 0
      (by simp [hmsg])
    have h2 := herr (r + 1)
    rw [hr] at h2 ⊢
    simp only [Nat.cast_zero, add_zero] at h1
    rw [h1] at h2
    exact h2.trans (by simp [hmsg, Row.asError])
  · intro i hi
    have h2 := hpod (r + 1 + (if n.Error.isSome then 1 else 0) + (i : Int))
    cases he : n.Error with
    | none =>
      have h1 := rowAt_skipped (flattenTree gui.nsCollapsed before)
        ((match n.Error with
          | some msg => [Row.err msg]
          | none => []) ++ n.Pods.map Row.pod) (flattenTree gui.nsCollapsed after) (Row.ns n) i
        (by simp [he]; exact hi)
      simp only [he, Option.isSome_none, Bool.false_eq_true, if_false, add_zero] at h1 h2 ⊢
      rw [hr] at h2 ⊢
      rw [h1] at h2
      refine h2.trans ?_
      simp [List.getElem?_map, hi, Row.asPod]
    | some msg =>
      have h1 := rowAt_skipped (flattenTree gui.nsCollapsed before)
        ((match n.Error with
          | some msg => [Row.err msg]
          | none => []) ++ n.Pods.map Row.pod) (flattenTree gui.nsCollapsed after) (Row.ns n)
        (i + 1) (by simp [he]; omega)
      simp only [he, Option.isSome_some, if_true] at h1 h2 ⊢
      rw [hr] at h2 ⊢
      have hidx : ((flattenTree gui.nsCollapsed before).length : Int) + 1 + ((i + 1 : Nat) : Int)
          = ((flattenTree gui.nsCollapsed before).length : Int) + 1 + 1 + (i : Int) := by
        push_cast; omega
      rw [hidx] at h1
      rw [h1] at h2
      refine h2.trans ?_
      simp [List.getElem?_map, hi, Row.asPod]
  · intro j hj
    have hskip := rowAt_skip_gt (flattenTree gui.nsCollapsed before)
      ((match n.Error with
        | some msg => [Row.err msg]
        | none => []) ++ n.Pods.map Row.pod) (flattenTree gui.nsCollapsed after) (Row.ns n) j
      (by omega)
    rw [← hk] at hskip
    refine ⟨?_, ?_, ?_⟩
    · exact (hnsF j).trans (by rw [hskip]; exact (hns _).symm)
    · exact (hpodF j).trans (by rw [hskip]; exact (hpod _).symm)
    · exact (herrF j).trans (by rw [hskip]; exact (herr _).symm)
  · show (buildPositions (gui.nsCollapsed.set n.Name true) gui.Namespaces).position - 1 =
      (buildPositions gui.nsCollapsed gui.Namespaces).position - 1 - ownRows n
    rw [hpos, hposF, hk]
    simp only [List.length_append, List.length_cons]
    push_cast
    omega
  · rw [rebuild_fold_unfold gui n.Name hunfolded]
  · rw [rebuild_fold_unfold gui n.Name hunfolded]
  · rw [rebuild_fold_unfold gui n.Name hunfolded]

theorem fold_shifts_rows_unfold_restores_witness :
    (exampleTreeGui.Namespaces.map Namespace.Name).Nodup ∧
    (updatePositions exampleTreeGui).Positions.namespaces.get? 0 = some defaultNamespace ∧
    isCollapsed exampleTreeGui.nsCollapsed defaultNamespace.Name = false ∧
    (rebuildWithFlag exampleTreeGui defaultNamespace.Name true).Positions.lastIndex =
      (updatePositions exampleTreeGui).Positions.lastIndex - ownRows defaultNamespace ∧
    (rebuildWithFlag (rebuildWithFlag exampleTreeGui defaultNamespace.Name true)
      defaultNamespace.Name false).Positions = (updatePositions exampleTreeGui).Positions :=
  ⟨by decide, by decide, by decide,
   (fold_shifts_rows_unfold_restores exampleTreeGui defaultNamespace 0
      (by decide) (by decide) (by decide)).2.2.2.2.1,
   (fold_shifts_rows_unfold_restores exampleTreeGui defaultNamespace 0
      (by decide) (by decide) (by decide)).2.2.2.2.2.1⟩

/-! ## C2: the lookups on a row whose error has the empty message -/

/-- C2, at the failing input: in the tree with the one namespace `ns1` whose error has the
empty message, `updatePositions` gives the error the row 1 (`lastIndex = 1`, the key 1 is in
`Positions.errors`), and none of `hasNamespace(1)`, `hasPod(1)`, `hasError(1)` is true. -/
theorem emptyErrorMessage_row_has_no_lookup :
    (updatePositions exampleEmptyErrorGui).Positions.lastIndex = 1 ∧
    (updatePositions exampleEmptyErrorGui).Positions.errors.get? 1 = some "" ∧
    (updatePositions exampleEmptyErrorGui).Positions.hasNamespace 1 = false ∧
    (updatePositions exampleEmptyErrorGui).Positions.hasPod 1 = false ∧
    (updatePositions exampleEmptyErrorGui).Positions.hasError 1 = false := by
  decide

/-! ## The lookups of a rebuilt index -/

theorem len_empty : len "" = 0 := by decide

theorem rowAt_none_of_outside (rows : List Row) (i : Int)
    (h : i < 0 ∨ (rows.length : Int) - 1 < i) : rowAt rows i = none := by
  unfold rowAt
  split
  · rfl
  · exact List.getElem?_eq_none (by omega)

theorem rowAt_isSome_of_inside (rows : List Row) (i : Int)
    (h0 : 0 ≤ i) (h1 : i ≤ (rows.length : Int) - 1) : ∃ row, rowAt rows i = some row := by
  unfold rowAt
  rw [if_neg (by omega)]
  have hlt : i.toNat < rows.length := by omega
  exact ⟨rows[i.toNat], List.getElem?_eq_getElem hlt⟩

/-- The maps and `lastIndex` of a rebuilt index, read through the flattening. -/
theorem updatePositions_lookup_rows (gui : Gui) :
    (∀ i : Int, (updatePositions gui).Positions.namespaces.get? i =
      (rowAt (flattenTree gui.nsCollapsed gui.Namespaces) i).bind Row.asNamespace) ∧
    (∀ i : Int, (updatePositions gui).Positions.pods.get? i =
      (rowAt (flattenTree gui.nsCollapsed gui.Namespaces) i).bind Row.asPod) ∧
    (∀ i : Int, (updatePositions gui).Positions.errors.get? i =
      (rowAt (flattenTree gui.nsCollapsed gui.Namespaces) i).bind Row.asError) ∧
    (updatePositions gui).Positions.lastIndex =
      ((flattenTree gui.nsCollapsed gui.Namespaces).length : Int) - 1 := by
  obtain ⟨hpos, hns, hpod, herr⟩ := updatePositions_rows gui
  refine ⟨hns, hpod, herr, ?_⟩
  show (buildPositions gui.nsCollapsed gui.Namespaces).position - 1 = _
  rw [hpos]

/-- Outside `[0, lastIndex]` the three maps of a rebuilt index have no key, so the three
lookups are false. -/
theorem updatePositions_lookups_outside (gui : Gui) (i : Int)
    (h : i < 0 ∨ (updatePositions gui).Positions.lastIndex < i) :
    (updatePositions gui).Positions.namespaces.get? i = none ∧
    (updatePositions gui).Positions.pods.get? i = none ∧
    (updatePositions gui).Positions.errors.get? i = none ∧
    (updatePositions gui).Positions.hasNamespace i = false ∧
    (updatePositions gui).Positions.hasPod i = false ∧
    (updatePositions gui).Positions.hasError i = false := by
  obtain ⟨hns, hpod, herr, hlast⟩ := updatePositions_lookup_rows gui
  rw [hlast] at h
  have hnone := rowAt_none_of_outside _ i h
  have h1 := hns i
  have h2 := hpod i
  have h3 := herr i
  rw [hnone] at h1 h2 h3
  refine ⟨h1, h2, h3, ?_, ?_, ?_⟩
  · simp [Positions.hasNamespace, h1]
  · simp [Positions.hasPod, h2]
  · simp [Positions.hasError, h3, len_empty]

/-- Inside `[0, lastIndex]` every row number is a key of exactly one of the three maps of a
rebuilt index. -/
theorem updatePositions_keys_inside (gui : Gui) (i : Int)
    (h0 : 0 ≤ i) (h1 : i ≤ (updatePositions gui).Positions.lastIndex) :
    (∃ n, (updatePositions gui).Positions.namespaces.get? i = some n ∧
      (updatePositions gui).Positions.pods.get? i = none ∧
      (updatePositions gui).Positions.errors.get? i = none) ∨
    (∃ p, (updatePositions gui).Positions.namespaces.get? i = none ∧
      (updatePositions gui).Positions.pods.get? i = some p ∧
      (updatePositions gui).Positions.errors.get? i = none) ∨
    (∃ msg, (updatePositions gui).Positions.namespaces.get? i = none ∧
      (updatePositions gui).Positions.pods.get? i = none ∧
      (updatePositions gui).Positions.errors.get? i = some msg) := by
  obtain ⟨hns, hpod, herr, hlast⟩ := updatePositions_lookup_rows gui
  rw [hlast] at h1
  obtain ⟨row, hrow⟩ := rowAt_isSome_of_inside _ i h0 h1
  have e1 := hns i
  have e2 := hpod i
  have e3 := herr i
  rw [hrow] at e1 e2 e3
  cases row with
  | ns n => exact Or.inl ⟨n, e1, e2, e3⟩
  | err msg => exact Or.inr (Or.inr ⟨msg, e1, e2, e3⟩)
  | pod p => exact Or.inr (Or.inl ⟨p, e1, e2, e3⟩)

/-- In a rebuilt index a key of one map is a key of no other map. -/
theorem updatePositions_keys_exclusive (gui : Gui) (i : Int) :
    ((updatePositions gui).Positions.hasNamespace i = true →
      (updatePositions gui).Positions.hasPod i = false ∧
      (updatePositions gui).Positions.hasError i = false) ∧
    ((updatePositions gui).Positions.hasPod i = true →
      (updatePositions gui).Positions.hasNamespace i = false ∧
      (updatePositions gui).Positions.hasError i = false) ∧
    ((updatePositions gui).Positions.hasError i = true →
      (updatePositions gui).Positions.hasNamespace i = false ∧
      (updatePositions gui).Positions.hasPod i = false) ∧
    (((updatePositions gui).Positions.errors.get? i).isSome = true →
      (updatePositions gui).Positions.hasNamespace i = false ∧
      (updatePositions gui).Positions.hasPod i = false) := by
  obtain ⟨hns, hpod, herr, -⟩ := updatePositions_lookup_rows gui
  have e1 := hns i
  have e2 := hpod i
  have e3 := herr i
  unfold Positions.hasNamespace Positions.hasPod Positions.hasError
  cases hrow : rowAt (flattenTree gui.nsCollapsed gui.Namespaces) i with
  | none =>
    rw [hrow] at e1 e2 e3
    simp [e1, e2, e3, len_empty]
  | some row =>
    rw [hrow] at e1 e2 e3
    cases row <;> simp [Row.asNamespace, Row.asPod, Row.asError] at e1 e2 e3 <;>
      simp [e1, e2, e3, len_empty]

/-! ## C4: the column widths fit what the index shows -/

theorem podStep_widths (b : Builder) (p : Pod) :
    b.nameWidth ≤ (podStep b p).nameWidth ∧ len p.Name + 5 ≤ (podStep b p).nameWidth ∧
    b.statusWidth ≤ (podStep b p).statusWidth ∧
    len p.Status + 3 ≤ (podStep b p).statusWidth := by
  simp only [podStep]
  refine ⟨?_, ?_, ?_, ?_⟩ <;> split <;> omega

theorem foldl_podStep_widths (ps : List Pod) :
    ∀ b : Builder, b.nameWidth ≤ (ps.foldl podStep b).nameWidth ∧
      b.statusWidth ≤ (ps.foldl podStep b).statusWidth ∧
      ∀ p ∈ ps, len p.Name + 5 ≤ (ps.foldl podStep b).nameWidth ∧
        len p.Status + 3 ≤ (ps.foldl podStep b).statusWidth := by
  induction ps with
  | nil => intro b; simp
  | cons q rest ih =>
    intro b
    obtain ⟨h1, h2, h3⟩ := ih (podStep b q)
    obtain ⟨s1, s2, s3, s4⟩ := podStep_widths b q
    refine ⟨by simpa using le_trans s1 h1, by simpa using le_trans s3 h2, ?_⟩
    intro p hp
    rcases List.mem_cons.mp hp with rfl | hmem
    · exact ⟨by simpa using le_trans s2 h1, by simpa using le_trans s4 h2⟩
    · simpa using h3 p hmem

theorem nsHead_widths (b : Builder) (ns : Namespace) :
    b.nameWidth ≤ (nsHead b ns).nameWidth ∧ len ns.Name + 2 ≤ (nsHead b ns).nameWidth ∧
    (nsHead b ns).statusWidth = b.statusWidth := by
  simp only [nsHead]
  refine ⟨?_, ?_, trivial⟩ <;> split <;> omega

theorem errStep_widths (b : Builder) (e : Option String) :
    (errStep b e).nameWidth = b.nameWidth ∧ (errStep b e).statusWidth = b.statusWidth := by
  cases e <;> simp [errStep]

theorem nsStep_widths (c : GoMap String Bool) (b : Builder) (ns : Namespace) :
    b.nameWidth ≤ (nsStep c b ns).nameWidth ∧
    b.statusWidth ≤ (nsStep c b ns).statusWidth ∧
    len ns.Name + 2 ≤ (nsStep c b ns).nameWidth ∧
    (isCollapsed c ns.Name = false → ∀ p ∈ ns.Pods,
      len p.Name + 5 ≤ (nsStep c b ns).nameWidth ∧
      len p.Status + 3 ≤ (nsStep c b ns).statusWidth) := by
  obtain ⟨h1, h2, h3⟩ := nsHead_widths b ns
  unfold nsStep
  by_cases hc : isCollapsed c ns.Name = true
  · simp only [hc, if_true]
    exact ⟨h1, by omega, h2, by intro hf; simp at hf⟩
  · simp only [hc, if_false, Bool.false_eq_true]
    obtain ⟨e1, e2⟩ := errStep_widths (nsHead b ns) ns.Error
    obtain ⟨f1, f2, f3⟩ := foldl_podStep_widths ns.Pods (errStep (nsHead b ns) ns.Error)
    rw [e1] at f1
    rw [e2] at f2
    exact ⟨by omega, by omega, by omega, fun _ => f3⟩

theorem foldl_nsStep_widths (c : GoMap String Bool) (nss : List Namespace) :
    ∀ b : Builder, b.nameWidth ≤ (nss.foldl (nsStep c) b).nameWidth ∧
      b.statusWidth ≤ (nss.foldl (nsStep c) b).statusWidth ∧
      ∀ ns ∈ nss, len ns.Name + 2 ≤ (nss.foldl (nsStep c) b).nameWidth ∧
        (isCollapsed c ns.Name = false → ∀ p ∈ ns.Pods,
          len p.Name + 5 ≤ (nss.foldl (nsStep c) b).nameWidth ∧
          len p.Status + 3 ≤ (nss.foldl (nsStep c) b).statusWidth) := by
  induction nss with
  | nil => intro b; simp
  | cons x rest ih =>
    intro b
    obtain ⟨h1, h2, h3⟩ := ih (nsStep c b x)
    obtain ⟨s1, s2, s3, s4⟩ := nsStep_widths c b x
    simp only [List.foldl_cons]
    refine ⟨le_trans s1 h1, le_trans s2 h2, ?_⟩
    intro ns hns
    rcases List.mem_cons.mp hns with rfl | hmem
    · refine ⟨le_trans s3 h1, fun hf p hp => ?_⟩
      obtain ⟨t1, t2⟩ := s4 hf p hp
      exact ⟨le_trans t1 h1, le_trans t2 h2⟩
    · exact h3 ns hmem

/-- A pod row of the flattening is a pod of a namespace of the tree that is not folded. -/
theorem mem_flattenTree_pod (c : GoMap String Bool) (nss : List Namespace) (p : Pod)
    (h : Row.pod p ∈ flattenTree c nss) :
    ∃ ns ∈ nss, isCollapsed c ns.Name = false ∧ p ∈ ns.Pods := by
  induction nss with
  | nil => simp [flattenTree] at h
  | cons x rest ih =>
    rw [flattenTree_cons, List.mem_append] at h
    rcases h with h | h
    · refine ⟨x, List.mem_cons_self _ _, ?_⟩
      unfold flattenNamespace at h
      by_cases hc : isCollapsed c x.Name = true
      · simp [hc] at h
      · simp only [hc, if_false, Bool.false_eq_true] at h
        refine ⟨by simpa using hc, ?_⟩
        cases he : x.Error <;> simp [he] at h <;> exact h
    · obtain ⟨ns, hns, h1, h2⟩ := ih h
      exact ⟨ns, List.mem_cons_of_mem _ hns, h1, h2⟩

theorem bind_asPod_eq_some {o : Option Row} {p : Pod}
    (h : o.bind Row.asPod = some p) : o = some (Row.pod p) := by
  cases o with
  | none => cases h
  | some row =>
    cases row with
    | ns m => simp [Row.asPod] at h
    | err msg => simp [Row.asPod] at h
    | pod q => simp [Row.asPod] at h; rw [h]

/-- C4: after `updatePositions`, `nameWidth` is at least `len(name) + 2` for every namespace
of the tree, folded or not, and at least `len(name) + 5` for every pod that has a row in
the index; `statusWidth` is at least `len(status) + 3` for every pod that has a row in the
index; and `nameWidth >= 20`, `statusWidth >= 8`. -/
theorem updatePositions_widths_fit (gui : Gui) :
    (∀ ns ∈ gui.Namespaces, (updatePositions gui).nameWidth ≥ len ns.Name + 2) ∧
    (∀ (i : Int) (p : Pod), (updatePositions gui).Positions.pods.get? i = some p →
      (updatePositions gui).nameWidth ≥ len p.Name + 5 ∧
      (updatePositions gui).statusWidth ≥ len p.Status + 3) ∧
    (updatePositions gui).nameWidth ≥ 20 ∧
    (updatePositions gui).statusWidth ≥ 8 := by
  obtain ⟨h1, h2, h3⟩ := foldl_nsStep_widths gui.nsCollapsed gui.Namespaces Builder.init
  refine ⟨fun ns hns => (h3 ns hns).1, ?_, h1, h2⟩
  intro i p hp
  obtain ⟨-, -, hpod, -⟩ := updatePositions_rows gui
  have hrow := bind_asPod_eq_some ((hpod i).symm.trans hp)
  obtain ⟨ns, hns, hc, hmem⟩ := mem_flattenTree_pod _ _ _ (rowAt_mem hrow)
  exact (h3 ns hns).2 hc p hmem

theorem updatePositions_widths_fit_witness :
    (updatePositions exampleTreeGui).Positions.pods.get? 2 = some podB ∧
    (updatePositions exampleTreeGui).nameWidth ≥ len podB.Name + 5 ∧
    (updatePositions exampleTreeGui).statusWidth ≥ len podB.Status + 3 ∧
    (updatePositions exampleTreeGui).nameWidth ≥ len defaultNamespace.Name + 2 :=
  ⟨by decide,
   ((updatePositions_widths_fit exampleTreeGui).2.1 2 podB (by decide)).1,
   ((updatePositions_widths_fit exampleTreeGui).2.1 2 podB (by decide)).2,
   (updatePositions_widths_fit exampleTreeGui).1 defaultNamespace (by decide)⟩

/-! ## The loop of `printMainInfo` -/

theorem drawnRows_succ (gui : Gui) (offset y : Int) (m : Nat) :
    drawnRows gui offset y (m + 1) =
      { y := y, offset := offset, calls := drawRow gui offset y } ::
        drawnRows gui (offset + 1) (y + 1) m := by
  unfold drawnRows
  rw [List.range_succ_eq_map, List.map_cons, List.map_map]
  simp only [Nat.cast_zero, add_zero, List.cons.injEq, true_and]
  apply List.map_congr_left
  intro t _
  simp only [Function.comp, Nat.cast_succ]
  have h1 : offset + ((t : Int) + 1) = offset + 1 + (t : Int) := by omega
  have h2 : y + ((t : Int) + 1) = y + 1 + (t : Int) := by omega
  rw [h1, h2]

/-- With enough fuel the loop of `printMainInfo` leaves through its condition or its `break`:
it draws the rows it populates, one after the other, and ends with `yPosition` right after
them. -/
theorem printMainInfoLoop_spec (gui : Gui) :
    ∀ (fuel : Nat) (offset y : Int),
      (gui.height - StatusAreaHeight - y).toNat ≤ fuel →
      ∃ m : Nat, Populates gui offset y m ∧
        printMainInfoLoop gui fuel offset y = (drawnRows gui offset y m, y + (m : Int)) := by
  intro fuel
  induction fuel with
  | zero =>
    intro offset y hfuel
    refine ⟨0, ⟨fun t ht => absurd ht (Nat.not_lt_zero t), Or.inr ?_⟩, ?_⟩
    · simp only [Nat.cast_zero, add_zero]; omega
    · simp [printMainInfoLoop, drawnRows]
  | succ fuel ih =>
    intro offset y hfuel
    by_cases hrow : gui.Positions.hasRow offset = true
    · by_cases hy : y < gui.height - StatusAreaHeight
      · obtain ⟨m, ⟨hall, hstop⟩, hrun⟩ := ih (offset + 1) (y + 1) (by omega)
        refine ⟨m + 1, ⟨?_, ?_⟩, ?_⟩
        · intro t ht
          cases t with
          | zero => simpa using ⟨hrow, hy⟩
          | succ t =>
            have := hall t (by omega)
            have h1 : offset + ((t + 1 : Nat) : Int) = offset + 1 + (t : Int) := by
              push_cast; omega
            have h2 : y + ((t + 1 : Nat) : Int) = y + 1 + (t : Int) := by push_cast; omega
            rw [h1, h2]
            exact this
        · have h1 : offset + ((m + 1 : Nat) : Int) = offset + 1 + (m : Int) := by
            push_cast; omega
          have h2 : y + ((m + 1 : Nat) : Int) = y + 1 + (m : Int) := by push_cast; omega
          rw [h1, h2]
          exact hstop
        · rw [printMainInfoLoop, if_pos hrow, if_pos hy, hrun, drawnRows_succ]
          simp only [Prod.mk.injEq, true_and]
          push_cast; omega
      · refine ⟨0, ⟨fun t ht => absurd ht (Nat.not_lt_zero t), Or.inr ?_⟩, ?_⟩
        · simp only [Nat.cast_zero, add_zero]; omega
        · rw [printMainInfoLoop, if_pos hrow, if_neg hy]
          simp [drawnRows]
    · refine ⟨0, ⟨fun t ht => absurd ht (Nat.not_lt_zero t), Or.inl ?_⟩, ?_⟩
      · simpa using hrow
      · rw [printMainInfoLoop, if_neg hrow]
        simp [drawnRows]

/-- The number of populated rows is determined by the index, the height and the start. -/
theorem Populates_unique (gui : Gui) (offset y : Int) (m1 m2 : Nat)
    (h1 : Populates gui offset y m1) (h2 : Populates gui offset y m2) : m1 = m2 := by
  obtain ⟨a1, s1⟩ := h1
  obtain ⟨a2, s2⟩ := h2
  rcases Nat.lt_trichotomy m1 m2 with hlt | heq | hgt
  · obtain ⟨r, hy⟩ := a2 m1 hlt
    rcases s1 with s | s
    · rw [s] at r; cases r
    · omega
  · exact heq
  · obtain ⟨r, hy⟩ := a1 m2 hgt
    rcases s2 with s | s
    · rw [s] at r; cases r
    · omega

/-- More fuel than `printMainInfoFuel` changes nothing: the loop has ended by then. -/
theorem printMainInfoLoop_fuel (gui : Gui) (fuel : Nat) (offset : Int)
    (h : printMainInfoFuel gui ≤ fuel) :
    printMainInfoLoop gui fuel offset InfoAreaStart =
      printMainInfoLoop gui (printMainInfoFuel gui) offset InfoAreaStart := by
  obtain ⟨m1, p1, e1⟩ := printMainInfoLoop_spec gui fuel offset InfoAreaStart h
  obtain ⟨m2, p2, e2⟩ := printMainInfoLoop_spec gui (printMainInfoFuel gui) offset
    InfoAreaStart (le_refl _)
  rw [e1, e2, Populates_unique gui offset InfoAreaStart m1 m2 p1 p2]

/-- The run of `printMainInfo`: the rows it populates from `scrollOffset` and
`InfoAreaStart`. -/
theorem printMainInfoRun_spec (gui : Gui) :
    ∃ m : Nat, Populates gui gui.scrollOffset InfoAreaStart m ∧
      printMainInfoRun gui =
        (drawnRows gui gui.scrollOffset InfoAreaStart m, InfoAreaStart + (m : Int)) :=
  printMainInfoLoop_spec gui (printMainInfoFuel gui) gui.scrollOffset InfoAreaStart (le_refl _)

/-! ## Redraw: what it keeps and what it sets -/

theorem adjustCursorPosition_frame (g : Gui) :
    (adjustCursorPosition g).scrollOffset = g.scrollOffset ∧
    (adjustCursorPosition g).Positions = g.Positions ∧
    (adjustCursorPosition g).height = g.height ∧
    (adjustCursorPosition g).curTopBorder = g.curTopBorder ∧
    (adjustCursorPosition g).curBottomBorder = g.curBottomBorder ∧
    (adjustCursorPosition g).curX = g.curX ∧
    (adjustCursorPosition g).nsCollapsed = g.nsCollapsed ∧
    (adjustCursorPosition g).Namespaces = g.Namespaces ∧
    (adjustCursorPosition g).nameWidth = g.nameWidth ∧
    (adjustCursorPosition g).statusWidth = g.statusWidth ∧
    (adjustCursorPosition g).Context = g.Context ∧
    (adjustCursorPosition g).width = g.width := by
  unfold adjustCursorPosition moveCursor
  split
  · simp
  · split <;> simp

theorem redrawAll_frame (g : Gui) :
    (redrawAll g).scrollOffset = g.scrollOffset ∧
    (redrawAll g).Positions = g.Positions ∧
    (redrawAll g).height = g.height ∧
    (redrawAll g).curTopBorder = g.curTopBorder ∧
    (redrawAll g).curBottomBorder = (printMainInfoRun g).2 - 1 ∧
    (redrawAll g).curX = g.curX ∧
    (redrawAll g).nsCollapsed = g.nsCollapsed ∧
    (redrawAll g).Namespaces = g.Namespaces ∧
    (redrawAll g).nameWidth = g.nameWidth ∧
    (redrawAll g).statusWidth = g.statusWidth ∧
    (redrawAll g).Context = g.Context ∧
    (redrawAll g).width = g.width :=
  adjustCursorPosition_frame (printMainInfo g)

/-- The cursor row after a redraw: clamped to the bottom border first, else to the top. -/
theorem redrawAll_curY (g : Gui) :
    (redrawAll g).curY =
      if g.curY > (printMainInfoRun g).2 - 1 then (printMainInfoRun g).2 - 1
      else if g.curY < g.curTopBorder then g.curTopBorder
      else g.curY := by
  unfold redrawAll adjustCursorPosition moveCursor printMainInfo
  simp only
  split
  · rfl
  · split <;> rfl

theorem Populates_congr (g1 g2 : Gui) (hp : g1.Positions = g2.Positions)
    (hh : g1.height = g2.height) (offset y : Int) (m : Nat) :
    Populates g1 offset y m ↔ Populates g2 offset y m := by
  unfold Populates
  rw [hp, hh]

/-- The bottom border after a redraw is the line of the last populated row. -/
theorem redrawAll_bottom (g : Gui) (m : Nat)
    (hm : Populates g g.scrollOffset InfoAreaStart m) :
    (printMainInfoRun g).2 - 1 = InfoAreaStart + (m : Int) - 1 := by
  obtain ⟨m1, p1, e1⟩ := printMainInfoRun_spec g
  rw [e1, Populates_unique g _ _ m1 m p1 hm]

/-! ## C5: moving down from the last populated row -/

/-- Scrolling by one row when the row below the window has an entity: the window keeps its
number of rows. -/
theorem Populates_scroll (g : Gui) (s : Int) (m : Nat)
    (hm : Populates g s InfoAreaStart m)
    (hnext : g.Positions.hasRow (s + (m : Int)) = true) :
    Populates g (s + 1) InfoAreaStart m := by
  obtain ⟨hall, hstop⟩ := hm
  have hH : g.height - StatusAreaHeight ≤ InfoAreaStart + (m : Int) := by
    rcases hstop with h | h
    · rw [h] at hnext; cases hnext
    · exact h
  refine ⟨?_, Or.inr hH⟩
  intro t ht
  refine ⟨?_, (hall t ht).2⟩
  by_cases hlast : t + 1 < m
  · have := (hall (t + 1) hlast).1
    have h1 : s + 1 + (t : Int) = s + ((t + 1 : Nat) : Int) := by push_cast; omega
    rw [h1]; exact this
  · have h1 : s + 1 + (t : Int) = s + (m : Int) := by omega
    rw [h1]; exact hnext

theorem wrapInt64_eq (x : Int) (hlo : minInt64 ≤ x) (hhi : x ≤ maxInt64) :
    wrapInt64 x = x := by
  unfold wrapInt64
  unfold minInt64 at hlo
  unfold maxInt64 at hhi
  omega

theorem wrapInt64_range (x : Int) : minInt64 ≤ wrapInt64 x ∧ wrapInt64 x ≤ maxInt64 := by
  unfold wrapInt64 minInt64 maxInt64
  omega

/-- Moving down from the last populated row when the loop condition of `printMainInfo` sees
the row just below the window (`hasRow`) and `scrollOffset++` does not wrap: in a state `g`
left by a redraw with `curY = curBottomBorder >= curTopBorder`, `moveCursorDown` increases
`scrollOffset` by exactly 1, the status area shows the entity at the absolute index
`scrollOffset + (curY - InfoAreaStart)` of the new state, `curY` is unchanged and that index
is the old absolute index plus 1. -/
theorem moveCursorDown_scrolls_to_row_below (g g0 : Gui) (hredraw : g = redrawAll g0)
    (hbottom : g.curY = g.curBottomBorder) (htop : g.curTopBorder ≤ g.curBottomBorder)
    (hlo : minInt64 ≤ g.scrollOffset) (hhi : g.scrollOffset < maxInt64) :
    (moveCursorDown g).scrollOffset = g.scrollOffset + 1 ∧
    printStatusArea (moveCursorDown g) =
      statusAreaAt (moveCursorDown g)
        ((moveCursorDown g).scrollOffset + ((moveCursorDown g).curY - InfoAreaStart)) ∧
    (g.curTopBorder = InfoAreaStart →
      cursorIndex (moveCursorDown g) =
        (moveCursorDown g).scrollOffset +
          ((moveCursorDown g).curY - (moveCursorDown g).curTopBorder)) ∧
    (g.Positions.hasRow (cursorIndex g + 1) = true →
      (moveCursorDown g).curY = g.curY ∧
      cursorIndex (moveCursorDown g) = cursorIndex g + 1 ∧
      printStatusArea (moveCursorDown g) = statusAreaAt g (cursorIndex g + 1)) := by
  have hwrap : wrapInt64 (g.scrollOffset + 1) = g.scrollOffset + 1 :=
    wrapInt64_eq _ (by omega) (by omega)
  have hmove : moveCursorDown g = redrawAll { g with scrollOffset := g.scrollOffset + 1 } := by
    unfold moveCursorDown
    rw [if_neg (by omega), hwrap]
  have hf := redrawAll_frame { g with scrollOffset := g.scrollOffset + 1 }
  obtain ⟨f1, f2, f3, f4, f5, -, -, -, -, -, f11, -⟩ := hf
  simp only at f1 f2 f3 f4 f11
  refine ⟨by rw [hmove, f1], ?_, ?_, ?_⟩
  · unfold printStatusArea cursorIndex
    congr 1
    omega
  · intro h5
    rw [hmove, f4, f1]
    unfold cursorIndex
    rw [f1, h5]
    omega
  · intro hnext
    -- the window of the redraw that left `g`
    obtain ⟨m, hm, hrun⟩ := printMainInfoRun_spec g0
    obtain ⟨r1, r2, r3, -, r5, -, -, -, -, -, -, -⟩ := redrawAll_frame g0
    rw [← hredraw] at r1 r2 r3 r5
    rw [hrun] at r5
    simp only at r5
    have hm1 : Populates g g.scrollOffset InfoAreaStart m := by
      rw [r1]
      exact (Populates_congr g g0 r2 r3 _ _ _).mpr hm
    have hidx : cursorIndex g + 1 = g.scrollOffset + (m : Int) := by
      unfold cursorIndex
      rw [hbottom, r5]
      omega
    rw [hidx] at hnext
    have hm2 : Populates { g with scrollOffset := g.scrollOffset + 1 }
        ({ g with scrollOffset := g.scrollOffset + 1 } : Gui).scrollOffset InfoAreaStart m :=
      (Populates_congr _ g rfl rfl _ _ _).mpr (Populates_scroll g g.scrollOffset m hm1 hnext)
    have hb := redrawAll_bottom _ m hm2
    have hy := redrawAll_curY { g with scrollOffset := g.scrollOffset + 1 }
    rw [hb] at hy
    simp only at hy
    rw [if_neg (by omega), if_neg (by omega)] at hy
    rw [← hmove] at hy
    have hci : cursorIndex (moveCursorDown g) = cursorIndex g + 1 := by
      unfold cursorIndex
      rw [hy, hmove, f1]
      omega
    refine ⟨hy, hci, ?_⟩
    unfold printStatusArea
    rw [hci]
    unfold statusAreaAt
    rw [hmove, f2, f3, f11]

/-- C5, at the failing input: `exampleErrorBelowGui` is left by a redraw with the cursor on
the last populated row (`curY = curBottomBorder = 7 >= curTopBorder`, row 2, the namespace
`b`), and the index has an entity at the row just below the window (row 3, the error of `b`
with the empty message, `lastIndex = 5`).  `moveCursorDown` increases `scrollOffset` to 1,
but the redraw stops before that row: `curY` goes from 7 to 6 and the cursor is still on
row 2, not on row 3. -/
theorem moveCursorDown_below_empty_error :
    exampleErrorBelowGui.curY = 7 ∧
    exampleErrorBelowGui.curBottomBorder = 7 ∧
    exampleErrorBelowGui.curTopBorder = 5 ∧
    cursorIndex exampleErrorBelowGui = 2 ∧
    exampleErrorBelowGui.Positions.lastIndex = 5 ∧
    exampleErrorBelowGui.Positions.errors.get? (cursorIndex exampleErrorBelowGui + 1) =
      some "" ∧
    (moveCursorDown exampleErrorBelowGui).scrollOffset = 1 ∧
    (moveCursorDown exampleErrorBelowGui).curY = 6 ∧
    cursorIndex (moveCursorDown exampleErrorBelowGui) = 2 ∧
    (moveCursorDown exampleErrorBelowGui).Positions.namespaces.get?
      (cursorIndex (moveCursorDown exampleErrorBelowGui)) =
      exampleErrorBelowGui.Positions.namespaces.get? (cursorIndex exampleErrorBelowGui) := by
  decide

/-! ## C6: fold all, then unfold all -/

theorem isCollapsed_foldl_set (flag : Bool) (l : List Namespace) :
    ∀ (c : GoMap String Bool) (name : String),
      isCollapsed (l.foldl (fun c ns => c.set ns.Name flag) c) name =
        if name ∈ l.map Namespace.Name then flag else isCollapsed c name := by
  induction l with
  | nil => intro c name; simp
  | cons x rest ih =>
    intro c name
    rw [List.foldl_cons, ih, isCollapsed_set]
    by_cases h1 : name ∈ rest.map Namespace.Name
    · have h2 : name ∈ (x :: rest).map Namespace.Name := by
        rw [List.map_cons]; exact List.mem_cons_of_mem _ h1
      rw [if_pos h1, if_pos h2]
    · by_cases h3 : x.Name = name
      · have h2 : name ∈ (x :: rest).map Namespace.Name := by
          rw [List.map_cons, ← h3]; exact List.mem_cons_self _ _
        rw [if_neg h1, if_pos h3, if_pos h2]
      · have h2 : name ∉ (x :: rest).map Namespace.Name := by
          rw [List.map_cons, List.mem_cons]
          rintro (h | h)
          · exact h3 h.symm
          · exact h1 h
        rw [if_neg h1, if_neg h3, if_neg h2]

/-- The flag of a name after the loop of `collapseAllNS` or `expandAllNS`. -/
theorem isCollapsed_setAllCollapsed (gui : Gui) (flag : Bool) (name : String) :
    isCollapsed (setAllCollapsed gui flag) name =
      if name ∈ gui.Positions.namespaces.values.map Namespace.Name then flag
      else isCollapsed gui.nsCollapsed name :=
  isCollapsed_foldl_set flag _ _ _

theorem GoMap.lookup_mem {κ α : Type} [DecidableEq κ] (k : κ) (v : α) :
    ∀ l : List (κ × α), GoMap.lookup k l = some v → (k, v) ∈ l := by
  intro l
  induction l with
  | nil => intro h; cases h
  | cons e rest ih =>
    obtain ⟨k1, v1⟩ := e
    intro h
    unfold GoMap.lookup at h
    by_cases hk : k1 = k
    · rw [if_pos hk] at h
      injection h with h
      rw [hk, h]
      exact List.mem_cons_self _ _
    · rw [if_neg hk] at h
      exact List.mem_cons_of_mem _ (ih h)

theorem GoMap.mem_insert {κ α : Type} [DecidableEq κ] (k : κ) (v : α) (e : κ × α) :
    ∀ l : List (κ × α), e ∈ GoMap.insert k v l → e = (k, v) ∨ e ∈ l := by
  intro l
  induction l with
  | nil => intro h; left; simpa [GoMap.insert] using h
  | cons e1 rest ih =>
    obtain ⟨k1, v1⟩ := e1
    intro h
    unfold GoMap.insert at h
    by_cases hk : k1 = k
    · rw [if_pos hk] at h
      rcases List.mem_cons.mp h with h | h
      · left; rw [h, hk]
      · right; exact List.mem_cons_of_mem _ h
    · rw [if_neg hk] at h
      rcases List.mem_cons.mp h with h | h
      · right; rw [h]; exact List.mem_cons_self _ _
      · rcases ih h with h | h
        · left; exact h
        · right; exact List.mem_cons_of_mem _ h

theorem GoMap.mem_values_of_get? {κ α : Type} [DecidableEq κ] (m : GoMap κ α) (k : κ) (v : α)
    (h : m.get? k = some v) : v ∈ m.values :=
  List.mem_map_of_mem Prod.snd (GoMap.lookup_mem k v m.entries h)

theorem mem_flattenTree_ns (c : GoMap String Bool) (nss : List Namespace) (ns : Namespace)
    (h : ns ∈ nss) : Row.ns ns ∈ flattenTree c nss := by
  induction nss with
  | nil => cases h
  | cons x rest ih =>
    rw [flattenTree_cons, List.mem_append]
    rcases List.mem_cons.mp h with rfl | h
    · left; rw [flattenNamespace_eq]; exact List.mem_cons_self _ _
    · right; exact ih h

/-- Every namespace of the tree is a value of the map `namespaces` of the rebuilt index. -/
theorem mem_values_updatePositions (gui : Gui) (ns : Namespace) (h : ns ∈ gui.Namespaces) :
    ns ∈ (updatePositions gui).Positions.namespaces.values := by
  obtain ⟨t, ht⟩ := List.mem_iff_getElem?.mp (mem_flattenTree_ns gui.nsCollapsed _ ns h)
  obtain ⟨hns, -, -, -⟩ := updatePositions_lookup_rows gui
  have h1 := hns (t : Int)
  have h2 : rowAt (flattenTree gui.nsCollapsed gui.Namespaces) (t : Int) = some (Row.ns ns) := by
    unfold rowAt
    rw [if_neg (by omega)]
    simpa using ht
  rw [h2] at h1
  exact GoMap.mem_values_of_get? _ _ _ h1

theorem podStep_nsPositions (b : Builder) (p : Pod) :
    (podStep b p).nsPositions = b.nsPositions := rfl

theorem foldl_podStep_nsPositions (ps : List Pod) :
    ∀ b : Builder, (ps.foldl podStep b).nsPositions = b.nsPositions := by
  induction ps with
  | nil => intro b; rfl
  | cons p rest ih => intro b; rw [List.foldl_cons, ih, podStep_nsPositions]

theorem errStep_nsPositions (b : Builder) (e : Option String) :
    (errStep b e).nsPositions = b.nsPositions := by
  cases e <;> rfl

theorem nsStep_nsPositions (c : GoMap String Bool) (b : Builder) (ns : Namespace) :
    (nsStep c b ns).nsPositions = b.nsPositions.set b.position ns := by
  unfold nsStep
  split
  · rfl
  · rw [foldl_podStep_nsPositions, errStep_nsPositions]; rfl

theorem values_foldl_nsStep (c : GoMap String Bool) (nss : List Namespace) :
    ∀ (b : Builder) (v : Namespace), v ∈ (nss.foldl (nsStep c) b).nsPositions.values →
      v ∈ b.nsPositions.values ∨ v ∈ nss := by
  induction nss with
  | nil => intro b v h; left; exact h
  | cons x rest ih =>
    intro b v h
    rw [List.foldl_cons] at h
    rcases ih _ v h with h | h
    · rw [nsStep_nsPositions] at h
      obtain ⟨e, he, hev⟩ := List.mem_map.mp h
      rcases GoMap.mem_insert _ _ e _ he with h1 | h1
      · right; rw [← hev, h1]; exact List.mem_cons_self _ _
      · left; rw [← hev]; exact List.mem_map_of_mem Prod.snd h1
    · right; exact List.mem_cons_of_mem _ h

/-- Every value of the map `namespaces` of the rebuilt index is a namespace of the tree. -/
theorem values_updatePositions_mem (gui : Gui) (v : Namespace)
    (h : v ∈ (updatePositions gui).Positions.namespaces.values) : v ∈ gui.Namespaces := by
  rcases values_foldl_nsStep gui.nsCollapsed gui.Namespaces Builder.init v h with h | h
  · simp [Builder.init, GoMap.empty, GoMap.values] at h
  · exact h

theorem updatePositions_frame (g : Gui) :
    (updatePositions g).Namespaces = g.Namespaces ∧
    (updatePositions g).nsCollapsed = g.nsCollapsed ∧
    (updatePositions g).scrollOffset = g.scrollOffset ∧
    (updatePositions g).curX = g.curX ∧
    (updatePositions g).curY = g.curY ∧
    (updatePositions g).curTopBorder = g.curTopBorder ∧
    (updatePositions g).curBottomBorder = g.curBottomBorder ∧
    (updatePositions g).height = g.height ∧
    (updatePositions g).width = g.width ∧
    (updatePositions g).Context = g.Context :=
  ⟨rfl, rfl, rfl, rfl, rfl, rfl, rfl, rfl, rfl, rfl⟩

/-- The first row of the rebuilt index of a non-empty tree is its first namespace. -/
theorem updatePositions_hasRow_zero (g : Gui) (h : g.Namespaces ≠ []) :
    (updatePositions g).Positions.hasRow 0 = true := by
  obtain ⟨hns, -, -, -⟩ := updatePositions_lookup_rows g
  have h0 := hns 0
  cases hN : g.Namespaces with
  | nil => exact absurd hN h
  | cons x rest =>
    rw [hN, flattenTree_cons, flattenNamespace_eq, List.cons_append, rowAt_cons_zero] at h0
    simp [Positions.hasRow, Positions.hasNamespace, h0, Row.asNamespace]

/-- The state after the body shared by `collapseAllNS` and `expandAllNS`. -/
theorem setAll_redraw_state (g : Gui) (flag : Bool) :
    (redrawAll (cursorToStartPos (updatePositions
        { g with nsCollapsed := setAllCollapsed g flag }))).nsCollapsed =
      setAllCollapsed g flag ∧
    (redrawAll (cursorToStartPos (updatePositions
        { g with nsCollapsed := setAllCollapsed g flag }))).Namespaces = g.Namespaces ∧
    (redrawAll (cursorToStartPos (updatePositions
        { g with nsCollapsed := setAllCollapsed g flag }))).Positions =
      (updatePositions { g with nsCollapsed := setAllCollapsed g flag }).Positions ∧
    (redrawAll (cursorToStartPos (updatePositions
        { g with nsCollapsed := setAllCollapsed g flag }))).scrollOffset = 0 ∧
    (redrawAll (cursorToStartPos (updatePositions
        { g with nsCollapsed := setAllCollapsed g flag }))).curX = 0 ∧
    (redrawAll (cursorToStartPos (updatePositions
        { g with nsCollapsed := setAllCollapsed g flag }))).curTopBorder = g.curTopBorder ∧
    (redrawAll (cursorToStartPos (updatePositions
        { g with nsCollapsed := setAllCollapsed g flag }))).height = g.height := by
  obtain ⟨f1, f2, f3, f4, -, f6, f7, f8, -, -, -, -⟩ := redrawAll_frame
    (cursorToStartPos (updatePositions { g with nsCollapsed := setAllCollapsed g flag }))
  exact ⟨f7, f8, f2, f1, f6, f4, f3⟩

/-- The cursor row after the body shared by `collapseAllNS` and `expandAllNS`, when the
final redraw populates a row. -/
theorem setAll_redraw_curY (g : Gui) (flag : Bool) (htop : g.curTopBorder = InfoAreaStart)
    (htree : g.Namespaces ≠ []) (hheight : g.height > StatusAreaHeight + InfoAreaStart) :
    (redrawAll (cursorToStartPos (updatePositions
        { g with nsCollapsed := setAllCollapsed g flag }))).curY = InfoAreaStart := by
  obtain ⟨m, hm, hrun⟩ := printMainInfoRun_spec
    (cursorToStartPos (updatePositions { g with nsCollapsed := setAllCollapsed g flag }))
  have hrow := updatePositions_hasRow_zero { g with nsCollapsed := setAllCollapsed g flag } htree
  have hpos : 1 ≤ m := by
    rcases Nat.eq_zero_or_pos m with h0 | h0
    · subst h0
      rcases hm.2 with h | h
      · have h' : (updatePositions { g with nsCollapsed := setAllCollapsed g flag }).Positions.hasRow
            (0 + ((0 : Nat) : Int)) = false := h
        simp only [Nat.cast_zero, add_zero] at h'
        rw [h'] at hrow; cases hrow
      · have h' : g.height - StatusAreaHeight ≤ InfoAreaStart + ((0 : Nat) : Int) := h
        simp only [Nat.cast_zero, add_zero] at h'
        omega
    · exact h0
  rw [redrawAll_curY, hrun]
  have hy : (cursorToStartPos (updatePositions
      { g with nsCollapsed := setAllCollapsed g flag })).curY = InfoAreaStart := rfl
  have ht : (cursorToStartPos (updatePositions
      { g with nsCollapsed := setAllCollapsed g flag })).curTopBorder = g.curTopBorder := rfl
  rw [hy, ht, htop]
  simp only
  rw [if_neg (by omega), if_neg (by omega)]

/-- C6, as stated, fails: in `exampleStaleNameGui` the name `gone` is recorded in
`nsCollapsed` as folded and is still folded after `collapseAllNS` and `expandAllNS`; and in
`exampleEmptyTreeGui`, where `curTopBorder = InfoAreaStart`, the two commands leave the
cursor on the line `InfoAreaStart - 1`. -/
theorem foldAll_unfoldAll_keeps_stale_flag :
    "gone" ∈ exampleStaleNameGui.nsCollapsed.keys ∧
    isCollapsed (expandAllNS (collapseAllNS exampleStaleNameGui)).nsCollapsed "gone" = true ∧
    exampleEmptyTreeGui.curTopBorder = InfoAreaStart ∧
    (expandAllNS (collapseAllNS exampleEmptyTreeGui)).curY = InfoAreaStart - 1 := by
  decide

/-- C6, amended: `collapseAllNS` and then `expandAllNS` leave the folded flag of every
namespace of the tree false, `scrollOffset = 0` and `curX = 0`; a name outside the tree
keeps its flag, unless the index before the commands holds a namespace of that name, in
which case it ends folded; and when `curTopBorder = InfoAreaStart`, the tree is not empty
and `height > StatusAreaHeight + InfoAreaStart`, the cursor ends on the top border,
`curY = curTopBorder = InfoAreaStart`. -/
theorem collapseAll_expandAll (gui : Gui) :
    (∀ ns ∈ gui.Namespaces,
      isCollapsed (expandAllNS (collapseAllNS gui)).nsCollapsed ns.Name = false) ∧
    (∀ name : String, name ∉ gui.Namespaces.map Namespace.Name →
      isCollapsed (expandAllNS (collapseAllNS gui)).nsCollapsed name =
        if name ∈ gui.Positions.namespaces.values.map Namespace.Name then true
        else isCollapsed gui.nsCollapsed name) ∧
    (expandAllNS (collapseAllNS gui)).scrollOffset = 0 ∧
    (expandAllNS (collapseAllNS gui)).curX = 0 ∧
    (gui.curTopBorder = InfoAreaStart → gui.Namespaces ≠ [] →
      gui.height > StatusAreaHeight + InfoAreaStart →
      (expandAllNS (collapseAllNS gui)).curY = InfoAreaStart ∧
      (expandAllNS (collapseAllNS gui)).curTopBorder = InfoAreaStart) := by
  obtain ⟨c1, c2, c3, -, -, c6, c7⟩ := setAll_redraw_state gui true
  obtain ⟨e1, -, -, e4, e5, e6, -⟩ := setAll_redraw_state (collapseAllNS gui) false
  have hc : collapseAllNS gui = redrawAll (cursorToStartPos (updatePositions
      { gui with nsCollapsed := setAllCollapsed gui true })) := rfl
  have he : expandAllNS (collapseAllNS gui) = redrawAll (cursorToStartPos (updatePositions
      { collapseAllNS gui with nsCollapsed := setAllCollapsed (collapseAllNS gui) false })) :=
    rfl
  rw [← hc] at c1 c2 c3 c6 c7
  rw [← he] at e1 e4 e5 e6
  have hnames : ∀ name : String,
      name ∈ (collapseAllNS gui).Positions.namespaces.values.map Namespace.Name ↔
        name ∈ gui.Namespaces.map Namespace.Name := by
    intro name
    rw [c3]
    constructor
    · intro h
      obtain ⟨v, hv, hname⟩ := List.mem_map.mp h
      exact List.mem_map.mpr ⟨v, values_updatePositions_mem
        { gui with nsCollapsed := setAllCollapsed gui true } v hv, hname⟩
    · intro h
      obtain ⟨v, hv, hname⟩ := List.mem_map.mp h
      exact List.mem_map.mpr ⟨v, mem_values_updatePositions
        { gui with nsCollapsed := setAllCollapsed gui true } v hv, hname⟩
  refine ⟨?_, ?_, e4, e5, ?_⟩
  · intro ns hns
    rw [e1, isCollapsed_setAllCollapsed,
      if_pos ((hnames ns.Name).mpr (List.mem_map_of_mem _ hns))]
  · intro name hname
    rw [e1, isCollapsed_setAllCollapsed, if_neg (fun h => hname ((hnames name).mp h)), c1,
      isCollapsed_setAllCollapsed]
  · intro htop htree hheight
    have h1 := setAll_redraw_curY (collapseAllNS gui) false (by rw [c6, htop])
      (by rw [c2]; exact htree) (by rw [c7]; exact hheight)
    rw [← he] at h1
    exact ⟨h1, by rw [e6, c6, htop]⟩

theorem collapseAll_expandAll_witness :
    exampleStaleNameGui.curTopBorder = InfoAreaStart ∧
    exampleStaleNameGui.Namespaces ≠ [] ∧
    exampleStaleNameGui.height > StatusAreaHeight + InfoAreaStart ∧
    (expandAllNS (collapseAllNS exampleStaleNameGui)).curY = InfoAreaStart ∧
    isCollapsed (expandAllNS (collapseAllNS exampleStaleNameGui)).nsCollapsed
      defaultNamespace.Name = false :=
  ⟨by decide, by decide, by decide,
   ((collapseAll_expandAll exampleStaleNameGui).2.2.2.2 (by decide) (by decide)
      (by decide)).1,
   (collapseAll_expandAll exampleStaleNameGui).1 defaultNamespace (by decide)⟩

/-! ## C7: the cursor row after a redraw -/

/-- C7, as stated, fails: in `exampleEmptyTreeGui` (`curTopBorder = InfoAreaStart`,
`scrollOffset = 0`) `printMainInfo` populates no row, `redrawAll` sets
`curBottomBorder = InfoAreaStart - 1`, and `curTopBorder <= curY <= curBottomBorder` does
not hold afterwards. -/
theorem redrawAll_empty_window_not_clamped :
    exampleEmptyTreeGui.curTopBorder = InfoAreaStart ∧
    0 ≤ exampleEmptyTreeGui.scrollOffset ∧
    (redrawAll exampleEmptyTreeGui).curBottomBorder = InfoAreaStart - 1 ∧
    ¬ ((redrawAll exampleEmptyTreeGui).curTopBorder ≤ (redrawAll exampleEmptyTreeGui).curY ∧
       (redrawAll exampleEmptyTreeGui).curY ≤ (redrawAll exampleEmptyTreeGui).curBottomBorder) := by
  decide

/-- The rows drawn and the bottom border of one run of `printMainInfo`. -/
theorem printMainInfo_rows_bottom (g : Gui) :
    (printMainInfo g).curBottomBorder =
      InfoAreaStart + ((printMainInfoRows g).length : Int) - 1 := by
  obtain ⟨m, -, hrun⟩ := printMainInfoRun_spec g
  unfold printMainInfo printMainInfoRows
  rw [hrun]
  simp [drawnRows]

/-- C7, amended: for every state with `curTopBorder = InfoAreaStart`, when `printMainInfo`
populates at least one row in the redraw, the cursor row after `redrawAll` satisfies
`curTopBorder <= curY <= curBottomBorder`, with `curBottomBorder` the value that
`printMainInfo` computed in that redraw. -/
theorem redrawAll_clamps_cursor (g : Gui) (htop : g.curTopBorder = InfoAreaStart)
    (hrows : printMainInfoRows g ≠ []) :
    (redrawAll g).curBottomBorder = (printMainInfo g).curBottomBorder ∧
    (redrawAll g).curTopBorder ≤ (redrawAll g).curY ∧
    (redrawAll g).curY ≤ (redrawAll g).curBottomBorder := by
  obtain ⟨-, -, -, f4, f5, -, -, -, -, -, -, -⟩ := redrawAll_frame g
  have hb := printMainInfo_rows_bottom g
  have hlen : 1 ≤ (printMainInfoRows g).length := by
    cases hr : printMainInfoRows g with
    | nil => exact absurd hr hrows
    | cons a rest => simp
  have hb2 : (printMainInfoRun g).2 - 1 = (printMainInfo g).curBottomBorder := rfl
  have hy := redrawAll_curY g
  rw [f4, f5, hb2]
  rw [hb2] at hy
  refine ⟨rfl, ?_, ?_⟩
  · rw [hy]
    split
    · omega
    · split <;> omega
  · rw [hy]
    split
    · omega
    · split <;> omega

theorem redrawAll_clamps_cursor_witness :
    exampleShortWindowGui.curTopBorder = InfoAreaStart ∧
    printMainInfoRows exampleShortWindowGui ≠ [] ∧
    (redrawAll exampleShortWindowGui).curTopBorder ≤ (redrawAll exampleShortWindowGui).curY ∧
    (redrawAll exampleShortWindowGui).curY ≤ (redrawAll exampleShortWindowGui).curBottomBorder :=
  ⟨by decide, by decide,
   (redrawAll_clamps_cursor exampleShortWindowGui (by decide) (by decide)).2⟩

/-! ## C8: the rows that `printMainInfo` populates -/

/-- C8, at the failing input: the rebuilt index of the tree whose only namespace has an
error with the empty message has the rows 0 and 1 (`lastIndex = 1`); with `scrollOffset = 0`
and `height = 30` there is room for 20 rows, yet `printMainInfo` populates the screen line 5
with the index row 0 only and sets `curBottomBorder = 5`. -/
theorem printMainInfo_stops_at_empty_error :
    (updatePositions exampleEmptyErrorGui).Positions.lastIndex = 1 ∧
    (updatePositions exampleEmptyErrorGui).scrollOffset = 0 ∧
    (updatePositions exampleEmptyErrorGui).height - StatusAreaHeight - InfoAreaStart = 20 ∧
    (printMainInfoRows (updatePositions exampleEmptyErrorGui)).map
      (fun r => (r.y, r.offset)) = [(5, 0)] ∧
    (printMainInfo (updatePositions exampleEmptyErrorGui)).curBottomBorder = 5 := by
  decide

/-! ## C9: fold and unfold under the cursor -/

theorem rebuildWithFlag_nsCollapsed (g : Gui) (name : String) (flag : Bool) :
    (redrawAll (rebuildWithFlag g name flag)).nsCollapsed = g.nsCollapsed.set name flag :=
  (redrawAll_frame (rebuildWithFlag g name flag)).2.2.2.2.2.2.1

/-- C9: `collapseNamespace` (resp. `expandNamespace`) returns the state unchanged unless the
row at the absolute index `curY - InfoAreaStart + scrollOffset` holds a namespace whose
folded flag is false (resp. true); with an index built by `updatePositions` this covers
every cursor index below 0 or above `lastIndex` and every row that holds a pod or an error.
When the command acts, `nsCollapsed` is the old map with the entry of that namespace's name
set to true (resp. false): every other name reads as before. -/
theorem collapse_expand_under_cursor (g : Gui) :
    (¬ (g.Positions.hasNamespace (cursorIndex g) = true ∧
        isCollapsed g.nsCollapsed (namespaceNameAt g (cursorIndex g)) = false) →
      collapseNamespace g = g) ∧
    (¬ (g.Positions.hasNamespace (cursorIndex g) = true ∧
        isCollapsed g.nsCollapsed (namespaceNameAt g (cursorIndex g)) = true) →
      expandNamespace g = g) ∧
    (∀ g0 : Gui, g.Positions = (updatePositions g0).Positions →
      (cursorIndex g < 0 ∨ g.Positions.lastIndex < cursorIndex g ∨
        g.Positions.hasPod (cursorIndex g) = true ∨
        (g.Positions.errors.get? (cursorIndex g)).isSome = true) →
      collapseNamespace g = g ∧ expandNamespace g = g) ∧
    (g.Positions.hasNamespace (cursorIndex g) = true →
      isCollapsed g.nsCollapsed (namespaceNameAt g (cursorIndex g)) = false →
      (collapseNamespace g).nsCollapsed =
        g.nsCollapsed.set (namespaceNameAt g (cursorIndex g)) true ∧
      isCollapsed (collapseNamespace g).nsCollapsed (namespaceNameAt g (cursorIndex g)) = true ∧
      ∀ other : String, other ≠ namespaceNameAt g (cursorIndex g) →
        (collapseNamespace g).nsCollapsed.get? other = g.nsCollapsed.get? other) ∧
    (g.Positions.hasNamespace (cursorIndex g) = true →
      isCollapsed g.nsCollapsed (namespaceNameAt g (cursorIndex g)) = true →
      (expandNamespace g).nsCollapsed =
        g.nsCollapsed.set (namespaceNameAt g (cursorIndex g)) false ∧
      isCollapsed (expandNamespace g).nsCollapsed (namespaceNameAt g (cursorIndex g)) = false ∧
      ∀ other : String, other ≠ namespaceNameAt g (cursorIndex g) →
        (expandNamespace g).nsCollapsed.get? other = g.nsCollapsed.get? other) := by
  have hnoC : ¬ (g.Positions.hasNamespace (cursorIndex g) = true ∧
        isCollapsed g.nsCollapsed (namespaceNameAt g (cursorIndex g)) = false) →
      collapseNamespace g = g := by
    intro h
    unfold collapseNamespace
    simp only
    rw [if_neg]
    intro hc
    apply h
    simpa using hc
  have hnoE : ¬ (g.Positions.hasNamespace (cursorIndex g) = true ∧
        isCollapsed g.nsCollapsed (namespaceNameAt g (cursorIndex g)) = true) →
      expandNamespace g = g := by
    intro h
    unfold expandNamespace
    simp only
    rw [if_neg]
    intro hc
    apply h
    simpa using hc
  refine ⟨hnoC, hnoE, ?_, ?_, ?_⟩
  · intro g0 hP hcases
    have hnot : g.Positions.hasNamespace (cursorIndex g) = false := by
      rw [hP] at hcases ⊢
      rcases hcases with h | h | h | h
      · exact (updatePositions_lookups_outside g0 _ (Or.inl h)).2.2.2.1
      · exact (updatePositions_lookups_outside g0 _ (Or.inr h)).2.2.2.1
      · exact ((updatePositions_keys_exclusive g0 _).2.1 h).1
      · exact ((updatePositions_keys_exclusive g0 _).2.2.2 h).1
    exact ⟨hnoC (by rw [hnot]; simp), hnoE (by rw [hnot]; simp)⟩
  · intro hns hflag
    have hact : collapseNamespace g =
        redrawAll (rebuildWithFlag g (namespaceNameAt g (cursorIndex g)) true) := by
      unfold collapseNamespace
      simp only
      rw [if_pos (by simp [hns, hflag])]
    rw [hact, rebuildWithFlag_nsCollapsed]
    refine ⟨rfl, by rw [isCollapsed_set, if_pos rfl], ?_⟩
    intro other hother
    rw [GoMap.get?_set, if_neg (fun h => hother h.symm)]
  · intro hns hflag
    have hact : expandNamespace g =
        redrawAll (rebuildWithFlag g (namespaceNameAt g (cursorIndex g)) false) := by
      unfold expandNamespace
      simp only
      rw [if_pos (by simp [hns, hflag])]
    rw [hact, rebuildWithFlag_nsCollapsed]
    refine ⟨rfl, by rw [isCollapsed_set, if_pos rfl], ?_⟩
    intro other hother
    rw [GoMap.get?_set, if_neg (fun h => hother h.symm)]

theorem collapse_expand_under_cursor_witness :
    (updatePositions exampleTreeGui).Positions.hasNamespace
      (cursorIndex (updatePositions exampleTreeGui)) = true ∧
    isCollapsed (updatePositions exampleTreeGui).nsCollapsed
      (namespaceNameAt (updatePositions exampleTreeGui)
        (cursorIndex (updatePositions exampleTreeGui))) = false ∧
    isCollapsed (collapseNamespace (updatePositions exampleTreeGui)).nsCollapsed "default" = true ∧
    expandNamespace (updatePositions exampleTreeGui) = updatePositions exampleTreeGui ∧
    collapseNamespace exampleShortWindowGui = exampleShortWindowGui :=
  ⟨by decide, by decide,
   ((collapse_expand_under_cursor (updatePositions exampleTreeGui)).2.2.2.1 (by decide)
      (by decide)).2.1,
   (collapse_expand_under_cursor (updatePositions exampleTreeGui)).2.1 (by decide),
   ((collapse_expand_under_cursor exampleShortWindowGui).2.2.1 exampleTreeGui rfl
      (Or.inr (Or.inr (Or.inl (by decide))))).1⟩

/-! ## C10: moving the cursor up -/

/-- C10: `moveCursorUp` does exactly one of three things.  If `curY > curTopBorder` it
decreases `curY` by 1 and changes nothing else; otherwise, if `scrollOffset > 0`, it
decreases `scrollOffset` by exactly 1 and redraws; otherwise it leaves the state
unchanged. -/
theorem moveCursorUp_cases (g : Gui) :
    (g.curY > g.curTopBorder →
      moveCursorUp g = { g with curY := g.curY - 1 } ∧
      (moveCursorUp g).curY = g.curY - 1 ∧
      (moveCursorUp g).scrollOffset = g.scrollOffset ∧
      (moveCursorUp g).Positions = g.Positions ∧
      (moveCursorUp g).curBottomBorder = g.curBottomBorder) ∧
    (g.curY ≤ g.curTopBorder → g.scrollOffset > 0 →
      moveCursorUp g = redrawAll { g with scrollOffset := g.scrollOffset - 1 } ∧
      (moveCursorUp g).scrollOffset = g.scrollOffset - 1) ∧
    (g.curY ≤ g.curTopBorder → g.scrollOffset ≤ 0 → moveCursorUp g = g) := by
  refine ⟨?_, ?_, ?_⟩
  · intro h
    have hm : moveCursorUp g = { g with curY := g.curY - 1 } := by
      unfold moveCursorUp moveCursor
      rw [if_pos h]
    rw [hm]
    exact ⟨rfl, rfl, rfl, rfl, rfl⟩
  · intro h hs
    have hm : moveCursorUp g = redrawAll { g with scrollOffset := g.scrollOffset - 1 } := by
      unfold moveCursorUp
      rw [if_neg (by omega), if_pos hs]
    rw [hm]
    exact ⟨rfl, (redrawAll_frame _).1⟩
  · intro h hs
    unfold moveCursorUp
    rw [if_neg (by omega), if_neg (by omega)]

theorem moveCursorUp_cases_witness :
    exampleShortWindowGui.curY > exampleShortWindowGui.curTopBorder ∧
    (moveCursorUp exampleShortWindowGui).curY = 5 ∧
    (moveCursorUp (moveCursorDown (redrawAll exampleShortWindowGui))).curY = 5 ∧
    (moveCursorUp (moveCursorUp (moveCursorDown (redrawAll exampleShortWindowGui)))).scrollOffset
      = 0 ∧
    moveCursorUp exampleTreeGui = exampleTreeGui :=
  ⟨by decide,
   ((moveCursorUp_cases exampleShortWindowGui).1 (by decide)).2.1.trans (by decide),
   ((moveCursorUp_cases (moveCursorDown (redrawAll exampleShortWindowGui))).1
      (by decide)).2.1.trans (by decide),
   ((moveCursorUp_cases (moveCursorUp (moveCursorDown (redrawAll exampleShortWindowGui)))).2.1
      (by decide) (by decide)).2.trans (by decide),
   (moveCursorUp_cases exampleTreeGui).2.2 (by decide) (by decide)⟩

/-! ## The rows that `printMainInfo` populates when no error message is empty -/

theorem len_pos_of_ne_empty (s : String) (h : s ≠ "") : 0 < len s := by
  obtain ⟨cs⟩ := s
  cases cs with
  | nil => exact absurd rfl h
  | cons c rest =>
    unfold len
    have h1 : (String.mk (c :: rest)).utf8ByteSize =
        String.utf8ByteSize.go rest + c.utf8Size := rfl
    rw [h1]
    have := c.utf8Size_pos
    omega

theorem mem_flattenTree_err (c : GoMap String Bool) (nss : List Namespace) (msg : String)
    (h : Row.err msg ∈ flattenTree c nss) : ∃ ns ∈ nss, ns.Error = some msg := by
  induction nss with
  | nil => simp [flattenTree] at h
  | cons x rest ih =>
    rw [flattenTree_cons, List.mem_append] at h
    rcases h with h | h
    · refine ⟨x, List.mem_cons_self _ _, ?_⟩
      unfold flattenNamespace at h
      by_cases hc : isCollapsed c x.Name = true
      · simp [hc] at h
      · simp only [hc, if_false, Bool.false_eq_true] at h
        cases he : x.Error with
        | none => simp [he] at h
        | some m =>
          simp [he] at h
          rw [h]
    · obtain ⟨ns, hns, h1⟩ := ih h
      exact ⟨ns, List.mem_cons_of_mem _ hns, h1⟩

/-- When no error of the tree has the empty message, every row of `[0, lastIndex]` of the
rebuilt index is seen by the loop condition of `printMainInfo`. -/
theorem updatePositions_hasRow_inside (g0 : Gui)
    (hmsg : ∀ ns ∈ g0.Namespaces, ns.Error ≠ some "") (i : Int)
    (h0 : 0 ≤ i) (h1 : i ≤ (updatePositions g0).Positions.lastIndex) :
    (updatePositions g0).Positions.hasRow i = true := by
  obtain ⟨-, -, herr, -⟩ := updatePositions_lookup_rows g0
  unfold Positions.hasRow Positions.hasNamespace Positions.hasPod Positions.hasError
  rcases updatePositions_keys_inside g0 i h0 h1 with ⟨n, e1, -, -⟩ | ⟨p, -, e2, -⟩ |
    ⟨msg, -, -, e3⟩
  · simp [e1]
  · simp [e2]
  · have hrow : rowAt (flattenTree g0.nsCollapsed g0.Namespaces) i = some (Row.err msg) := by
      have h3 := (herr i).symm.trans e3
      cases hr : rowAt (flattenTree g0.nsCollapsed g0.Namespaces) i with
      | none => rw [hr] at h3; cases h3
      | some row =>
        rw [hr] at h3
        cases row <;> simp [Row.asError] at h3
        rw [h3]
    obtain ⟨ns, hns, he⟩ := mem_flattenTree_err _ _ _ (rowAt_mem hrow)
    have hne : msg ≠ "" := fun h => hmsg ns hns (by rw [he, h])
    have := len_pos_of_ne_empty msg hne
    simp [e3, this]

/-- When no error of the tree has the empty message, `printMainInfo` on the rebuilt index,
with any height and any `scrollOffset` in `[0, lastIndex]`, populates the screen lines from
`InfoAreaStart` with the index rows `scrollOffset .. min(lastIndex, scrollOffset + H - 1)`,
`H = max(0, height - StatusAreaHeight - InfoAreaStart)`, one after the other, and sets
`curBottomBorder` to the last line it populated. -/
theorem printMainInfo_rows_of_visible_index (g0 : Gui) (height s : Int)
    (hmsg : ∀ ns ∈ g0.Namespaces, ns.Error ≠ some "")
    (h0 : 0 ≤ s) (h1 : s ≤ (updatePositions g0).Positions.lastIndex) :
    printMainInfoRows { updatePositions g0 with height := height, scrollOffset := s } =
      drawnRows { updatePositions g0 with height := height, scrollOffset := s } s InfoAreaStart
        (min ((updatePositions g0).Positions.lastIndex - s + 1)
          (max 0 (height - StatusAreaHeight - InfoAreaStart))).toNat ∧
    (printMainInfo { updatePositions g0 with height := height, scrollOffset := s }).curBottomBorder
      = InfoAreaStart +
        min ((updatePositions g0).Positions.lastIndex - s + 1)
          (max 0 (height - StatusAreaHeight - InfoAreaStart)) - 1 := by
  have hpop : Populates { updatePositions g0 with height := height, scrollOffset := s } s
      InfoAreaStart
      (min ((updatePositions g0).Positions.lastIndex - s + 1)
        (max 0 (height - StatusAreaHeight - InfoAreaStart))).toNat := by
    refine ⟨?_, ?_⟩
    · intro t ht
      refine ⟨updatePositions_hasRow_inside g0 hmsg _ (by omega) (by omega), ?_⟩
      show InfoAreaStart + (t : Int) < height - StatusAreaHeight
      omega
    · by_cases hc : (updatePositions g0).Positions.lastIndex - s + 1 ≤
          max 0 (height - StatusAreaHeight - InfoAreaStart)
      · left
        rw [min_eq_left hc]
        have hidx : s + (((updatePositions g0).Positions.lastIndex - s + 1).toNat : Int) =
            (updatePositions g0).Positions.lastIndex + 1 := by omega
        rw [hidx]
        obtain ⟨-, -, -, a, b, c⟩ := updatePositions_lookups_outside g0
          ((updatePositions g0).Positions.lastIndex + 1) (Or.inr (by omega))
        show (updatePositions g0).Positions.hasRow _ = false
        simp [Positions.hasRow, a, b, c]
      · right
        rw [min_eq_right (by omega)]
        show height - StatusAreaHeight ≤ InfoAreaStart + _
        omega
  obtain ⟨m, hm, hrun⟩ := printMainInfoRun_spec
    { updatePositions g0 with height := height, scrollOffset := s }
  have hmeq := Populates_unique _ _ _ _ _ hm hpop
  unfold printMainInfoRows printMainInfo
  rw [hrun, hmeq]
  refine ⟨rfl, ?_⟩
  simp only
  omega

/-! ## The lookups on the rows of an index without empty error message -/

/-- When no error of the tree has the empty message, exactly one of the three lookups is
true on every row of `[0, lastIndex]` of the rebuilt index. -/
theorem updatePositions_lookups_inside (g0 : Gui)
    (hmsg : ∀ ns ∈ g0.Namespaces, ns.Error ≠ some "") (i : Int)
    (h0 : 0 ≤ i) (h1 : i ≤ (updatePositions g0).Positions.lastIndex) :
    ((updatePositions g0).Positions.hasNamespace i = true ∧
      (updatePositions g0).Positions.hasPod i = false ∧
      (updatePositions g0).Positions.hasError i = false) ∨
    ((updatePositions g0).Positions.hasNamespace i = false ∧
      (updatePositions g0).Positions.hasPod i = true ∧
      (updatePositions g0).Positions.hasError i = false) ∨
    ((updatePositions g0).Positions.hasNamespace i = false ∧
      (updatePositions g0).Positions.hasPod i = false ∧
      (updatePositions g0).Positions.hasError i = true) := by
  have hrow := updatePositions_hasRow_inside g0 hmsg i h0 h1
  obtain ⟨x1, x2, x3, -⟩ := updatePositions_keys_exclusive g0 i
  by_cases a : (updatePositions g0).Positions.hasNamespace i = true
  · exact Or.inl ⟨a, x1 a⟩
  · by_cases b : (updatePositions g0).Positions.hasPod i = true
    · exact Or.inr (Or.inl ⟨(x2 b).1, b, (x2 b).2⟩)
    · have c : (updatePositions g0).Positions.hasError i = true := by
        unfold Positions.hasRow at hrow
        simpa [a, b] using hrow
      exact Or.inr (Or.inr ⟨(x3 c).1, (x3 c).2, c⟩)

/-! ## Go maps: keys -/

theorem GoMap.lookup_isSome_iff {κ α : Type} [DecidableEq κ] (k : κ) :
    ∀ l : List (κ × α), (GoMap.lookup k l).isSome = true ↔ k ∈ l.map Prod.fst := by
  intro l
  induction l with
  | nil => simp [GoMap.lookup]
  | cons e rest ih =>
    obtain ⟨k1, v1⟩ := e
    unfold GoMap.lookup
    by_cases hk : k1 = k
    · simp [hk]
    · rw [if_neg hk, ih]
      simp only [List.map_cons, List.mem_cons]
      constructor
      · intro h; exact Or.inr h
      · rintro (h | h)
        · exact absurd h.symm hk
        · exact h

/-- A key of a map is an index at which the map reads a value. -/
theorem GoMap.mem_keys_iff {κ α : Type} [DecidableEq κ] (m : GoMap κ α) (k : κ) :
    k ∈ m.keys ↔ (m.get? k).isSome = true :=
  (GoMap.lookup_isSome_iff k m.entries).symm

/-! ## C11: `scrollOffset` stays non-negative until `scrollOffset++` wraps -/

/-- What one command does to `scrollOffset`: it keeps it, sets it to 0, decreases it by 1
when it is positive, or, for a `moveCursorDown` whose cursor is not above the bottom border,
increases it by 1 in 64-bit arithmetic. -/
theorem step_scrollOffset (g : Gui) (c : Command) :
    (step g c).scrollOffset = g.scrollOffset ∨
    (step g c).scrollOffset = 0 ∨
    (0 < g.scrollOffset ∧ (step g c).scrollOffset = g.scrollOffset - 1) ∨
    (c = Command.moveCursorDown ∧ ¬ g.curY < g.curBottomBorder ∧
      (step g c).scrollOffset = wrapInt64 (g.scrollOffset + 1)) := by
  cases c with
  | moveCursorUp =>
    simp only [step]
    unfold moveCursorUp
    split
    · left; rfl
    · split
      · rename_i hs
        right; right; left
        exact ⟨hs, (redrawAll_frame _).1⟩
      · left; rfl
  | moveCursorDown =>
    simp only [step]
    unfold moveCursorDown
    split
    · left; rfl
    · rename_i hy
      right; right; right
      exact ⟨trivial, hy, (redrawAll_frame _).1⟩
  | collapseNamespace =>
    simp only [step]
    left
    unfold collapseNamespace
    simp only
    split
    · exact (redrawAll_frame _).1
    · rfl
  | expandNamespace =>
    simp only [step]
    left
    unfold expandNamespace
    simp only
    split
    · exact (redrawAll_frame _).1
    · rfl
  | collapseAllNS =>
    right; left
    exact (setAll_redraw_state g true).2.2.2.1
  | expandAllNS =>
    right; left
    exact (setAll_redraw_state g false).2.2.2.1
  | updatePositions => left; rfl
  | redrawAll => left; exact (redrawAll_frame g).1

/-- One command that does not make `scrollOffset++` wrap keeps `scrollOffset` a
non-negative 64-bit value; it raises it by at most 1, and not at all when it is not
`moveCursorDown`. -/
theorem step_scrollOffset_bounds (g : Gui) (c : Command) (h : 0 ≤ g.scrollOffset)
    (hmax : g.scrollOffset ≤ maxInt64) (hwrap : scrollOffsetWraps g c = false) :
    0 ≤ (step g c).scrollOffset ∧ (step g c).scrollOffset ≤ maxInt64 ∧
    (step g c).scrollOffset ≤ g.scrollOffset + 1 ∧
    (c ≠ Command.moveCursorDown → (step g c).scrollOffset ≤ g.scrollOffset) := by
  rcases step_scrollOffset g c with e | e | ⟨hp, e⟩ | ⟨hc, hy, e⟩
  · rw [e]; exact ⟨h, hmax, by omega, fun _ => le_refl _⟩
  · rw [e]; exact ⟨le_refl _, by omega, by omega, fun _ => h⟩
  · rw [e]; exact ⟨by omega, by omega, by omega, fun _ => by omega⟩
  · have hne : g.scrollOffset ≠ maxInt64 := by
      intro heq
      simp [scrollOffsetWraps, hc, hy, heq] at hwrap
    have hw : wrapInt64 (g.scrollOffset + 1) = g.scrollOffset + 1 :=
      wrapInt64_eq _ (by unfold minInt64; omega) (by omega)
    rw [e, hw]
    exact ⟨by omega, by omega, le_refl _, fun hne2 => absurd hc hne2⟩

/-- A command that makes `scrollOffset++` wrap leaves `scrollOffset = minInt64`. -/
theorem step_scrollOffset_wraps (g : Gui) (c : Command) (hwrap : scrollOffsetWraps g c = true) :
    (step g c).scrollOffset = minInt64 := by
  simp only [scrollOffsetWraps, Bool.and_eq_true, decide_eq_true_eq, Bool.not_eq_true',
    decide_eq_false_iff_not] at hwrap
  obtain ⟨⟨hc, hy⟩, hs⟩ := hwrap
  subst hc
  simp only [step]
  unfold moveCursorDown
  rw [if_neg hy, (redrawAll_frame _).1]
  simp only
  rw [hs]
  decide

/-- C11, as stated, fails: `exampleMaxScrollGui` has `scrollOffset = maxInt64 >= 0`, its
cursor is not above the bottom border, and the one command `moveCursorDown` runs
`scrollOffset++`, which wraps around to `minInt64 < 0`. -/
theorem moveCursorDown_wraps_scrollOffset :
    0 ≤ exampleMaxScrollGui.scrollOffset ∧
    (run exampleMaxScrollGui [Command.moveCursorDown]).scrollOffset = minInt64 ∧
    ¬ 0 ≤ (run exampleMaxScrollGui [Command.moveCursorDown]).scrollOffset := by
  decide

/-- C11, amended: `scrollOffset >= 0` is preserved as long as `scrollOffset++` does not
overflow: from any state whose `scrollOffset` is a non-negative 64-bit value, every finite
sequence of `moveCursorUp`, `moveCursorDown`, `collapseNamespace`, `expandNamespace`,
`collapseAllNS`, `expandAllNS`, `updatePositions` and `redrawAll` during which
`moveCursorDown` never runs its `scrollOffset++` on `scrollOffset = maxInt64` ends in a
state with `scrollOffset >= 0`. -/
theorem run_scrollOffset_nonneg (cmds : List Command) (g : Gui) (h : 0 ≤ g.scrollOffset)
    (hmax : g.scrollOffset ≤ maxInt64) (hnever : neverWraps g cmds = true) :
    0 ≤ (run g cmds).scrollOffset := by
  induction cmds generalizing g with
  | nil => exact h
  | cons c rest ih =>
    have hrun : run g (c :: rest) = run (step g c) rest := rfl
    rw [hrun]
    simp only [neverWraps, Bool.and_eq_true, Bool.not_eq_true'] at hnever
    obtain ⟨b1, b2, -, -⟩ := step_scrollOffset_bounds g c h hmax hnever.1
    exact ih (step g c) b1 b2 hnever.2

theorem run_scrollOffset_nonneg_witness :
    0 ≤ exampleShortWindowGui.scrollOffset ∧
    exampleShortWindowGui.scrollOffset ≤ maxInt64 ∧
    neverWraps exampleShortWindowGui
      [Command.moveCursorUp, Command.moveCursorUp, Command.moveCursorDown,
       Command.moveCursorDown, Command.collapseNamespace, Command.moveCursorUp,
       Command.expandAllNS, Command.moveCursorUp] = true ∧
    0 ≤ (run exampleShortWindowGui
      [Command.moveCursorUp, Command.moveCursorUp, Command.moveCursorDown,
       Command.moveCursorDown, Command.collapseNamespace, Command.moveCursorUp,
       Command.expandAllNS, Command.moveCursorUp]).scrollOffset :=
  ⟨by decide, by decide, by decide,
   run_scrollOffset_nonneg _ exampleShortWindowGui (by decide) (by decide) (by decide)⟩

/-- A sequence with room for its `moveCursorDown` commands below `maxInt64` never makes
`scrollOffset++` wrap. -/
theorem neverWraps_of_room (cmds : List Command) :
    ∀ g : Gui, 0 ≤ g.scrollOffset →
      g.scrollOffset + (cmds.count Command.moveCursorDown : Int) ≤ maxInt64 →
      neverWraps g cmds = true := by
  induction cmds with
  | nil => intro g _ _; rfl
  | cons c rest ih =>
    intro g h hroom
    have hmax : g.scrollOffset ≤ maxInt64 := by
      have : (0 : Int) ≤ ((c :: rest).count Command.moveCursorDown : Int) := by positivity
      omega
    by_cases hc : c = Command.moveCursorDown
    · subst hc
      rw [List.count_cons_self] at hroom
      push_cast at hroom
      have hw : scrollOffsetWraps g Command.moveCursorDown = false := by
        have hne : g.scrollOffset ≠ maxInt64 := by
          have : (0 : Int) ≤ (rest.count Command.moveCursorDown : Int) := by positivity
          omega
        simp [scrollOffsetWraps, hne]
      obtain ⟨b1, -, b3, -⟩ := step_scrollOffset_bounds g Command.moveCursorDown h hmax hw
      simp only [neverWraps, hw, Bool.not_false, Bool.true_and]
      exact ih _ b1 (by omega)
    · rw [List.count_cons_of_ne (fun e => hc e.symm)] at hroom
      have hw : scrollOffsetWraps g c = false := by
        simp [scrollOffsetWraps, hc]
      obtain ⟨b1, -, -, b4⟩ := step_scrollOffset_bounds g c h hmax hw
      have := b4 hc
      simp only [neverWraps, hw, Bool.not_false, Bool.true_and]
      exact ih _ b1 (by omega)

/-! ## C12: the key sets of the three maps -/

/-- C12: the three maps built by `updatePositions` have pairwise disjoint key sets, and the
union of the three key sets is exactly `{0, ..., lastIndex}`. -/
theorem updatePositions_keys_partition (gui : Gui) (i : Int) :
    ¬ (i ∈ (updatePositions gui).Positions.namespaces.keys ∧
        i ∈ (updatePositions gui).Positions.pods.keys) ∧
    ¬ (i ∈ (updatePositions gui).Positions.namespaces.keys ∧
        i ∈ (updatePositions gui).Positions.errors.keys) ∧
    ¬ (i ∈ (updatePositions gui).Positions.pods.keys ∧
        i ∈ (updatePositions gui).Positions.errors.keys) ∧
    ((i ∈ (updatePositions gui).Positions.namespaces.keys ∨
        i ∈ (updatePositions gui).Positions.pods.keys ∨
        i ∈ (updatePositions gui).Positions.errors.keys) ↔
      (0 ≤ i ∧ i ≤ (updatePositions gui).Positions.lastIndex)) := by
  simp only [GoMap.mem_keys_iff]
  by_cases hin : 0 ≤ i ∧ i ≤ (updatePositions gui).Positions.lastIndex
  · rcases updatePositions_keys_inside gui i hin.1 hin.2 with ⟨n, e1, e2, e3⟩ |
      ⟨p, e1, e2, e3⟩ | ⟨msg, e1, e2, e3⟩ <;> simp [e1, e2, e3, hin]
  · obtain ⟨e1, e2, e3, -, -, -⟩ := updatePositions_lookups_outside gui i (by omega)
    simp [e1, e2, e3, hin]

theorem updatePositions_keys_partition_witness :
    (1 : Int) ∈ (updatePositions exampleTreeGui).Positions.pods.keys ∧
    ¬ ((1 : Int) ∈ (updatePositions exampleTreeGui).Positions.namespaces.keys ∧
        (1 : Int) ∈ (updatePositions exampleTreeGui).Positions.pods.keys) ∧
    (0 ≤ (1 : Int) ∧ (1 : Int) ≤ (updatePositions exampleTreeGui).Positions.lastIndex) :=
  ⟨by decide, (updatePositions_keys_partition exampleTreeGui 1).1,
   (updatePositions_keys_partition exampleTreeGui 1).2.2.2.mp (Or.inr (Or.inl (by decide)))⟩

/-! ## C13: the colour of a pod row -/

/-- C13: the colour that `printPodInfo` chooses is a function of the pair
`(Status == "Running", Ready >= Total)` and of nothing else: green when the pod is running
and `Ready >= Total`, yellow when it is running and `Ready < Total`, red for every pod whose
status is not `Running`; it is never the default colour, and every line of the pod row is
printed in it. -/
theorem printPodInfo_colour (p : Pod) :
    (p.Status = "Running" → p.Ready ≥ p.Total → p.fg = Color.ColorGreen) ∧
    (p.Status = "Running" → p.Ready < p.Total → p.fg = Color.ColorYellow) ∧
    (p.Status ≠ "Running" → p.fg = Color.ColorRed) ∧
    p.fg ≠ Color.ColorDefault ∧
    (∀ q : Pod, (p.Status = "Running" ↔ q.Status = "Running") →
      (p.Ready ≥ p.Total ↔ q.Ready ≥ q.Total) → p.fg = q.fg) ∧
    (∀ (y nameWidth statusWidth : Int), ∀ call ∈ p.printPodInfo y nameWidth statusWidth,
      call.fg = p.fg) := by
  have hfg : ∀ r : Pod, r.fg =
      if r.Status = "Running" then (if r.Ready ≥ r.Total then Color.ColorGreen
        else Color.ColorYellow) else Color.ColorRed := by
    intro r
    unfold Pod.fg
    by_cases hs : r.Status = "Running"
    · by_cases hr : r.Ready ≥ r.Total
      · simp [hs, hr]
      · have hlt : r.Ready < r.Total := by omega
        simp [hs, hr, hlt]
    · simp [hs]
  refine ⟨?_, ?_, ?_, ?_, ?_, ?_⟩
  · intro hs hr
    rw [hfg, if_pos hs, if_pos hr]
  · intro hs hr
    rw [hfg, if_pos hs, if_neg (by omega)]
  · intro hs
    rw [hfg, if_neg hs]
  · rw [hfg]
    split
    · split <;> simp
    · simp
  · intro q hs hr
    rw [hfg p, hfg q]
    by_cases h1 : p.Status = "Running"
    · rw [if_pos h1, if_pos (hs.mp h1)]
      by_cases h2 : p.Ready ≥ p.Total
      · rw [if_pos h2, if_pos (hr.mp h2)]
      · rw [if_neg h2, if_neg (fun h => h2 (hr.mpr h))]
    · rw [if_neg h1, if_neg (fun h => h1 (hs.mpr h))]
  · intro y nameWidth statusWidth call hcall
    simp only [Pod.printPodInfo, printLine, List.cons_append, List.nil_append,
      List.mem_cons, List.mem_singleton, List.not_mem_nil, or_false] at hcall
    rcases hcall with h | h | h | h | h <;> rw [h]

theorem printPodInfo_colour_witness :
    podA.fg = Color.ColorGreen ∧ podB.fg = Color.ColorRed ∧
    ({ podA with Ready := 1 } : Pod).fg = Color.ColorYellow :=
  ⟨(printPodInfo_colour podA).1 (by decide) (by decide),
   (printPodInfo_colour podB).2.2.1 (by decide),
   (printPodInfo_colour { podA with Ready := 1 }).2.1 (by decide) (by decide)⟩

/-! ## C14: the collapse state across a refresh -/

theorem rowAt_after (xs ms ys : List Row) (a : Row) (j : Int) (h : 0 ≤ j) :
    rowAt (xs ++ a :: (ms ++ ys)) ((xs.length : Int) + 1 + (ms.length : Int) + j) =
      rowAt ys j := by
  rw [rowAt_append_right _ _ _ (by omega), rowAt_cons_pos _ _ _ (by omega),
    rowAt_append_right ms ys _ (by omega)]
  congr 1
  omega

theorem isCollapsed_eq_true_iff (c : GoMap String Bool) (name : String) :
    isCollapsed c name = true ↔ c.get? name = some true := by
  unfold isCollapsed
  cases c.get? name with
  | none => simp
  | some b => cases b <;> simp

/-- The rows of a tree around one of its namespaces. -/
theorem flattenTree_around (c : GoMap String Bool) (before after : List Namespace)
    (n : Namespace) :
    flattenTree c (before ++ n :: after) =
      flattenTree c before ++ Row.ns n ::
        ((if isCollapsed c n.Name then []
          else (match n.Error with
                | some msg => [Row.err msg]
                | none => []) ++ n.Pods.map Row.pod) ++ flattenTree c after) := by
  rw [flattenTree_append, flattenTree_cons, flattenNamespace_eq]
  simp

/-- The index after a refresh, read through the flattening of the new tree under the
collapse state of before the refresh. -/
theorem refresh_lookup_rows (gui : Gui) (nss : List Namespace) :
    (∀ i : Int, (refresh gui nss).Positions.namespaces.get? i =
      (rowAt (flattenTree gui.nsCollapsed nss) i).bind Row.asNamespace) ∧
    (∀ i : Int, (refresh gui nss).Positions.pods.get? i =
      (rowAt (flattenTree gui.nsCollapsed nss) i).bind Row.asPod) ∧
    (∀ i : Int, (refresh gui nss).Positions.errors.get? i =
      (rowAt (flattenTree gui.nsCollapsed nss) i).bind Row.asError) ∧
    (refresh gui nss).Positions.lastIndex =
      ((flattenTree gui.nsCollapsed nss).length : Int) - 1 :=
  updatePositions_lookup_rows { gui with Namespaces := nss }

/-- C14: the collapse state persists across a refresh and is keyed by name.
`updatePositions` does not modify `nsCollapsed`, `scrollOffset`, `curX` and `curY`.  After
the namespace list is replaced by a new list and the index is rebuilt, a namespace `n` of
the new list has its own row, right after the rows of the namespaces before it; when its
name maps to true in `nsCollapsed`, the rows of the namespaces after it follow at once (its
error and pods have no row); when its name does not map to true, in particular when it has
no entry, its error and its pods have the next rows and the rows of the namespaces after
it follow them. -/
theorem collapse_state_persists (gui : Gui) (before after : List Namespace) (n : Namespace) :
    ((updatePositions gui).nsCollapsed = gui.nsCollapsed ∧
      (updatePositions gui).scrollOffset = gui.scrollOffset ∧
      (updatePositions gui).curX = gui.curX ∧
      (updatePositions gui).curY = gui.curY) ∧
    (refresh gui (before ++ n :: after)).nsCollapsed = gui.nsCollapsed ∧
    (refresh gui (before ++ n :: after)).Positions.namespaces.get?
      ((refresh gui before).Positions.lastIndex + 1) = some n ∧
    (gui.nsCollapsed.get? n.Name = some true → ∀ j : Int, 0 ≤ j →
      (refresh gui (before ++ n :: after)).Positions.namespaces.get?
          ((refresh gui before).Positions.lastIndex + 1 + 1 + j) =
        (refresh gui after).Positions.namespaces.get? j ∧
      (refresh gui (before ++ n :: after)).Positions.pods.get?
          ((refresh gui before).Positions.lastIndex + 1 + 1 + j) =
        (refresh gui after).Positions.pods.get? j ∧
      (refresh gui (before ++ n :: after)).Positions.errors.get?
          ((refresh gui before).Positions.lastIndex + 1 + 1 + j) =
        (refresh gui after).Positions.errors.get? j) ∧
    (gui.nsCollapsed.get? n.Name ≠ some true →
      (∀ msg : String, n.Error = some msg →
        (refresh gui (before ++ n :: after)).Positions.errors.get?
          ((refresh gui before).Positions.lastIndex + 1 + 1) = some msg) ∧
      (∀ i : Nat, i < n.Pods.length →
        (refresh gui (before ++ n :: after)).Positions.pods.get?
          ((refresh gui before).Positions.lastIndex + 1 + 1 +
            (if n.Error.isSome then 1 else 0) + (i : Int)) = n.Pods[i]?) ∧
      (∀ j : Int, 0 ≤ j →
        (refresh gui (before ++ n :: after)).Positions.namespaces.get?
            ((refresh gui before).Positions.lastIndex + 1 + 1 + ownRows n + j) =
          (refresh gui after).Positions.namespaces.get? j ∧
        (refresh gui (before ++ n :: after)).Positions.pods.get?
            ((refresh gui before).Positions.lastIndex + 1 + 1 + ownRows n + j) =
          (refresh gui after).Positions.pods.get? j ∧
        (refresh gui (before ++ n :: after)).Positions.errors.get?
            ((refresh gui before).Positions.lastIndex + 1 + 1 + ownRows n + j) =
          (refresh gui after).Positions.errors.get? j)) := by
  obtain ⟨hns, hpod, herr, -⟩ := refresh_lookup_rows gui (before ++ n :: after)
  obtain ⟨-, -, -, hlastB⟩ := refresh_lookup_rows gui before
  obtain ⟨hnsA, hpodA, herrA, -⟩ := refresh_lookup_rows gui after
  have hr : (refresh gui before).Positions.lastIndex + 1 =
      ((flattenTree gui.nsCollapsed before).length : Int) := by rw [hlastB]; omega
  rw [hr]
  rw [flattenTree_around] at hns hpod herr
  refine ⟨⟨rfl, rfl, rfl, rfl⟩, rfl, ?_, ?_, ?_⟩
  · rw [hns, rowAt_append_right _ _ _ (le_refl _)]
    simp [rowAt_cons_zero, Row.asNamespace]
  · intro hfold j hj
    have hc := (isCollapsed_eq_true_iff _ _).mpr hfold
    rw [hc] at hns hpod herr
    simp only [if_true] at hns hpod herr
    have hrow := rowAt_after (flattenTree gui.nsCollapsed before) []
      (flattenTree gui.nsCollapsed after) (Row.ns n) j hj
    simp only [List.length_nil, Nat.cast_zero, add_zero] at hrow
    refine ⟨?_, ?_, ?_⟩
    · rw [hns, hnsA, hrow]
    · rw [hpod, hpodA, hrow]
    · rw [herr, herrA, hrow]
  · intro hfold
    have hc : isCollapsed gui.nsCollapsed n.Name = false := by
      cases h : isCollapsed gui.nsCollapsed n.Name with
      | false => rfl
      | true => exact absurd ((isCollapsed_eq_true_iff _ _).mp h) hfold
    rw [hc] at hns hpod herr
    simp only [if_false, Bool.false_eq_true] at hns hpod herr
    have hk := ownRows_eq_length n
    refine ⟨?_, ?_, ?_⟩
    · intro msg hmsg
      have h1 := rowAt_skipped (flattenTree gui.nsCollapsed before)
        ((match n.Error with
          | some msg => [Row.err msg]
          | none => []) ++ n.Pods.map Row.pod) (flattenTree gui.nsCollapsed after) (Row.ns n) 0
        (by simp [hmsg])
      simp only [Nat.cast_zero, add_zero] at h1
      rw [herr, h1]
      simp [hmsg, Row.asError]
    · intro i hi
      cases he : n.Error with
      | none =>
        have h1 := rowAt_skipped (flattenTree gui.nsCollapsed before)
          ((match n.Error with
            | some msg => [Row.err msg]
            | none => []) ++ n.Pods.map Row.pod) (flattenTree gui.nsCollapsed after)
          (Row.ns n) i (by simp [he]; exact hi)
        simp only [he, Option.isSome_none, Bool.false_eq_true, if_false, add_zero] at h1 ⊢
        rw [hpod, he]
        simp only
        rw [h1]
        simp [List.getElem?_map, hi, Row.asPod]
      | some msg =>
        have h1 := rowAt_skipped (flattenTree gui.nsCollapsed before)
          ((match n.Error with
            | some msg => [Row.err msg]
            | none => []) ++ n.Pods.map Row.pod) (flattenTree gui.nsCollapsed after)
          (Row.ns n) (i + 1) (by simp [he]; omega)
        have hidx : ((flattenTree gui.nsCollapsed before).length : Int) + 1 +
            ((i + 1 : Nat) : Int) =
            ((flattenTree gui.nsCollapsed before).length : Int) + 1 + 1 + (i : Int) := by
          push_cast; omega
        rw [hidx] at h1
        simp only [he, Option.isSome_some, if_true] at h1 ⊢
        rw [hpod, he]
        simp only
        rw [h1]
        simp [List.getElem?_map, hi, Row.asPod]
    · intro j hj
      have hrow := rowAt_after (flattenTree gui.nsCollapsed before)
        ((match n.Error with
          | some msg => [Row.err msg]
          | none => []) ++ n.Pods.map Row.pod)
        (flattenTree gui.nsCollapsed after) (Row.ns n) j hj
      rw [← hk] at hrow
      refine ⟨?_, ?_, ?_⟩
      · rw [hns, hnsA, hrow]
      · rw [hpod, hpodA, hrow]
      · rw [herr, herrA, hrow]

theorem collapse_state_persists_witness :
    exampleStaleNameGui.nsCollapsed.get? "gone" = some true ∧
    (refresh exampleStaleNameGui
      [{ Name := "gone", Error := none, Pods := [podA] }, defaultNamespace]).Positions.namespaces.get?
        1 = some defaultNamespace ∧
    exampleStaleNameGui.nsCollapsed.get? "default" ≠ some true ∧
    (refresh exampleStaleNameGui
      [{ Name := "gone", Error := none, Pods := [podA] }, defaultNamespace]).Positions.pods.get?
        3 = some podB :=
  ⟨by decide,
   ((collapse_state_persists exampleStaleNameGui []
      [defaultNamespace] { Name := "gone", Error := none, Pods := [podA] }).2.2.2.1
      (by decide) 0 (by decide)).1.trans (by decide),
   by decide,
   ((collapse_state_persists exampleStaleNameGui
      [{ Name := "gone", Error := none, Pods := [podA] }] [] defaultNamespace).2.2.2.2
      (by decide)).2.1 1 (by decide)⟩

/-! ## C17: the column widths are the tight maxima -/

theorem maxOver_cons (f x : Int) (xs : List Int) :
    maxOver f (x :: xs) = maxOver (max f x) xs := rfl

theorem maxOver_ge (xs : List Int) :
    ∀ f : Int, f ≤ maxOver f xs ∧ ∀ x ∈ xs, x ≤ maxOver f xs := by
  induction xs with
  | nil => intro f; simp [maxOver]
  | cons y rest ih =>
    intro f
    obtain ⟨h1, h2⟩ := ih (max f y)
    rw [maxOver_cons]
    refine ⟨le_trans (le_max_left f y) h1, ?_⟩
    intro x hx
    rcases List.mem_cons.mp hx with rfl | hmem
    · exact le_trans (le_max_right f x) h1
    · exact h2 x hmem

theorem maxOver_attained (xs : List Int) :
    ∀ f : Int, maxOver f xs = f ∨ maxOver f xs ∈ xs := by
  induction xs with
  | nil => intro f; left; rfl
  | cons y rest ih =>
    intro f
    rw [maxOver_cons]
    rcases ih (max f y) with h | h
    · rw [h]
      rcases max_choice f y with hm | hm
      · left; exact hm
      · right; rw [hm]; exact List.mem_cons_self _ _
    · right; exact List.mem_cons_of_mem _ h

/-- The maximum is the one number that is above the floor and the list and is one of
them. -/
theorem eq_maxOver (f w : Int) (xs : List Int) (hf : f ≤ w) (hxs : ∀ x ∈ xs, x ≤ w)
    (hw : w = f ∨ w ∈ xs) : w = maxOver f xs := by
  obtain ⟨h1, h2⟩ := maxOver_ge xs f
  apply le_antisymm
  · rcases hw with h | h
    · rw [h]; exact h1
    · exact h2 w h
  · rcases maxOver_attained xs f with h | h
    · rw [h]; exact hf
    · exact hxs _ h

theorem mem_visiblePods (c : GoMap String Bool) (nss : List Namespace) (p : Pod) :
    p ∈ visiblePods c nss ↔ ∃ ns ∈ nss, isCollapsed c ns.Name = false ∧ p ∈ ns.Pods := by
  induction nss with
  | nil => simp [visiblePods]
  | cons x rest ih =>
    unfold visiblePods
    rw [List.mem_append, ih]
    constructor
    · rintro (h | ⟨ns, hns, hc, hp⟩)
      · by_cases hx : isCollapsed c x.Name = true
        · simp [hx] at h
        · simp only [hx, if_false, Bool.false_eq_true] at h
          exact ⟨x, List.mem_cons_self _ _, by simpa using hx, h⟩
      · exact ⟨ns, List.mem_cons_of_mem _ hns, hc, hp⟩
    · rintro ⟨ns, hns, hc, hp⟩
      rcases List.mem_cons.mp hns with rfl | hmem
      · left; simp [hc, hp]
      · right; exact ⟨ns, hmem, hc, hp⟩

theorem podStep_attained (b : Builder) (p : Pod) :
    ((podStep b p).nameWidth = b.nameWidth ∨ (podStep b p).nameWidth = len p.Name + 5) ∧
    ((podStep b p).statusWidth = b.statusWidth ∨
      (podStep b p).statusWidth = len p.Status + 3) := by
  simp only [podStep]
  constructor <;> split <;> simp

theorem foldl_podStep_attained (ps : List Pod) :
    ∀ b : Builder,
      ((ps.foldl podStep b).nameWidth = b.nameWidth ∨
        ∃ p ∈ ps, (ps.foldl podStep b).nameWidth = len p.Name + 5) ∧
      ((ps.foldl podStep b).statusWidth = b.statusWidth ∨
        ∃ p ∈ ps, (ps.foldl podStep b).statusWidth = len p.Status + 3) := by
  induction ps with
  | nil => intro b; simp
  | cons q rest ih =>
    intro b
    obtain ⟨h1, h2⟩ := ih (podStep b q)
    obtain ⟨s1, s2⟩ := podStep_attained b q
    simp only [List.foldl_cons]
    constructor
    · rcases h1 with h | ⟨p, hp, h⟩
      · rcases s1 with s | s
        · left; rw [h, s]
        · right; exact ⟨q, List.mem_cons_self _ _, by rw [h, s]⟩
      · right; exact ⟨p, List.mem_cons_of_mem _ hp, h⟩
    · rcases h2 with h | ⟨p, hp, h⟩
      · rcases s2 with s | s
        · left; rw [h, s]
        · right; exact ⟨q, List.mem_cons_self _ _, by rw [h, s]⟩
      · right; exact ⟨p, List.mem_cons_of_mem _ hp, h⟩

theorem nsHead_attained (b : Builder) (ns : Namespace) :
    (nsHead b ns).nameWidth = b.nameWidth ∨ (nsHead b ns).nameWidth = len ns.Name + 2 := by
  simp only [nsHead]
  split <;> simp

theorem nsStep_attained (c : GoMap String Bool) (b : Builder) (ns : Namespace) :
    ((nsStep c b ns).nameWidth = b.nameWidth ∨
      (nsStep c b ns).nameWidth = len ns.Name + 2 ∨
      (isCollapsed c ns.Name = false ∧
        ∃ p ∈ ns.Pods, (nsStep c b ns).nameWidth = len p.Name + 5)) ∧
    ((nsStep c b ns).statusWidth = b.statusWidth ∨
      (isCollapsed c ns.Name = false ∧
        ∃ p ∈ ns.Pods, (nsStep c b ns).statusWidth = len p.Status + 3)) := by
  obtain ⟨-, -, hs⟩ := nsHead_widths b ns
  have hh := nsHead_attained b ns
  unfold nsStep
  by_cases hc : isCollapsed c ns.Name = true
  · rw [if_pos hc]
    exact ⟨by rcases hh with h | h <;> simp [h], Or.inl hs⟩
  · rw [if_neg hc]
    have hc2 : isCollapsed c ns.Name = false := by simpa using hc
    obtain ⟨e1, e2⟩ := errStep_widths (nsHead b ns) ns.Error
    obtain ⟨f1, f2⟩ := foldl_podStep_attained ns.Pods (errStep (nsHead b ns) ns.Error)
    rw [e1] at f1
    rw [e2, hs] at f2
    constructor
    · rcases f1 with f | ⟨p, hp, f⟩
      · rcases hh with h | h
        · left; rw [f, h]
        · right; left; rw [f, h]
      · right; right; exact ⟨hc2, p, hp, f⟩
    · rcases f2 with f | ⟨p, hp, f⟩
      · left; exact f
      · right; exact ⟨hc2, p, hp, f⟩

theorem foldl_nsStep_attained (c : GoMap String Bool) (nss : List Namespace) :
    ∀ b : Builder,
      ((nss.foldl (nsStep c) b).nameWidth = b.nameWidth ∨
        (∃ ns ∈ nss, (nss.foldl (nsStep c) b).nameWidth = len ns.Name + 2) ∨
        (∃ p ∈ visiblePods c nss, (nss.foldl (nsStep c) b).nameWidth = len p.Name + 5)) ∧
      ((nss.foldl (nsStep c) b).statusWidth = b.statusWidth ∨
        (∃ p ∈ visiblePods c nss,
          (nss.foldl (nsStep c) b).statusWidth = len p.Status + 3)) := by
  induction nss with
  | nil => intro b; simp
  | cons x rest ih =>
    intro b
    obtain ⟨h1, h2⟩ := ih (nsStep c b x)
    obtain ⟨s1, s2⟩ := nsStep_attained c b x
    simp only [List.foldl_cons]
    constructor
    · rcases h1 with h | ⟨ns, hns, h⟩ | ⟨p, hp, h⟩
      · rcases s1 with s | s | ⟨hc, p, hp, s⟩
        · left; rw [h, s]
        · right; left; exact ⟨x, List.mem_cons_self _ _, by rw [h, s]⟩
        · right; right
          exact ⟨p, (mem_visiblePods c _ p).mpr ⟨x, List.mem_cons_self _ _, hc, hp⟩,
            by rw [h, s]⟩
      · right; left; exact ⟨ns, List.mem_cons_of_mem _ hns, h⟩
      · right; right
        obtain ⟨ns, hns, hc, hpp⟩ := (mem_visiblePods c _ p).mp hp
        exact ⟨p, (mem_visiblePods c _ p).mpr ⟨ns, List.mem_cons_of_mem _ hns, hc, hpp⟩, h⟩
    · rcases h2 with h | ⟨p, hp, h⟩
      · rcases s2 with s | ⟨hc, p, hp, s⟩
        · left; rw [h, s]
        · right
          exact ⟨p, (mem_visiblePods c _ p).mpr ⟨x, List.mem_cons_self _ _, hc, hp⟩,
            by rw [h, s]⟩
      · right
        obtain ⟨ns, hns, hc, hpp⟩ := (mem_visiblePods c _ p).mp hp
        exact ⟨p, (mem_visiblePods c _ p).mpr ⟨ns, List.mem_cons_of_mem _ hns, hc, hpp⟩, h⟩

theorem visiblePods_append (c : GoMap String Bool) (xs ys : List Namespace) :
    visiblePods c (xs ++ ys) = visiblePods c xs ++ visiblePods c ys := by
  induction xs with
  | nil => simp [visiblePods]
  | cons x rest ih => simp [visiblePods, ih, List.append_assoc]

/-- The widths that the loops of `updatePositions` compute are the maxima of the
specification. -/
theorem buildPositions_widths (c : GoMap String Bool) (nss : List Namespace) :
    (buildPositions c nss).nameWidth = nameWidthSpec c nss ∧
    (buildPositions c nss).statusWidth = statusWidthSpec c nss := by
  obtain ⟨g1, g2, g3⟩ := foldl_nsStep_widths c nss Builder.init
  obtain ⟨a1, a2⟩ := foldl_nsStep_attained c nss Builder.init
  have hpods : ∀ p ∈ visiblePods c nss,
      len p.Name + 5 ≤ (buildPositions c nss).nameWidth ∧
      len p.Status + 3 ≤ (buildPositions c nss).statusWidth := by
    intro p hp
    obtain ⟨ns, hns, hc, hpp⟩ := (mem_visiblePods c nss p).mp hp
    exact (g3 ns hns).2 hc p hpp
  have hnames : ∀ x ∈ nss.map (fun ns => len ns.Name + 2),
      x ≤ (buildPositions c nss).nameWidth := by
    intro x hx
    obtain ⟨ns, hns, rfl⟩ := List.mem_map.mp hx
    exact (g3 ns hns).1
  constructor
  · unfold nameWidthSpec
    apply eq_maxOver
    · rcases maxOver_attained (nss.map (fun ns => len ns.Name + 2)) NameColStartWidth with
        h | h
      · rw [h]; exact g1
      · exact hnames _ h
    · intro x hx
      obtain ⟨p, hp, rfl⟩ := List.mem_map.mp hx
      exact (hpods p hp).1
    · rcases a1 with h | ⟨ns, hns, h⟩ | ⟨p, hp, h⟩
      · left
        exact eq_maxOver _ _ _ g1 hnames (Or.inl h)
      · left
        exact eq_maxOver _ _ _ g1 hnames
          (Or.inr (h ▸ List.mem_map_of_mem (fun ns => len ns.Name + 2) hns))
      · right
        exact h ▸ List.mem_map_of_mem (fun p => len p.Name + 5) hp
  · unfold statusWidthSpec
    apply eq_maxOver
    · exact g2
    · intro x hx
      obtain ⟨p, hp, rfl⟩ := List.mem_map.mp hx
      exact (hpods p hp).2
    · rcases a2 with h | ⟨p, hp, h⟩
      · left; exact h
      · right
        exact h ▸ List.mem_map_of_mem (fun p => len p.Status + 3) hp

/-- C17: the column widths computed by `updatePositions` are the tight maxima over what is
visible: `nameWidth = max(20, len(name) + 2 of every namespace, len(name) + 5 of every pod
of an unfolded namespace)` and `statusWidth = max(8, len(status) + 3 of every pod of an
unfolded namespace)`; both are independent of the widths of before the rebuild, and the
pods of a folded namespace influence neither. -/
theorem updatePositions_widths_exact (gui : Gui) :
    (updatePositions gui).nameWidth = nameWidthSpec gui.nsCollapsed gui.Namespaces ∧
    (updatePositions gui).statusWidth = statusWidthSpec gui.nsCollapsed gui.Namespaces ∧
    (∀ a b : Int,
      (updatePositions { gui with nameWidth := a, statusWidth := b }).nameWidth =
        (updatePositions gui).nameWidth ∧
      (updatePositions { gui with nameWidth := a, statusWidth := b }).statusWidth =
        (updatePositions gui).statusWidth) ∧
    (∀ (before after : List Namespace) (n : Namespace) (ps : List Pod),
      gui.Namespaces = before ++ n :: after → isCollapsed gui.nsCollapsed n.Name = true →
      (updatePositions
        { gui with Namespaces := before ++ { n with Pods := ps } :: after }).nameWidth =
        (updatePositions gui).nameWidth ∧
      (updatePositions
        { gui with Namespaces := before ++ { n with Pods := ps } :: after }).statusWidth =
        (updatePositions gui).statusWidth) := by
  obtain ⟨h1, h2⟩ := buildPositions_widths gui.nsCollapsed gui.Namespaces
  refine ⟨h1, h2, fun a b => ⟨rfl, rfl⟩, ?_⟩
  intro before after n ps hsplit hfold
  obtain ⟨k1, k2⟩ := buildPositions_widths gui.nsCollapsed
    (before ++ { n with Pods := ps } :: after)
  have hvis : visiblePods gui.nsCollapsed (before ++ { n with Pods := ps } :: after) =
      visiblePods gui.nsCollapsed gui.Namespaces := by
    rw [hsplit, visiblePods_append, visiblePods_append]
    simp [visiblePods, hfold]
  have hnames : (before ++ { n with Pods := ps } :: after).map (fun ns => len ns.Name + 2) =
      gui.Namespaces.map (fun ns => len ns.Name + 2) := by
    rw [hsplit]
    simp
  constructor
  · show (buildPositions gui.nsCollapsed (before ++ { n with Pods := ps } :: after)).nameWidth
      = (buildPositions gui.nsCollapsed gui.Namespaces).nameWidth
    rw [k1, h1]
    unfold nameWidthSpec
    rw [hvis, hnames]
  · show (buildPositions gui.nsCollapsed
      (before ++ { n with Pods := ps } :: after)).statusWidth
      = (buildPositions gui.nsCollapsed gui.Namespaces).statusWidth
    rw [k2, h2]
    unfold statusWidthSpec
    rw [hvis]

theorem updatePositions_widths_exact_witness :
    (updatePositions exampleStaleNameGui).nameWidth = 20 ∧
    (rebuildWithFlag exampleTreeGui "default" true).Namespaces =
      [] ++ defaultNamespace :: [{ Name := "ns1", Error := some "timeout", Pods := [] }] ∧
    isCollapsed (rebuildWithFlag exampleTreeGui "default" true).nsCollapsed
      defaultNamespace.Name = true ∧
    (updatePositions
      { rebuildWithFlag exampleTreeGui "default" true with
        Namespaces := [] ++ { defaultNamespace with Pods := [] } ::
          [{ Name := "ns1", Error := some "timeout", Pods := [] }] }).statusWidth =
      (updatePositions (rebuildWithFlag exampleTreeGui "default" true)).statusWidth :=
  ⟨(updatePositions_widths_exact exampleStaleNameGui).1.trans (by decide),
   by decide, by decide,
   ((updatePositions_widths_exact (rebuildWithFlag exampleTreeGui "default" true)).2.2.2
      [] [{ Name := "ns1", Error := some "timeout", Pods := [] }] defaultNamespace []
      (by decide) (by decide)).2⟩

/-! ## C18: redrawing twice -/

/-- The final `yPosition` of `printMainInfo` depends on the index, the height and
`scrollOffset` only. -/
theorem printMainInfoRun_yPosition_congr (g1 g2 : Gui) (hp : g1.Positions = g2.Positions)
    (hh : g1.height = g2.height) (hs : g1.scrollOffset = g2.scrollOffset) :
    (printMainInfoRun g1).2 = (printMainInfoRun g2).2 := by
  obtain ⟨m1, p1, e1⟩ := printMainInfoRun_spec g1
  obtain ⟨m2, p2, e2⟩ := printMainInfoRun_spec g2
  rw [hs] at p1
  have := Populates_unique g2 _ _ m1 m2 ((Populates_congr g1 g2 hp hh _ _ _).mp p1) p2
  rw [e1, e2, this]

/-- C18, as stated, fails: in `exampleEmptyTreeGui` no row is populated, one `redrawAll`
leaves `curY = 4` and a second one, with no command in between, leaves `curY = 5`. -/
theorem second_redraw_moves_cursor :
    (redrawAll exampleEmptyTreeGui).curY = 4 ∧
    (redrawAll (redrawAll exampleEmptyTreeGui)).curY = 5 ∧
    (redrawAll (redrawAll exampleEmptyTreeGui)).curY ≠ (redrawAll exampleEmptyTreeGui).curY := by
  decide

/-- C18, amended: running `redrawAll` twice leaves `curBottomBorder` and `scrollOffset`
exactly as one `redrawAll` leaves them, in every state; and it leaves `curY`, and the whole
state, as one `redrawAll` leaves them whenever the bottom border that `printMainInfo`
computes is not above `curTopBorder`, which with `curTopBorder = InfoAreaStart` is whenever
`printMainInfo` populates at least one row. -/
theorem redrawAll_twice (g : Gui) :
    (redrawAll (redrawAll g)).curBottomBorder = (redrawAll g).curBottomBorder ∧
    (redrawAll (redrawAll g)).scrollOffset = (redrawAll g).scrollOffset ∧
    (g.curTopBorder ≤ (redrawAll g).curBottomBorder →
      (redrawAll (redrawAll g)).curY = (redrawAll g).curY ∧
      redrawAll (redrawAll g) = redrawAll g) ∧
    (g.curTopBorder = InfoAreaStart → printMainInfoRows g ≠ [] →
      (redrawAll (redrawAll g)).curY = (redrawAll g).curY) := by
  obtain ⟨f1, f2, f3, f4, f5, -, -, -, -, -, -, -⟩ := redrawAll_frame g
  obtain ⟨k1, -, -, -, k5, -, -, -, -, -, -, -⟩ := redrawAll_frame (redrawAll g)
  have hrun : (printMainInfoRun (redrawAll g)).2 = (printMainInfoRun g).2 :=
    printMainInfoRun_yPosition_congr _ _ f2 f3 f1
  have hbot : (printMainInfoRun (redrawAll g)).2 - 1 = (redrawAll g).curBottomBorder := by
    rw [hrun, f5]
  have hmain : g.curTopBorder ≤ (redrawAll g).curBottomBorder →
      (redrawAll (redrawAll g)).curY = (redrawAll g).curY ∧
      redrawAll (redrawAll g) = redrawAll g := by
    intro htop
    have hy := redrawAll_curY g
    rw [← f5] at hy
    have hin : (redrawAll g).curTopBorder ≤ (redrawAll g).curY ∧
        (redrawAll g).curY ≤ (redrawAll g).curBottomBorder := by
      rw [f4, hy]
      split
      · omega
      · split <;> omega
    have hprint : printMainInfo (redrawAll g) = redrawAll g := by
      unfold printMainInfo
      rw [hbot]
    have hadj : adjustCursorPosition (redrawAll g) = redrawAll g := by
      unfold adjustCursorPosition
      rw [if_neg (by omega), if_neg (by omega)]
    have hall : redrawAll (redrawAll g) = redrawAll g := by
      show adjustCursorPosition (printMainInfo (redrawAll g)) = _
      rw [hprint, hadj]
    exact ⟨by rw [hall], hall⟩
  refine ⟨by rw [k5, hbot], k1, hmain, ?_⟩
  intro htop hrows
  have hb := printMainInfo_rows_bottom g
  have hlen : 1 ≤ (printMainInfoRows g).length := by
    cases hr : printMainInfoRows g with
    | nil => exact absurd hr hrows
    | cons a rest => simp
  have hb2 : (redrawAll g).curBottomBorder = (printMainInfo g).curBottomBorder := f5
  exact (hmain (by rw [hb2, hb, htop]; omega)).1

theorem redrawAll_twice_witness :
    exampleShortWindowGui.curTopBorder ≤ (redrawAll exampleShortWindowGui).curBottomBorder ∧
    redrawAll (redrawAll exampleShortWindowGui) = redrawAll exampleShortWindowGui ∧
    exampleShortWindowGui.curTopBorder = InfoAreaStart ∧
    printMainInfoRows exampleShortWindowGui ≠ [] ∧
    (redrawAll (redrawAll exampleShortWindowGui)).curY = (redrawAll exampleShortWindowGui).curY :=
  ⟨by decide, ((redrawAll_twice exampleShortWindowGui).2.2.1 (by decide)).2,
   by decide, by decide,
   (redrawAll_twice exampleShortWindowGui).2.2.2 (by decide) (by decide)⟩

/-! ## C15: a single fold or unfold and the cursor -/

theorem rowAt_upto (xs ys zs : List Row) (a : Row) (j : Int) (h : j ≤ (xs.length : Int)) :
    rowAt (xs ++ a :: ys) j = rowAt (xs ++ a :: zs) j := by
  have h1 := rowAt_skip_le xs ys [] a j h
  have h2 := rowAt_skip_le xs zs [] a j h
  simp only [List.append_nil] at h1 h2
  rw [← h1, ← h2]

/-- When no namespace with a row above row `r` has the name of the namespace `n` at row `r`,
writing the flag of that name and rebuilding the index leaves the rows up to `r` as they
are. -/
theorem rebuildWithFlag_rows_upto (gui : Gui) (n : Namespace) (r : Int) (flag : Bool)
    (habove : ∀ (j : Int) (x : Namespace), j < r →
      (updatePositions gui).Positions.namespaces.get? j = some x → x.Name ≠ n.Name)
    (hrow : (updatePositions gui).Positions.namespaces.get? r = some n) :
    ∀ j : Int, j ≤ r →
      (rebuildWithFlag gui n.Name flag).Positions.namespaces.get? j =
        (updatePositions gui).Positions.namespaces.get? j ∧
      (rebuildWithFlag gui n.Name flag).Positions.pods.get? j =
        (updatePositions gui).Positions.pods.get? j ∧
      (rebuildWithFlag gui n.Name flag).Positions.errors.get? j =
        (updatePositions gui).Positions.errors.get? j := by
  obtain ⟨-, hns, hpod, herr⟩ := updatePositions_rows gui
  obtain ⟨-, hnsF, hpodF, herrF⟩ := rebuildWithFlag_rows gui n.Name flag
  have hrow1 : rowAt (flattenTree gui.nsCollapsed gui.Namespaces) r = some (Row.ns n) :=
    bind_asNamespace_eq_some ((hns r).symm.trans hrow)
  obtain ⟨before, after, hsplit, hr⟩ := rowAt_flattenTree_ns _ _ _ _ hrow1
  have hflat0 := flattenTree_around gui.nsCollapsed before after n
  rw [← hsplit] at hflat0
  have hne : ∀ x ∈ before, n.Name ≠ x.Name := by
    intro x hx heq
    obtain ⟨t, ht⟩ := List.mem_iff_getElem?.mp (mem_flattenTree_ns gui.nsCollapsed before x hx)
    have hlt : t < (flattenTree gui.nsCollapsed before).length :=
      (List.getElem?_eq_some.mp ht).1
    have hrowt : rowAt (flattenTree gui.nsCollapsed gui.Namespaces) (t : Int) =
        some (Row.ns x) := by
      rw [hflat0, rowAt_append_left _ _ _ (by omega)]
      unfold rowAt
      rw [if_neg (by omega)]
      simpa using ht
    have hget : (updatePositions gui).Positions.namespaces.get? (t : Int) = some x := by
      have := hns (t : Int)
      rw [hrowt] at this
      exact this
    exact habove (t : Int) x (by omega) hget heq.symm
  have hb : flattenTree (gui.nsCollapsed.set n.Name flag) before =
      flattenTree gui.nsCollapsed before :=
    flattenTree_congr _ _ _ (fun x hx => by rw [isCollapsed_set, if_neg (hne x hx)])
  have hflat := flattenTree_around gui.nsCollapsed before after n
  have hflatF := flattenTree_around (gui.nsCollapsed.set n.Name flag) before after n
  rw [← hsplit] at hflat hflatF
  rw [hb] at hflatF
  rw [hflat] at hns hpod herr
  rw [hflatF] at hnsF hpodF herrF
  intro j hj
  have hup := rowAt_upto (flattenTree gui.nsCollapsed before)
    ((if isCollapsed (gui.nsCollapsed.set n.Name flag) n.Name then []
      else (match n.Error with
            | some msg => [Row.err msg]
            | none => []) ++ n.Pods.map Row.pod) ++
      flattenTree (gui.nsCollapsed.set n.Name flag) after)
    ((if isCollapsed gui.nsCollapsed n.Name then []
      else (match n.Error with
            | some msg => [Row.err msg]
            | none => []) ++ n.Pods.map Row.pod) ++ flattenTree gui.nsCollapsed after)
    (Row.ns n) j (by omega)
  refine ⟨?_, ?_, ?_⟩
  · exact (hnsF j).trans (by rw [hup]; exact (hns j).symm)
  · exact (hpodF j).trans (by rw [hup]; exact (hpod j).symm)
  · exact (herrF j).trans (by rw [hup]; exact (herr j).symm)

theorem hasRow_congr (p1 p2 : Positions) (i : Int)
    (h1 : p1.namespaces.get? i = p2.namespaces.get? i)
    (h2 : p1.pods.get? i = p2.pods.get? i)
    (h3 : p1.errors.get? i = p2.errors.get? i) : p1.hasRow i = p2.hasRow i := by
  unfold Positions.hasRow Positions.hasNamespace Positions.hasPod Positions.hasError
  rw [h1, h2, h3]

/-- The body shared by an acting `collapseNamespace` and `expandNamespace`, in a state left
by a redraw whose index is up to date and has no namespace of the name of `n` above the
cursor, with the cursor inside the borders and on the namespace `n`: the redraw after the
rebuild does not move the cursor and the cursor is still on `n`. -/
theorem rebuild_redraw_keeps_cursor (g g0 : Gui) (n : Namespace) (flag : Bool)
    (hredraw : g = redrawAll g0)
    (hindex : g.Positions = (updatePositions g).Positions)
    (habove : ∀ (j : Int) (x : Namespace), j < cursorIndex g →
      g.Positions.namespaces.get? j = some x → x.Name ≠ n.Name)
    (htop : g.curTopBorder ≤ g.curY) (hbottom : g.curY ≤ g.curBottomBorder)
    (hcursor : g.Positions.namespaces.get? (cursorIndex g) = some n) :
    (redrawAll (rebuildWithFlag g n.Name flag)).scrollOffset = g.scrollOffset ∧
    (redrawAll (rebuildWithFlag g n.Name flag)).curX = g.curX ∧
    (redrawAll (rebuildWithFlag g n.Name flag)).curY = g.curY ∧
    (redrawAll (rebuildWithFlag g n.Name flag)).Positions.namespaces.get?
      (cursorIndex (redrawAll (rebuildWithFlag g n.Name flag))) = some n := by
  have hrowU : (updatePositions g).Positions.namespaces.get? (cursorIndex g) = some n := by
    rw [← hindex]; exact hcursor
  have habove2 : ∀ (j : Int) (x : Namespace), j < cursorIndex g →
      (updatePositions g).Positions.namespaces.get? j = some x → x.Name ≠ n.Name := by
    rw [← hindex]; exact habove
  have hupto := rebuildWithFlag_rows_upto g n (cursorIndex g) flag habove2 hrowU
  rw [← hindex] at hupto
  -- the window of the redraw that left `g`
  obtain ⟨m0, hm0, hrun0⟩ := printMainInfoRun_spec g0
  obtain ⟨r1, r2, r3, -, r5, -, -, -, -, -, -, -⟩ := redrawAll_frame g0
  rw [← hredraw] at r1 r2 r3 r5
  rw [hrun0] at r5
  simp only at r5
  have hmg : Populates g g.scrollOffset InfoAreaStart m0 := by
    rw [r1]
    exact (Populates_congr g g0 r2 r3 _ _ _).mpr hm0
  -- the window of the redraw after the rebuild
  obtain ⟨m1, hm1, hrun1⟩ := printMainInfoRun_spec (rebuildWithFlag g n.Name flag)
  have hs : (rebuildWithFlag g n.Name flag).scrollOffset = g.scrollOffset := rfl
  have hh : (rebuildWithFlag g n.Name flag).height = g.height := rfl
  rw [hs] at hm1
  have hfit : g.curY ≤ InfoAreaStart + (m1 : Int) - 1 := by
    by_contra hnot
    have hlt : m1 < m0 := by omega
    obtain ⟨hrow, hline⟩ := hmg.1 m1 hlt
    have hle : g.scrollOffset + (m1 : Int) ≤ cursorIndex g := by
      unfold cursorIndex; omega
    obtain ⟨e1, e2, e3⟩ := hupto _ hle
    have hrowF : (rebuildWithFlag g n.Name flag).Positions.hasRow
        (g.scrollOffset + (m1 : Int)) = true := by
      rw [hasRow_congr _ g.Positions _ e1 e2 e3]; exact hrow
    rcases hm1.2 with hstop | hstop
    · rw [hstop] at hrowF; cases hrowF
    · rw [hh] at hstop; omega
  obtain ⟨f1, f2, -, -, -, f6, -, -, -, -, -, -⟩ :=
    redrawAll_frame (rebuildWithFlag g n.Name flag)
  have hy := redrawAll_curY (rebuildWithFlag g n.Name flag)
  rw [hrun1] at hy
  have hcy : (rebuildWithFlag g n.Name flag).curY = g.curY := rfl
  have hct : (rebuildWithFlag g n.Name flag).curTopBorder = g.curTopBorder := rfl
  rw [hcy, hct] at hy
  simp only at hy
  rw [if_neg (by omega), if_neg (by omega)] at hy
  have hci : cursorIndex (redrawAll (rebuildWithFlag g n.Name flag)) = cursorIndex g := by
    unfold cursorIndex
    rw [hy, f1, hs]
  refine ⟨by rw [f1, hs], by rw [f6]; rfl, hy, ?_⟩
  rw [hci, f2, (hupto (cursorIndex g) (le_refl _)).1]
  exact hcursor

theorem mem_of_ns_mem_flattenTree (c : GoMap String Bool) (nss : List Namespace)
    (x : Namespace) (h : Row.ns x ∈ flattenTree c nss) : x ∈ nss := by
  induction nss with
  | nil => simp [flattenTree] at h
  | cons y rest ih =>
    rw [flattenTree_cons, List.mem_append] at h
    rcases h with h | h
    · rw [flattenNamespace_eq] at h
      rcases List.mem_cons.mp h with h1 | h1
      · injection h1 with h1
        rw [h1]; exact List.mem_cons_self _ _
      · exact absurd h1 (flattenNamespace_tail_not_ns c y x)
    · exact List.mem_cons_of_mem _ (ih h)

/-- In a tree with pairwise distinct names, no namespace with a row above the row of `n` has
the name of `n`. -/
theorem names_above_of_nodup (gui : Gui) (n : Namespace) (r : Int)
    (hdistinct : (gui.Namespaces.map Namespace.Name).Nodup)
    (hrow : (updatePositions gui).Positions.namespaces.get? r = some n) :
    ∀ (j : Int) (x : Namespace), j < r →
      (updatePositions gui).Positions.namespaces.get? j = some x → x.Name ≠ n.Name := by
  obtain ⟨-, hns, -, -⟩ := updatePositions_rows gui
  have hrow1 : rowAt (flattenTree gui.nsCollapsed gui.Namespaces) r = some (Row.ns n) :=
    bind_asNamespace_eq_some ((hns r).symm.trans hrow)
  obtain ⟨before, after, hsplit, hr⟩ := rowAt_flattenTree_ns _ _ _ _ hrow1
  have hflat := flattenTree_around gui.nsCollapsed before after n
  rw [← hsplit] at hflat
  rw [hsplit] at hdistinct
  intro j x hj hx heq
  have hrowj : rowAt (flattenTree gui.nsCollapsed gui.Namespaces) j = some (Row.ns x) :=
    bind_asNamespace_eq_some ((hns j).symm.trans hx)
  rw [hflat, rowAt_append_left _ _ _ (by omega)] at hrowj
  have hmem := mem_of_ns_mem_flattenTree _ _ _ (rowAt_mem hrowj)
  rw [List.map_append, List.map_cons] at hdistinct
  have hnd := List.nodup_append.mp hdistinct
  exact hnd.2.2 (List.mem_map_of_mem _ hmem) (by rw [heq]; exact List.mem_cons_self _ _)

/-- C15: a single fold or unfold does not re-home the cursor.  In a state `g` left by a
redraw, with `curTopBorder <= curY <= curBottomBorder` and the cursor on a namespace `n`,
`collapseNamespace` and `expandNamespace`, redraw included, leave `scrollOffset`, `curX` and
`curY` unchanged and the cursor still resolves to `n`.  The state is one that the program
is in between two commands: its index is the one of its tree and collapse state (it is
rebuilt on every structural change, before the redraw) and the names are unique within the
tree, of which only this is used: no namespace with a row above the cursor has the name of
`n`. -/
theorem fold_unfold_keeps_cursor (g g0 : Gui) (n : Namespace)
    (hredraw : g = redrawAll g0)
    (hindex : g.Positions = (updatePositions g).Positions)
    (habove : ∀ (j : Int) (x : Namespace), j < cursorIndex g →
      g.Positions.namespaces.get? j = some x → x.Name ≠ n.Name)
    (htop : g.curTopBorder ≤ g.curY) (hbottom : g.curY ≤ g.curBottomBorder)
    (hcursor : g.Positions.namespaces.get? (cursorIndex g) = some n) :
    ((collapseNamespace g).scrollOffset = g.scrollOffset ∧
      (collapseNamespace g).curX = g.curX ∧
      (collapseNamespace g).curY = g.curY ∧
      (collapseNamespace g).Positions.namespaces.get? (cursorIndex (collapseNamespace g)) =
        some n) ∧
    ((expandNamespace g).scrollOffset = g.scrollOffset ∧
      (expandNamespace g).curX = g.curX ∧
      (expandNamespace g).curY = g.curY ∧
      (expandNamespace g).Positions.namespaces.get? (cursorIndex (expandNamespace g)) =
        some n) := by
  have hname : namespaceNameAt g (cursorIndex g) = n.Name := by
    unfold namespaceNameAt
    rw [hcursor]
  have hkeep := fun flag =>
    rebuild_redraw_keeps_cursor g g0 n flag hredraw hindex habove htop hbottom hcursor
  constructor
  · unfold collapseNamespace
    simp only
    split
    · rw [hname]; exact hkeep true
    · exact ⟨rfl, rfl, rfl, hcursor⟩
  · unfold expandNamespace
    simp only
    split
    · rw [hname]; exact hkeep false
    · exact ⟨rfl, rfl, rfl, hcursor⟩

theorem fold_unfold_keeps_cursor_witness :
    exampleCursorOnNs1Gui.Positions = (updatePositions exampleCursorOnNs1Gui).Positions ∧
    (exampleCursorOnNs1Gui.Namespaces.map Namespace.Name).Nodup ∧
    exampleCursorOnNs1Gui.curTopBorder ≤ exampleCursorOnNs1Gui.curY ∧
    exampleCursorOnNs1Gui.curY ≤ exampleCursorOnNs1Gui.curBottomBorder ∧
    exampleCursorOnNs1Gui.Positions.namespaces.get? (cursorIndex exampleCursorOnNs1Gui) =
      some { Name := "ns1", Error := some "timeout", Pods := [] } ∧
    isCollapsed (collapseNamespace exampleCursorOnNs1Gui).nsCollapsed "ns1" = true ∧
    (collapseNamespace exampleCursorOnNs1Gui).curBottomBorder = 8 ∧
    (collapseNamespace exampleCursorOnNs1Gui).curY = 8 :=
  ⟨by decide, by decide, by decide, by decide, by decide, by decide, by decide,
   (fold_unfold_keeps_cursor exampleCursorOnNs1Gui
      { updatePositions exampleTreeGui with curY := 8 }
      { Name := "ns1", Error := some "timeout", Pods := [] } rfl
      (by decide)
      (names_above_of_nodup exampleCursorOnNs1Gui
        { Name := "ns1", Error := some "timeout", Pods := [] } 3 (by decide) (by decide))
      (by decide) (by decide) (by decide)).1.2.2.1.trans (by decide)⟩

/-! ## C16: the lock discipline -/

namespace Guarded

theorem Lock_free (s : Guarded) (h : s.held = false) :
    s.Lock = { s with held := true } := by
  unfold Lock; simp [h]

theorem write_held (s : Guarded) (field : String) (f : Gui → Gui) (h : s.held = true) :
    s.write field f = { s with gui := f s.gui } := by
  unfold write; simp [h]

theorem Unlock_held (s : Guarded) (h : s.held = true) :
    s.Unlock = { s with held := false } := by
  unfold Unlock; simp [h]

theorem test_free (s : Guarded) (line : Nat) (h : s.held = false) :
    s.test line = { s with freeTests := s.freeTests ++ [line] } := by
  unfold test; simp [h]

/-- A `Lock`, one write and an `Unlock`, from a free mutex. -/
theorem locked_write (s : Guarded) (field : String) (f : Gui → Gui) (h : s.held = false) :
    ((s.Lock).write field f).Unlock = { s with gui := f s.gui } := by
  rw [Lock_free s h, write_held _ _ _ rfl, Unlock_held _ rfl]
  simp [h]

theorem updatePositions_held (s : Guarded) (h : s.held = true) :
    s.updatePositions = { s with gui := K8ConsoleViewer.updatePositions s.gui } := by
  unfold updatePositions write
  simp [h, K8ConsoleViewer.updatePositions]

theorem updatePositions_free (s : Guarded) (h : s.held = false) :
    s.updatePositions =
      { s with gui := K8ConsoleViewer.updatePositions s.gui,
               log := s.log ++ ["Positions", "nameWidth", "statusWidth"] } := by
  unfold updatePositions write
  simp [h, K8ConsoleViewer.updatePositions]

theorem printMainInfo_free (s : Guarded) (h : s.held = false) :
    s.printMainInfo = { s with gui := K8ConsoleViewer.printMainInfo s.gui } := by
  unfold printMainInfo
  simp only
  rw [locked_write _ _ _ h]
  rfl

theorem moveCursor_free (s : Guarded) (x y : Int) (h : s.held = false) :
    s.moveCursor x y = { s with gui := K8ConsoleViewer.moveCursor s.gui x y } := by
  unfold moveCursor
  rw [Lock_free s h, write_held _ _ _ rfl, write_held _ _ _ rfl, Unlock_held _ rfl]
  simp [h, K8ConsoleViewer.moveCursor]

theorem adjustCursorPosition_free (s : Guarded) (h : s.held = false) :
    s.adjustCursorPosition = { s with gui := K8ConsoleViewer.adjustCursorPosition s.gui } := by
  unfold adjustCursorPosition K8ConsoleViewer.adjustCursorPosition
  split
  · exact moveCursor_free s _ _ h
  · split
    · exact moveCursor_free s _ _ h
    · rfl

theorem redrawAll_free (s : Guarded) (h : s.held = false) :
    s.redrawAll = { s with gui := K8ConsoleViewer.redrawAll s.gui } := by
  unfold redrawAll
  rw [printMainInfo_free s h]
  exact adjustCursorPosition_free { s with gui := K8ConsoleViewer.printMainInfo s.gui } h

theorem cursorToStartPos_free (s : Guarded) (h : s.held = false) :
    s.cursorToStartPos = { s with gui := K8ConsoleViewer.cursorToStartPos s.gui } := by
  unfold cursorToStartPos
  rw [locked_write _ _ _ h]
  exact moveCursor_free { s with gui := { s.gui with scrollOffset := 0 } } _ _ h

theorem updateWindowSize_free (s : Guarded) (width height : Int) (h : s.held = false) :
    s.updateWindowSize width height =
      { s with gui := { s.gui with width := width, height := height } } := by
  unfold updateWindowSize
  rw [Lock_free s h, write_held _ _ _ rfl, write_held _ _ _ rfl, Unlock_held _ rfl]
  simp [h]

/-- A `Lock`, one write, `updatePositions` and an `Unlock`, from a free mutex. -/
theorem locked_write_update (s : Guarded) (field : String) (f : Gui → Gui)
    (h : s.held = false) :
    (((s.Lock).write field f).updatePositions).Unlock =
      { s with gui := K8ConsoleViewer.updatePositions (f s.gui) } := by
  rw [Lock_free s h, write_held _ _ _ rfl, updatePositions_held _ rfl, Unlock_held _ rfl]
  simp [h]

theorem moveCursorDown_free (s : Guarded) (h : s.held = false) :
    s.moveCursorDown =
      { s with gui := K8ConsoleViewer.moveCursorDown s.gui,
               freeTests := s.freeTests ++ [103] } := by
  unfold moveCursorDown K8ConsoleViewer.moveCursorDown
  rw [test_free s 103 h]
  split
  · exact moveCursor_free { s with freeTests := s.freeTests ++ [103] } _ _ h
  · rw [locked_write { s with freeTests := s.freeTests ++ [103] } _ _ h]
    exact redrawAll_free _ h

theorem moveCursorUp_free (s : Guarded) (h : s.held = false) :
    s.moveCursorUp =
      { s with gui := K8ConsoleViewer.moveCursorUp s.gui,
               freeTests := s.freeTests ++
                 (if s.gui.curY > s.gui.curTopBorder then [114] else [114, 117]) } := by
  unfold moveCursorUp K8ConsoleViewer.moveCursorUp
  rw [test_free s 114 h, test_free { s with freeTests := s.freeTests ++ [114] } 117 h]
  split
  · exact moveCursor_free { s with freeTests := s.freeTests ++ [114] } _ _ h
  · split
    · rw [locked_write { s with freeTests := s.freeTests ++ [114] ++ [117] } _ _ h]
      have e := redrawAll_free
        { s with gui := { s.gui with scrollOffset := s.gui.scrollOffset - 1 },
                 freeTests := s.freeTests ++ [114] ++ [117] } h
      simpa using e
    · simp

theorem collapseNamespace_free (s : Guarded) (h : s.held = false) :
    s.collapseNamespace =
      { s with gui := K8ConsoleViewer.collapseNamespace s.gui,
               freeTests := s.freeTests ++ [58] } := by
  unfold collapseNamespace K8ConsoleViewer.collapseNamespace
  simp only
  rw [test_free s 58 h]
  split
  · rw [locked_write_update { s with freeTests := s.freeTests ++ [58] } _ _ h]
    exact redrawAll_free _ h
  · rfl

theorem expandNamespace_free (s : Guarded) (h : s.held = false) :
    s.expandNamespace =
      { s with gui := K8ConsoleViewer.expandNamespace s.gui,
               freeTests := s.freeTests ++ [69] } := by
  unfold expandNamespace K8ConsoleViewer.expandNamespace
  simp only
  rw [test_free s 69 h]
  split
  · rw [locked_write_update { s with freeTests := s.freeTests ++ [69] } _ _ h]
    exact redrawAll_free _ h
  · rfl

theorem collapseAllNS_free (s : Guarded) (h : s.held = false) :
    s.collapseAllNS = { s with gui := K8ConsoleViewer.collapseAllNS s.gui } := by
  unfold collapseAllNS K8ConsoleViewer.collapseAllNS
  rw [locked_write_update s _ _ h]
  have e1 := cursorToStartPos_free
    ⟨K8ConsoleViewer.updatePositions { s.gui with nsCollapsed := setAllCollapsed s.gui true },
      s.held, s.log, s.freeTests⟩ h
  rw [e1]
  exact redrawAll_free _ h

theorem expandAllNS_free (s : Guarded) (h : s.held = false) :
    s.expandAllNS = { s with gui := K8ConsoleViewer.expandAllNS s.gui } := by
  unfold expandAllNS K8ConsoleViewer.expandAllNS
  rw [locked_write_update s _ _ h]
  have e1 := cursorToStartPos_free
    ⟨K8ConsoleViewer.updatePositions { s.gui with nsCollapsed := setAllCollapsed s.gui false },
      s.held, s.log, s.freeTests⟩ h
  rw [e1]
  exact redrawAll_free _ h

end Guarded

/-- Without a change of the tree in between, the lines 59-63 after a refresh are the lines
59-63 of `collapseNamespace`: when the index and the widths of `g` are up to date,
`collapseNamespaceAfterRefresh` with the tree of `g` is `collapseNamespace`. -/
theorem collapseNamespaceAfterRefresh_same_tree (g : Gui) (h : updatePositions g = g) :
    collapseNamespaceAfterRefresh g g.Namespaces = some (collapseNamespace g) := by
  have hr : refresh g g.Namespaces = g := h
  unfold collapseNamespaceAfterRefresh collapseNamespace collapseNamespaceTest
  simp only [hr]
  split
  · rename_i hc
    have hns : g.Positions.hasNamespace (cursorIndex g) = true := by
      simp only [Bool.and_eq_true] at hc
      exact hc.1
    unfold Positions.hasNamespace at hns
    cases hget : g.Positions.namespaces.get? (cursorIndex g) with
    | none => rw [hget] at hns; cases hns
    | some ns =>
      have hname : namespaceNameAt g (cursorIndex g) = ns.Name := by
        unfold namespaceNameAt; rw [hget]
      simp only [hname]
  · rfl

/-- C16, as stated, fails.  In `exampleCursorOnNs1Gui` the test of `collapseNamespace`
(line 58) is true for the namespace `ns1` under the cursor, and it is taken while
`gui.mutex` is free.  When a refresh to the tree `default`, `other` runs before the `Lock`
of line 59, the locked write folds `other`, which was never tested, and leaves `ns1`
unfolded; when the refresh is to the empty tree, line 60 reads a nil pointer. -/
theorem collapseNamespace_test_is_not_locked :
    collapseNamespaceTest exampleCursorOnNs1Gui = true ∧
    namespaceNameAt exampleCursorOnNs1Gui (cursorIndex exampleCursorOnNs1Gui) = "ns1" ∧
    (Guarded.collapseNamespace (Guarded.start exampleCursorOnNs1Gui)).freeTests = [58] ∧
    (collapseNamespaceAfterRefresh exampleCursorOnNs1Gui
      [defaultNamespace, otherNamespace]).map
        (fun r => (isCollapsed r.nsCollapsed "other", isCollapsed r.nsCollapsed "ns1")) =
      some (true, false) ∧
    collapseNamespaceAfterRefresh exampleCursorOnNs1Gui [] = none := by
  decide

/-- C16, amended: every write that the functions of `gui.go` make to the shared state
(`nsCollapsed`, `Positions`, `nameWidth`, `statusWidth`, `scrollOffset`, `curX`, `curY`,
`curBottomBorder`, `width`, `height`) is made while `gui.mutex` is held: from a state with
the mutex free, every function ends with the mutex free and nothing logged against the
lock discipline, and computes the state change of the one-thread embedding;
`updatePositions` takes no lock itself and keeps the discipline when it is called with the
mutex held.  The decisions are not protected: the fold and unfold tests (lines 58, 69) and
the border tests of the cursor moves (lines 103, 114, 117) are evaluated while the mutex is
free, and when a refresh runs between the test of `collapseNamespace` and its `Lock`, the
locked write folds the namespace that the refreshed index holds at the cursor index. -/
theorem writes_hold_mutex_tests_do_not (s : Guarded) (hclean : s.Clean) :
    ((s.collapseNamespace).Clean ∧ (s.expandNamespace).Clean ∧ (s.collapseAllNS).Clean ∧
      (s.expandAllNS).Clean ∧ (s.moveCursorDown).Clean ∧ (s.moveCursorUp).Clean ∧
      (∀ x y : Int, (s.moveCursor x y).Clean) ∧ (s.redrawAll).Clean ∧
      (s.printMainInfo).Clean ∧ (s.adjustCursorPosition).Clean ∧
      (s.cursorToStartPos).Clean ∧ (∀ width height : Int, (s.updateWindowSize width height).Clean)) ∧
    ((s.collapseNamespace).gui = collapseNamespace s.gui ∧
      (s.expandNamespace).gui = expandNamespace s.gui ∧
      (s.collapseAllNS).gui = collapseAllNS s.gui ∧
      (s.expandAllNS).gui = expandAllNS s.gui ∧
      (s.moveCursorDown).gui = moveCursorDown s.gui ∧
      (s.moveCursorUp).gui = moveCursorUp s.gui ∧
      (s.redrawAll).gui = redrawAll s.gui) ∧
    (((s.Lock).updatePositions).log = [] ∧
      ((s.Lock).updatePositions).gui = updatePositions s.gui ∧
      (s.updatePositions).log = ["Positions", "nameWidth", "statusWidth"]) ∧
    ((s.collapseNamespace).freeTests = s.freeTests ++ [58] ∧
      (s.expandNamespace).freeTests = s.freeTests ++ [69] ∧
      (s.moveCursorDown).freeTests = s.freeTests ++ [103] ∧
      (s.moveCursorUp).freeTests =
        s.freeTests ++ (if s.gui.curY > s.gui.curTopBorder then [114] else [114, 117])) ∧
    (∀ (namespaces : List Namespace) (ns : Namespace),
      collapseNamespaceTest s.gui = true →
      (refresh s.gui namespaces).Positions.namespaces.get? (cursorIndex s.gui) = some ns →
      ∃ r : Gui, collapseNamespaceAfterRefresh s.gui namespaces = some r ∧
        r.nsCollapsed = s.gui.nsCollapsed.set ns.Name true) := by
  obtain ⟨hheld, hlog⟩ := hclean
  have keep : ∀ (t : Guarded) (g : Gui) (tests : List Nat),
      t = { s with gui := g, freeTests := tests } → t.Clean := by
    intro t g tests ht
    rw [ht]
    exact ⟨hheld, hlog⟩
  refine ⟨⟨?_, ?_, ?_, ?_, ?_, ?_, ?_, ?_, ?_, ?_, ?_, ?_⟩, ⟨?_, ?_, ?_, ?_, ?_, ?_, ?_⟩,
    ⟨?_, ?_, ?_⟩, ⟨?_, ?_, ?_, ?_⟩, ?_⟩
  · exact keep _ _ _ (Guarded.collapseNamespace_free s hheld)
  · exact keep _ _ _ (Guarded.expandNamespace_free s hheld)
  · exact keep _ _ _ (Guarded.collapseAllNS_free s hheld)
  · exact keep _ _ _ (Guarded.expandAllNS_free s hheld)
  · exact keep _ _ _ (Guarded.moveCursorDown_free s hheld)
  · exact keep _ _ _ (Guarded.moveCursorUp_free s hheld)
  · intro x y; exact keep _ _ _ (Guarded.moveCursor_free s x y hheld)
  · exact keep _ _ _ (Guarded.redrawAll_free s hheld)
  · exact keep _ _ _ (Guarded.printMainInfo_free s hheld)
  · exact keep _ _ _ (Guarded.adjustCursorPosition_free s hheld)
  · exact keep _ _ _ (Guarded.cursorToStartPos_free s hheld)
  · intro width height; exact keep _ _ _ (Guarded.updateWindowSize_free s width height hheld)
  · rw [Guarded.collapseNamespace_free s hheld]
  · rw [Guarded.expandNamespace_free s hheld]
  · rw [Guarded.collapseAllNS_free s hheld]
  · rw [Guarded.expandAllNS_free s hheld]
  · rw [Guarded.moveCursorDown_free s hheld]
  · rw [Guarded.moveCursorUp_free s hheld]
  · rw [Guarded.redrawAll_free s hheld]
  · rw [Guarded.Lock_free s hheld, Guarded.updatePositions_held _ rfl]
    exact hlog
  · rw [Guarded.Lock_free s hheld, Guarded.updatePositions_held _ rfl]
  · rw [Guarded.updatePositions_free s hheld]
    simp [hlog]
  · rw [Guarded.collapseNamespace_free s hheld]
  · rw [Guarded.expandNamespace_free s hheld]
  · rw [Guarded.moveCursorDown_free s hheld]
  · rw [Guarded.moveCursorUp_free s hheld]
  · intro namespaces ns htest hget
    unfold collapseNamespaceAfterRefresh
    simp only [htest, if_true, hget]
    refine ⟨_, rfl, ?_⟩
    exact rebuildWithFlag_nsCollapsed (refresh s.gui namespaces) ns.Name true

theorem writes_hold_mutex_tests_do_not_witness :
    (Guarded.start exampleCursorOnNs1Gui).Clean ∧
    (Guarded.collapseNamespace (Guarded.start exampleCursorOnNs1Gui)).Clean ∧
    (Guarded.collapseNamespace (Guarded.start exampleCursorOnNs1Gui)).freeTests = [58] ∧
    (Guarded.moveCursorDown (Guarded.start exampleCursorOnNs1Gui)).gui =
      moveCursorDown exampleCursorOnNs1Gui :=
  ⟨⟨rfl, rfl⟩,
   (writes_hold_mutex_tests_do_not (Guarded.start exampleCursorOnNs1Gui) ⟨rfl, rfl⟩).1.1,
   (writes_hold_mutex_tests_do_not (Guarded.start exampleCursorOnNs1Gui) ⟨rfl, rfl⟩).2.2.2.1.1,
   (writes_hold_mutex_tests_do_not (Guarded.start exampleCursorOnNs1Gui)
      ⟨rfl, rfl⟩).2.1.2.2.2.2.1⟩

end K8ConsoleViewer
